import Mathlib

/-!
# construction-dispatch: the job and location handlers of `server.js`

A shallow embedding of the request handlers of `src/server.js` and of the
client-side socket service (`frontend/src/services/socketService.js`,
`frontend/src/components/JobList.js`, `frontend/src/components/Dashboard.js`) and
offline queue (`frontend/src/components/LocationTracker.js`).

* JSON request values are `JVal`; JavaScript truthiness is `JVal.truthy`.
* The PostgreSQL store is an explicit state `Db` (tables as lists of rows). Each
  `pool.query` call of the source is a function on `Db` returning `Except PgError`;
  a raised error is what the handler's `catch` turns into HTTP 500.
* The schema of the `setup-database` route (NOT NULL, CHECK, VARCHAR lengths,
  foreign keys, ON DELETE CASCADE, the `updated_at` trigger) is part of the store
  functions. The text-to-type input routines of the database engine (integer, date,
  time and numeric literals) are not code of this repository: they are the fields of
  the parameter `Pg`.
* Timestamps are natural numbers counting microseconds; the current time is an
  argument of the handlers.
* A callback of the location tracker is one function from the component state it
  reads to a `TrackerRun`; whether the awaited request resolves is an argument.
* A handler returns an `Outcome`: the new store, the HTTP response and the list of
  `io.emit` calls it made. `SocketServer.emit` turns one `io.emit` call into the
  deliveries to the connected sockets.
-/

namespace Dispatch

set_option autoImplicit false

/-! ## JSON values -/

/-- A JSON value as found in a parsed request body. `undefined` is an absent key.
`int` is an integral number, `frac` a non-integral number carried by its decimal text,
`obj` an array or object carried by the text the database driver sends for it. -/
inductive JVal where
  | undefined
  | null
  | bool (b : Bool)
  | int (n : Int)
  | frac (text : String)
  | str (s : String)
  | obj (text : String)
deriving DecidableEq

/-- JavaScript truthiness, the test behind `if (x)` and `!x`. -/
def JVal.truthy : JVal → Bool
  | .undefined => false
  | .null => false
  | .bool b => b
  | .int n => n != 0
  | .frac _ => true
  | .str s => s != ""
  | .obj _ => true

/-- The text node-postgres binds for a query parameter; `none` is SQL NULL. An
integral number is bound by its decimal digits (JavaScript prints numbers from `10^21`
on in exponent form; such values are outside this model). -/
def pgParam : JVal → Option String
  | .undefined => none
  | .null => none
  | .bool b => some (if b then "true" else "false")
  | .int n => some (toString n)
  | .frac t => some t
  | .str s => some s
  | .obj t => some t

/-! ## The store -/

/-- Errors raised by a statement. Every one of them reaches the handler's `catch`. -/
inductive PgError where
  | malformedStatement
  | invalidText
  | stringTooLong
  | notNull
  | checkViolation
  | foreignKey
deriving DecidableEq

/-- Input routines of the database engine, taken as parameters: the value a text
denotes in a column type, or `none` when the engine rejects the text; `dateLt` is the
order of date values. -/
structure Pg where
  int4In : String → Option Int
  dateIn : String → Option String
  timeIn : String → Option String
  numericIn : Nat → Nat → String → Option Int
  dateLt : String → String → Bool

/-- A row of `users`. -/
structure UserRow where
  id : Int
  username : String
  password : String
  name : String
  role : String
  active : Bool
deriving DecidableEq

/-- A row of `jobs`. Nullable columns are `Option`. -/
structure Job where
  id : Int
  title : String
  description : Option String
  address : String
  due_date : String
  due_time : Option String
  driver_id : Option Int
  created_by : Option Int
  status : Option String
  created_at : Nat
  updated_at : Nat
deriving DecidableEq

/-- A row of `job_notes`. -/
structure JobNote where
  id : Int
  job_id : Option Int
  author_id : Option Int
  note : String
  created_at : Nat
deriving DecidableEq

/-- A row of `driver_locations`; coordinates are scaled by `10^8` (eight decimals). -/
structure DriverLocation where
  driver_id : Int
  latitude : Int
  longitude : Int
  updated_at : Nat
deriving DecidableEq

/-- The database: the four tables and the last values of the two id sequences. -/
structure Db where
  users : List UserRow
  jobs : List Job
  notes : List JobNote
  locations : List DriverLocation
  jobSeq : Int
  noteSeq : Int
deriving DecidableEq

/-- The five values of the CHECK constraint on `jobs.status`. -/
def statuses : List String :=
  ["pending", "assigned", "in_progress", "completed", "cancelled"]

/-- Storing a text into `VARCHAR(n)`: over-length text is an error unless the excess
is all spaces, in which case it is cut to `n` characters. -/
def varcharIn (n : Nat) (s : String) : Option String :=
  if s.length ≤ n then some s
  else if (s.data.drop n).all (fun c => c == ' ') then some (String.mk (s.data.take n))
  else none

/-- Foreign key `REFERENCES users(id)`: NULL passes, a value must name a user. -/
def userRefOk (db : Db) : Option Int → Bool
  | none => true
  | some u => db.users.any (fun r => r.id == u)

/-- Columns of `jobs` that the update route can assign. -/
inductive JobCol where
  | title
  | description
  | address
  | due_date
  | due_time
  | driver_id
  | status
deriving DecidableEq

/-- The column name as written in the statement. -/
def JobCol.name : JobCol → String
  | .title => "title"
  | .description => "description"
  | .address => "address"
  | .due_date => "due_date"
  | .due_time => "due_time"
  | .driver_id => "driver_id"
  | .status => "status"

/-- A bound parameter converted to the type of its column. -/
inductive JobSet where
  | title (v : Option String)
  | description (v : Option String)
  | address (v : Option String)
  | due_date (v : Option String)
  | due_time (v : Option String)
  | driver_id (v : Option Int)
  | status (v : Option String)
deriving DecidableEq

/-- Lift an input routine to a nullable parameter: NULL stays NULL, a rejected text
raises. -/
def bindWith {α : Type} (f : String → Option α) : Option String → Except PgError (Option α)
  | none => .ok none
  | some t =>
    match f t with
    | none => .error .invalidText
    | some a => .ok (some a)

/-- Length coercion of a nullable text parameter to `VARCHAR(n)`. -/
def bindVarchar (n : Nat) : Option String → Except PgError (Option String)
  | none => .ok none
  | some t =>
    match varcharIn n t with
    | none => .error .stringTooLong
    | some s => .ok (some s)

/-- Conversion of the parameter bound to a column of `jobs` to the column type. -/
def bindJobParam (pg : Pg) (c : JobCol) (v : JVal) : Except PgError JobSet :=
  match c with
  | .title => (bindVarchar 200 (pgParam v)).map JobSet.title
  | .description => .ok (JobSet.description (pgParam v))
  | .address => .ok (JobSet.address (pgParam v))
  | .due_date => (bindWith pg.dateIn (pgParam v)).map JobSet.due_date
  | .due_time => (bindWith pg.timeIn (pgParam v)).map JobSet.due_time
  | .driver_id => (bindWith pg.int4In (pgParam v)).map JobSet.driver_id
  | .status => (bindVarchar 20 (pgParam v)).map JobSet.status

/-- Conversion of all parameters of a statement, in order; the first failure raises. -/
def bindJobParams (pg : Pg) : List (JobCol × JVal) → Except PgError (List JobSet)
  | [] => .ok []
  | (c, v) :: rest =>
    match bindJobParam pg c v with
    | .error e => .error e
    | .ok s =>
      match bindJobParams pg rest with
      | .error e => .error e
      | .ok ss => .ok (s :: ss)

/-- Assign one column of a row, enforcing the column constraints of the schema:
NOT NULL on title, address and due_date, the CHECK on status, the foreign key on
driver_id. -/
def Job.assign (db : Db) (j : Job) : JobSet → Except PgError Job
  | .title none => .error .notNull
  | .title (some t) => .ok { j with title := t }
  | .description d => .ok { j with description := d }
  | .address none => .error .notNull
  | .address (some a) => .ok { j with address := a }
  | .due_date none => .error .notNull
  | .due_date (some d) => .ok { j with due_date := d }
  | .due_time t => .ok { j with due_time := t }
  | .driver_id d => if userRefOk db d then .ok { j with driver_id := d } else .error .foreignKey
  | .status none => .ok { j with status := none }
  | .status (some s) => if s ∈ statuses then .ok { j with status := some s } else .error .checkViolation

/-- Assign a list of columns in order. -/
def Job.assignAll (db : Db) (j : Job) : List JobSet → Except PgError Job
  | [] => .ok j
  | s :: ss =>
    match j.assign db s with
    | .error e => .error e
    | .ok j1 => Job.assignAll db j1 ss

/-- The row written by `UPDATE jobs SET ...` for a matching row: the assignments, then
the trigger `update_jobs_updated_at` sets `updated_at` to the current time. -/
def Job.updated (db : Db) (now : Nat) (sets : List JobSet) (j : Job) : Except PgError Job :=
  match j.assignAll db sets with
  | .error e => .error e
  | .ok j1 => .ok { j1 with updated_at := now }

/-- Rewrite the rows whose id is `n` with `f`; returns the new table and the rewritten
rows (the `RETURNING *` rows). Any row error aborts the statement. -/
def updateRows (f : Job → Except PgError Job) (n : Int) :
    List Job → Except PgError (List Job × List Job)
  | [] => .ok ([], [])
  | j :: js =>
    if j.id = n then
      match f j with
      | .error e => .error e
      | .ok j1 =>
        match updateRows f n js with
        | .error e => .error e
        | .ok (tbl, ret) => .ok (j1 :: tbl, j1 :: ret)
    else
      match updateRows f n js with
      | .error e => .error e
      | .ok (tbl, ret) => .ok (j :: tbl, ret)

/-- Binding of the route parameter `:id` to the integer column `id`. -/
def bindId (pg : Pg) (id : String) : Except PgError Int :=
  match pg.int4In id with
  | none => .error .invalidText
  | some n => .ok n

/-- The statement `SELECT driver_id FROM jobs WHERE id = $1`. -/
def selectJobDriver (pg : Pg) (db : Db) (id : String) : Except PgError (List (Option Int)) :=
  match bindId pg id with
  | .error e => .error e
  | .ok n => .ok ((db.jobs.filter (fun j => j.id == n)).map (fun j => j.driver_id))

/-- The statement `INSERT INTO jobs (title, description, address, due_date, due_time,
driver_id, created_by, status) VALUES ($1, ..., $7, 'pending') RETURNING *`: the six
body parameters are converted and assigned under the column constraints, `created_by`
must name a user, the id is the next value of the sequence, both timestamps default
to the current time. Sequence values burnt by a failed insert are not modelled. -/
def insertJob (pg : Pg) (db : Db) (now : Nat)
    (title description address due_date due_time driver_id : JVal) (created_by : Int) :
    Except PgError (Job × Db) :=
  match bindJobParams pg [(.title, title), (.description, description), (.address, address),
      (.due_date, due_date), (.due_time, due_time), (.driver_id, driver_id)] with
  | .error e => .error e
  | .ok sets =>
    let blank : Job :=
      { id := db.jobSeq + 1, title := "", description := none, address := "", due_date := "",
        due_time := none, driver_id := none, created_by := some created_by,
        status := some "pending", created_at := now, updated_at := now }
    match blank.assignAll db sets with
    | .error e => .error e
    | .ok row =>
      if userRefOk db (some created_by) then
        .ok (row, { db with jobs := db.jobs ++ [row], jobSeq := db.jobSeq + 1 })
      else .error .foreignKey

/-- A statement `UPDATE jobs SET c1 = $1, ..., ck = $k WHERE id = $(k+1) RETURNING *`
given by its assigned columns and their parameters. With no assignment the text is not
a statement and the engine raises. Parameters are converted first, then each row with
the given id is rewritten. Returns the `RETURNING *` rows and the new store. -/
def execJobUpdate (pg : Pg) (db : Db) (now : Nat) (sets : List (JobCol × JVal)) (id : String) :
    Except PgError (List Job × Db) :=
  match sets with
  | [] => .error .malformedStatement
  | _ :: _ =>
    match bindJobParams pg sets with
    | .error e => .error e
    | .ok vals =>
      match bindId pg id with
      | .error e => .error e
      | .ok n =>
        match updateRows (Job.updated db now vals) n db.jobs with
        | .error e => .error e
        | .ok (tbl, ret) => .ok (ret, { db with jobs := tbl })

/-- The statement `DELETE FROM jobs WHERE id = $1 RETURNING *`; `job_notes.job_id` is
declared `ON DELETE CASCADE`, so the notes of a deleted job go with it. -/
def deleteJobRows (pg : Pg) (db : Db) (id : String) : Except PgError (List Job × Db) :=
  match bindId pg id with
  | .error e => .error e
  | .ok n =>
    let gone := db.jobs.filter (fun j => j.id == n)
    match gone with
    | [] => .ok ([], db)
    | _ :: _ =>
      .ok (gone, { db with jobs := db.jobs.filter (fun j => j.id != n),
                           notes := db.notes.filter (fun m => m.job_id != some n) })

/-- The upsert `INSERT INTO driver_locations (driver_id, latitude, longitude) VALUES
($1, $2, $3) ON CONFLICT (driver_id) DO UPDATE SET latitude = $2, longitude = $3,
updated_at = CURRENT_TIMESTAMP`. Latitude is `DECIMAL(10, 8)`, longitude
`DECIMAL(11, 8)`, both NOT NULL; `driver_id` references `users(id)`. -/
def upsertLocation (pg : Pg) (db : Db) (now : Nat) (driver : Int) (latitude longitude : JVal) :
    Except PgError Db :=
  match bindWith (pg.numericIn 10 8) (pgParam latitude),
        bindWith (pg.numericIn 11 8) (pgParam longitude) with
  | .error e, _ => .error e
  | _, .error e => .error e
  | .ok none, _ => .error .notNull
  | _, .ok none => .error .notNull
  | .ok (some lat), .ok (some lng) =>
    let row : DriverLocation :=
      { driver_id := driver, latitude := lat, longitude := lng, updated_at := now }
    if db.locations.any (fun l => l.driver_id == driver) then
      .ok { db with locations :=
              db.locations.map (fun l => if l.driver_id == driver then row else l) }
    else if userRefOk db (some driver) then
      .ok { db with locations := db.locations ++ [row] }
    else .error .foreignKey

/-- A row of `SELECT n.*, u.name as author_name FROM job_notes n JOIN users u`. -/
structure NoteRow where
  note : JobNote
  author_name : String
deriving DecidableEq

/-- A row of `SELECT dl.*, u.name as driver_name FROM driver_locations dl JOIN users u`. -/
structure LocationRow where
  loc : DriverLocation
  driver_name : String
deriving DecidableEq

/-- A row of `SELECT j.*, u.name as driver_name, u.username as driver_username FROM
jobs j LEFT JOIN users u`, the shape of the job listing. -/
structure JobListRow where
  job : Job
  driver_name : Option String
  driver_username : Option String
deriving DecidableEq

/-- The statement `INSERT INTO job_notes (job_id, author_id, note) VALUES ($1, $2, $3)
RETURNING *`: `job_id` references `jobs(id)`, `author_id` references `users(id)`,
`note` is NOT NULL; the id is the next value of the sequence and `created_at` defaults to
the current time. -/
def insertNote (pg : Pg) (db : Db) (now : Nat) (id : String) (author : Int) (note : JVal) :
    Except PgError (JobNote × Db) :=
  match bindId pg id with
  | .error e => .error e
  | .ok n =>
    match pgParam note with
    | none => .error .notNull
    | some text =>
      if db.jobs.any (fun j => j.id == n) && userRefOk db (some author) then
        let row : JobNote :=
          { id := db.noteSeq + 1, job_id := some n, author_id := some author, note := text,
            created_at := now }
        .ok (row, { db with notes := db.notes ++ [row], noteSeq := db.noteSeq + 1 })
      else .error .foreignKey

/-- The rows of `JOIN users u ON n.author_id = u.id` for one note. -/
def withAuthor (db : Db) (m : JobNote) : List NoteRow :=
  (db.users.filter (fun u => some u.id == m.author_id)).map
    (fun u => { note := m, author_name := u.name })

/-- The statement `SELECT n.*, u.name as author_name FROM job_notes n JOIN users u ON
n.author_id = u.id WHERE n.id = $1`, run with the id of a stored note. -/
def selectNoteWithAuthor (db : Db) (noteId : Int) : List NoteRow :=
  (db.notes.filter (fun m => m.id == noteId)).flatMap (withAuthor db)

/-- Insert a note row before the first row created later (`ORDER BY created_at ASC`). -/
def insertByCreated (r : NoteRow) : List NoteRow → List NoteRow
  | [] => [r]
  | x :: xs =>
    if r.note.created_at < x.note.created_at then r :: x :: xs
    else x :: insertByCreated r xs

/-- Rows in ascending order of `created_at`. -/
def sortByCreated : List NoteRow → List NoteRow
  | [] => []
  | r :: rs => insertByCreated r (sortByCreated rs)

/-- The statement `SELECT n.*, u.name as author_name FROM job_notes n JOIN users u ON
n.author_id = u.id WHERE n.job_id = $1 ORDER BY n.created_at ASC`. -/
def selectNotes (pg : Pg) (db : Db) (id : String) : Except PgError (List NoteRow) :=
  match bindId pg id with
  | .error e => .error e
  | .ok n =>
    .ok (sortByCreated ((db.notes.filter (fun m => m.job_id == some n)).flatMap (withAuthor db)))

/-- One hour in the unit of the timestamps (microseconds). -/
def oneHour : Nat := 3600000000

/-- One minute in the unit of the timestamps. -/
def oneMinute : Nat := 60000000

/-- The test `dl.updated_at > NOW() - INTERVAL '1 hour'`. -/
def updatedWithinHour (now : Nat) (l : DriverLocation) : Bool :=
  decide ((now : Int) - (oneHour : Int) < (l.updated_at : Int))

/-- The statement `SELECT dl.*, u.name as driver_name FROM driver_locations dl JOIN users
u ON dl.driver_id = u.id WHERE dl.updated_at > NOW() - INTERVAL '1 hour'`. -/
def selectActiveLocations (db : Db) (now : Nat) : List LocationRow :=
  (db.locations.filter (updatedWithinHour now)).flatMap (fun l =>
    (db.users.filter (fun u => u.id == l.driver_id)).map
      (fun u => { loc := l, driver_name := u.name }))

/-- The rows of `LEFT JOIN users u ON j.driver_id = u.id` for one job, as selected by
the job listing `app.get('/api/jobs')`: the name columns are NULL when no user
matches. -/
def withDriver (db : Db) (j : Job) : List JobListRow :=
  match db.users.filter (fun u => some u.id == j.driver_id) with
  | [] => [{ job := j, driver_name := none, driver_username := none }]
  | u :: us =>
    (u :: us).map (fun x =>
      { job := j, driver_name := some x.name, driver_username := some x.username })

/-! ## Requests, responses, events -/

/-- The claims of a verified token, `req.user`. -/
structure TokenUser where
  id : Int
  username : String
  role : String
deriving DecidableEq

/-- The body of a job create or update request after destructuring. -/
structure JobBody where
  title : JVal := .undefined
  description : JVal := .undefined
  address : JVal := .undefined
  due_date : JVal := .undefined
  due_time : JVal := .undefined
  driver_id : JVal := .undefined
  status : JVal := .undefined
deriving DecidableEq

/-- The body of a location report after destructuring. -/
structure LocationBody where
  latitude : JVal := .undefined
  longitude : JVal := .undefined
deriving DecidableEq

/-- The object emitted with `location_update`. -/
structure LocationMsg where
  driver_id : Int
  latitude : JVal
  longitude : JVal
  timestamp : Nat
deriving DecidableEq

/-- Payload of a realtime event. `jobId` is the object with the single key `id`; its
value is `none` when `parseInt` yields NaN. `job` is a bare row of `jobs`, `note` a
note row joined with its author, `undefined` the value of `rows[0]` on an empty
result. -/
inductive Payload where
  | job (j : Job)
  | jobId (id : Option Int)
  | location (m : LocationMsg)
  | note (r : NoteRow)
  | undefined
deriving DecidableEq

/-- One `io.emit(name, payload)` call. -/
structure Event where
  name : String
  payload : Payload
deriving DecidableEq

/-- The columns `id, username, name, role, active` returned by the user update. -/
structure UserView where
  id : Int
  username : String
  name : String
  role : String
  active : Bool
deriving DecidableEq

/-- The JSON body of a response. -/
inductive ResBody where
  | error (msg : String)
  | message (msg : String)
  | job (j : Job)
  | note (r : NoteRow)
  | notes (rows : List NoteRow)
  | locations (rows : List LocationRow)
  | undefined
  | user (u : UserView)
  | jobs (rows : List JobListRow)
deriving DecidableEq

/-- An HTTP response. -/
structure Response where
  status : Nat
  body : ResBody
deriving DecidableEq

/-- What a handler did: the store it leaves, its response, its `io.emit` calls. -/
structure Outcome where
  db : Db
  res : Response
  emitted : List Event
deriving DecidableEq

/-- The reply `res.status(403).json` with `Access denied`. -/
def accessDenied : Response := ⟨403, .error "Access denied"⟩

/-- The reply of every `catch` block. -/
def serverError : Response := ⟨500, .error "Server error"⟩

/-- The reply `res.status(404).json` with `Job not found`. -/
def jobNotFound : Response := ⟨404, .error "Job not found"⟩

/-! ## `parseInt` -/

/-- Value of a decimal or hexadecimal digit. -/
def digitValue (c : Char) : Option Nat :=
  if c.isDigit then some (c.toNat - 48)
  else if 97 ≤ c.toNat ∧ c.toNat ≤ 102 then some (c.toNat - 87)
  else if 65 ≤ c.toNat ∧ c.toNat ≤ 70 then some (c.toNat - 55)
  else none

/-- Read the longest run of digits below `radix`; `none` when the run is empty. -/
def readDigits (radix : Nat) : List Char → Option Nat → Option Nat
  | [], acc => acc
  | c :: cs, acc =>
    match digitValue c with
    | none => acc
    | some d =>
      if d < radix then readDigits radix cs (some (acc.getD 0 * radix + d)) else acc

/-- White space and line terminators of JavaScript, by code point. -/
def jsWhiteSpace (c : Char) : Bool :=
  let n := c.toNat
  n = 9 || n = 10 || n = 11 || n = 12 || n = 13 || n = 32 || n = 160 || n = 5760 ||
  (8192 ≤ n && n ≤ 8202) || n = 8232 || n = 8233 || n = 8239 || n = 8287 || n = 12288 ||
  n = 65279

/-- JavaScript `parseInt(s)` with no radix: leading white space, an optional sign, an
optional `0x`, then the longest run of digits; `none` is NaN. -/
def jsParseInt (s : String) : Option Int :=
  let cs := s.data.dropWhile jsWhiteSpace
  let signed : Bool × List Char :=
    match cs with
    | '-' :: r => (true, r)
    | '+' :: r => (false, r)
    | r => (false, r)
  let mag : Option Nat :=
    match signed.2 with
    | '0' :: 'x' :: r => readDigits 16 r none
    | '0' :: 'X' :: r => readDigits 16 r none
    | r => readDigits 10 r none
  mag.map (fun n => if signed.1 then -(n : Int) else (n : Int))

/-! ## The handlers of `server.js` -/

/-- One conditional step of the update query builder: `paramCount++`, the clause
`col = $paramCount, ` appended to the text, the value pushed on `params`. `cols`
records which columns the text assigns. -/
structure UpdateQuery where
  query : String
  params : List JVal
  paramCount : Nat
  cols : List JobCol

/-- Append the clause for one column. -/
def UpdateQuery.push (q : UpdateQuery) (c : JobCol) (v : JVal) : UpdateQuery :=
  { query := q.query ++ c.name ++ " = $" ++ toString (q.paramCount + 1) ++ ", "
    params := q.params ++ [v]
    paramCount := q.paramCount + 1
    cols := q.cols ++ [c] }

/-- The query builder of `app.put('/api/jobs/:id')` (from `let query = 'UPDATE jobs SET '`
to `params.push(id)`): a clause for each of title, address, due_date and status that is
truthy and for each of description, due_time and driver_id that is not `undefined`;
then the last two characters are cut and the WHERE clause is appended. -/
def buildJobUpdate (body : JobBody) (id : String) : UpdateQuery :=
  let q0 : UpdateQuery := { query := "UPDATE jobs SET ", params := [], paramCount := 0, cols := [] }
  let q1 := if body.title.truthy then q0.push .title body.title else q0
  let q2 := if body.description ≠ .undefined then q1.push .description body.description else q1
  let q3 := if body.address.truthy then q2.push .address body.address else q2
  let q4 := if body.due_date.truthy then q3.push .due_date body.due_date else q3
  let q5 := if body.due_time ≠ .undefined then q4.push .due_time body.due_time else q4
  let q6 := if body.driver_id ≠ .undefined then q5.push .driver_id body.driver_id else q5
  let q7 := if body.status.truthy then q6.push .status body.status else q6
  { query := String.mk (q7.query.data.take (q7.query.length - 2)) ++
      " WHERE id = $" ++ toString (q7.paramCount + 1) ++ " RETURNING *"
    params := q7.params ++ [.str id]
    paramCount := q7.paramCount + 1
    cols := q7.cols }

/-- Reply of the update route after its UPDATE statement: 500 when it raised, 404 when
it returned no row, otherwise `job_updated` is emitted with the first returned row and
the row is the reply. -/
def finishUpdate (db : Db) : Except PgError (List Job × Db) → Outcome
  | .error _ => { db := db, res := serverError, emitted := [] }
  | .ok ([], db1) => { db := db1, res := jobNotFound, emitted := [] }
  | .ok (row :: _, db1) =>
    { db := db1, res := ⟨200, .job row⟩, emitted := [⟨"job_updated", .job row⟩] }

/-- The general branch of `app.put('/api/jobs/:id')`: build the statement and run it. -/
def putJobGeneral (pg : Pg) (db : Db) (now : Nat) (id : String) (body : JobBody) : Outcome :=
  let q := buildJobUpdate body id
  finishUpdate db (execJobUpdate pg db now (q.cols.zip q.params) id)

/-- The handler `app.put('/api/jobs/:id')`. A driver is first checked against the
`driver_id` of the job; with a truthy `status` the driver branch runs
`UPDATE jobs SET status = $1 WHERE id = $2` and returns; otherwise control falls
through to the general query builder, as it does for every other role. -/
def putJob (pg : Pg) (db : Db) (now : Nat) (user : TokenUser) (id : String) (body : JobBody) :
    Outcome :=
  if user.role = "driver" then
    match selectJobDriver pg db id with
    | .error _ => { db := db, res := serverError, emitted := [] }
    | .ok [] => { db := db, res := accessDenied, emitted := [] }
    | .ok (d :: _) =>
      if d ≠ some user.id then { db := db, res := accessDenied, emitted := [] }
      else if body.status.truthy then
        finishUpdate db (execJobUpdate pg db now [(.status, body.status)] id)
      else putJobGeneral pg db now id body
  else putJobGeneral pg db now id body

/-- Reply of the create route after its INSERT statement: 500 when it raised, otherwise
`job_created` is emitted with the returned row and the row is the reply (201). -/
def finishCreate (db : Db) : Except PgError (Job × Db) → Outcome
  | .error _ => { db := db, res := serverError, emitted := [] }
  | .ok (row, db1) =>
    { db := db1, res := ⟨201, .job row⟩, emitted := [⟨"job_created", .job row⟩] }

/-- The reply `res.status(400).json` of the create route. -/
def createInvalid : Response := ⟨400, .error "Title, address, and due date are required"⟩

/-- The handler `app.post('/api/jobs')`. The `status` of the body is never read. -/
def postJob (pg : Pg) (db : Db) (now : Nat) (user : TokenUser) (body : JobBody) : Outcome :=
  if user.role = "driver" then { db := db, res := accessDenied, emitted := [] }
  else if !body.title.truthy || !body.address.truthy || !body.due_date.truthy then
    { db := db, res := createInvalid, emitted := [] }
  else
    finishCreate db (insertJob pg db now body.title body.description body.address body.due_date
      body.due_time body.driver_id user.id)

/-- The handler `app.delete('/api/jobs/:id')`. -/
def deleteJob (pg : Pg) (db : Db) (user : TokenUser) (id : String) : Outcome :=
  if user.role = "driver" then { db := db, res := accessDenied, emitted := [] }
  else
    match deleteJobRows pg db id with
    | .error _ => { db := db, res := serverError, emitted := [] }
    | .ok ([], db1) => { db := db1, res := jobNotFound, emitted := [] }
    | .ok (_ :: _, db1) =>
      { db := db1, res := ⟨200, .message "Job deleted successfully"⟩,
        emitted := [⟨"job_deleted", .jobId (jsParseInt id)⟩] }

/-- The handler `app.post('/api/location')`; `now` is both `CURRENT_TIMESTAMP` and
`new Date()`. -/
def postLocation (pg : Pg) (db : Db) (now : Nat) (user : TokenUser) (body : LocationBody) :
    Outcome :=
  if !body.latitude.truthy || !body.longitude.truthy then
    { db := db, res := ⟨400, .error "Latitude and longitude required"⟩, emitted := [] }
  else
    match upsertLocation pg db now user.id body.latitude body.longitude with
    | .error _ => { db := db, res := serverError, emitted := [] }
    | .ok db1 =>
      { db := db1, res := ⟨200, .message "Location updated"⟩,
        emitted := [⟨"location_update",
          .location { driver_id := user.id, latitude := body.latitude,
                      longitude := body.longitude, timestamp := now }⟩] }

/-- The body of an add-note request after destructuring. -/
structure NoteBody where
  note : JVal := .undefined
deriving DecidableEq

/-- The handler `app.post('/api/jobs/:id/notes')`: the note is inserted, read back joined
with its author, and `rows[0]` of that second result is emitted and returned. -/
def postNote (pg : Pg) (db : Db) (now : Nat) (user : TokenUser) (id : String) (body : NoteBody) :
    Outcome :=
  if !body.note.truthy then
    { db := db, res := ⟨400, .error "Note content required"⟩, emitted := [] }
  else
    match insertNote pg db now id user.id body.note with
    | .error _ => { db := db, res := serverError, emitted := [] }
    | .ok (row, db1) =>
      match selectNoteWithAuthor db1 row.id with
      | [] => { db := db1, res := ⟨201, .undefined⟩, emitted := [⟨"note_added", .undefined⟩] }
      | r :: _ => { db := db1, res := ⟨201, .note r⟩, emitted := [⟨"note_added", .note r⟩] }

/-- The handler `app.get('/api/jobs/:id/notes')`. -/
def getNotes (pg : Pg) (db : Db) (id : String) : Outcome :=
  match selectNotes pg db id with
  | .error _ => { db := db, res := serverError, emitted := [] }
  | .ok rows => { db := db, res := ⟨200, .notes rows⟩, emitted := [] }

/-- The handler `app.get('/api/locations')`; `now` is `NOW()`. -/
def getLocations (db : Db) (now : Nat) (user : TokenUser) : Outcome :=
  if user.role = "driver" then { db := db, res := accessDenied, emitted := [] }
  else { db := db, res := ⟨200, .locations (selectActiveLocations db now)⟩, emitted := [] }

/-! ### The job listing route -/

/-- The query string of the job listing after destructuring (`req.query`). -/
structure JobsQuery where
  status : JVal := .undefined
  driver_id : JVal := .undefined
  date : JVal := .undefined
deriving DecidableEq

/-- A condition of the listing statement with its parameter: the three optional
filters and the condition added for a driver, which carries `req.user.id`. -/
inductive JobFilter where
  | status (v : JVal)
  | driver (v : JVal)
  | date (v : JVal)
  | own (id : Int)
deriving DecidableEq

/-- The left side of a condition as written in the statement. -/
def JobFilter.expr : JobFilter → String
  | .status _ => "j.status"
  | .driver _ => "j.driver_id"
  | .date _ => "DATE(j.due_date)"
  | .own _ => "j.driver_id"

/-- The value pushed on `params` for a condition. -/
def JobFilter.param : JobFilter → JVal
  | .status v => v
  | .driver v => v
  | .date v => v
  | .own id => .int id

/-- The state of the listing query builder; `filters` records the conditions the text
holds. -/
structure ListQuery where
  query : String
  params : List JVal
  paramCount : Nat
  filters : List JobFilter

/-- One conditional step of the listing builder: `paramCount++`, the condition
appended to the text with the placeholder `$paramCount`, the value pushed. -/
def ListQuery.push (q : ListQuery) (f : JobFilter) : ListQuery :=
  { query := q.query ++ " AND " ++ f.expr ++ " = $" ++ toString (q.paramCount + 1)
    params := q.params ++ [f.param]
    paramCount := q.paramCount + 1
    filters := q.filters ++ [f] }

/-- The text the listing statement starts with. -/
def listBase : String :=
  "\n      SELECT j.*, u.name as driver_name, u.username as driver_username" ++
  "\n      FROM jobs j" ++
  "\n      LEFT JOIN users u ON j.driver_id = u.id" ++
  "\n      WHERE 1=1\n    "

/-- The text the listing statement ends with. -/
def listOrder : String := " ORDER BY j.due_date ASC, j.created_at DESC"

/-- The query builder of `app.get('/api/jobs')`: a condition for each truthy filter, then
for a driver the condition on `req.user.id`, then the ORDER BY. -/
def buildJobsQuery (user : TokenUser) (q : JobsQuery) : ListQuery :=
  let q0 : ListQuery := { query := listBase, params := [], paramCount := 0, filters := [] }
  let q1 := if q.status.truthy then q0.push (.status q.status) else q0
  let q2 := if q.driver_id.truthy then q1.push (.driver q.driver_id) else q1
  let q3 := if q.date.truthy then q2.push (.date q.date) else q2
  let q4 := if user.role = "driver" then q3.push (.own user.id) else q3
  { q4 with query := q4.query ++ listOrder }

/-- A condition with its parameter converted to the type of the column; `none` is
NULL. -/
inductive JobCond where
  | status (t : Option String)
  | driver (n : Option Int)
  | date (d : Option String)
deriving DecidableEq

/-- Conversion of the parameter of a condition. -/
def bindFilter (pg : Pg) : JobFilter → Except PgError JobCond
  | .status v => .ok (JobCond.status (pgParam v))
  | .driver v => (bindWith pg.int4In (pgParam v)).map JobCond.driver
  | .date v => (bindWith pg.dateIn (pgParam v)).map JobCond.date
  | .own id => .ok (JobCond.driver (some id))

/-- Conversion of all parameters, in order; the first failure raises. -/
def bindFilters (pg : Pg) : List JobFilter → Except PgError (List JobCond)
  | [] => .ok []
  | f :: rest =>
    match bindFilter pg f with
    | .error e => .error e
    | .ok c =>
      match bindFilters pg rest with
      | .error e => .error e
      | .ok cs => .ok (c :: cs)

/-- A row passes a condition when the column equals the parameter; a comparison with
NULL passes no row. -/
def JobCond.holds (j : Job) : JobCond → Bool
  | .status none => false
  | .status (some t) => j.status == some t
  | .driver none => false
  | .driver (some n) => j.driver_id == some n
  | .date none => false
  | .date (some d) => j.due_date == d

/-- The order `ORDER BY j.due_date ASC, j.created_at DESC`. -/
def listedBefore (pg : Pg) (a b : JobListRow) : Bool :=
  pg.dateLt a.job.due_date b.job.due_date ||
    (a.job.due_date == b.job.due_date && decide (b.job.created_at < a.job.created_at))

/-- Insert a listing row before the first row it precedes. -/
def insertListed (pg : Pg) (r : JobListRow) : List JobListRow → List JobListRow
  | [] => [r]
  | x :: xs => if listedBefore pg r x then r :: x :: xs else x :: insertListed pg r xs

/-- Listing rows in the order of the statement. -/
def sortListed (pg : Pg) : List JobListRow → List JobListRow
  | [] => []
  | r :: rs => insertListed pg r (sortListed pg rs)

/-- The listing statement given by its conditions: the jobs that pass every condition,
joined with their driver, in the order of the ORDER BY. -/
def selectJobs (pg : Pg) (db : Db) (filters : List JobFilter) :
    Except PgError (List JobListRow) :=
  match bindFilters pg filters with
  | .error e => .error e
  | .ok conds =>
    .ok (sortListed pg
      ((db.jobs.filter (fun j => conds.all (fun c => c.holds j))).flatMap (withDriver db)))

/-- The handler `app.get('/api/jobs')`. -/
def getJobs (pg : Pg) (db : Db) (user : TokenUser) (q : JobsQuery) : Outcome :=
  match selectJobs pg db (buildJobsQuery user q).filters with
  | .error _ => { db := db, res := serverError, emitted := [] }
  | .ok rows => { db := db, res := ⟨200, .jobs rows⟩, emitted := [] }

/-- The conditions of the listing statement, in order. -/
def jobFilters (user : TokenUser) (q : JobsQuery) : List JobFilter :=
  (if q.status.truthy then [JobFilter.status q.status] else []) ++
  (if q.driver_id.truthy then [JobFilter.driver q.driver_id] else []) ++
  (if q.date.truthy then [JobFilter.date q.date] else []) ++
  (if user.role = "driver" then [JobFilter.own user.id] else [])

/-- The conditions as text: the i-th condition is compared with the placeholder
`$i`. -/
def listClauses : Nat → List JobFilter → String
  | _, [] => ""
  | k, f :: fs =>
    " AND " ++ f.expr ++ " = $" ++ toString (k + 1) ++ listClauses (k + 1) fs

/-! ### The user update route -/

/-- The body of a user update request after destructuring. -/
structure UserBody where
  name : JVal := .undefined
  role : JVal := .undefined
  active : JVal := .undefined
  password : JVal := .undefined
deriving DecidableEq

/-- A clause of the user update statement with its parameter: the password clause
carries the hash. -/
inductive UserSet where
  | name (v : JVal)
  | role (v : JVal)
  | active (b : Bool)
  | password (hash : String)
deriving DecidableEq

/-- A parameter of the user update converted to the type of its column. -/
inductive UserVal where
  | name (t : Option String)
  | role (t : Option String)
  | active (b : Bool)
  | password (t : Option String)
deriving DecidableEq

/-- The three values of the CHECK constraint on `users.role`. -/
def roles : List String := ["admin", "dispatcher", "driver"]

/-- Conversion of a parameter of the user update: `name` is `VARCHAR(100)`, `role`
`VARCHAR(20)`, `password` `VARCHAR(255)`. -/
def bindUserSet : UserSet → Except PgError UserVal
  | .name v => (bindVarchar 100 (pgParam v)).map UserVal.name
  | .role v => (bindVarchar 20 (pgParam v)).map UserVal.role
  | .active b => .ok (UserVal.active b)
  | .password h => (bindVarchar 255 (some h)).map UserVal.password

/-- Conversion of all parameters, in order; the first failure raises. -/
def bindUserSets : List UserSet → Except PgError (List UserVal)
  | [] => .ok []
  | s :: rest =>
    match bindUserSet s with
    | .error e => .error e
    | .ok v =>
      match bindUserSets rest with
      | .error e => .error e
      | .ok vs => .ok (v :: vs)

/-- Assign one column of a user row under the constraints of the schema: NOT NULL on
name, role and password, the CHECK on role. -/
def UserRow.assign (u : UserRow) : UserVal → Except PgError UserRow
  | .name none => .error .notNull
  | .name (some t) => .ok { u with name := t }
  | .role none => .error .notNull
  | .role (some r) => if r ∈ roles then .ok { u with role := r } else .error .checkViolation
  | .active b => .ok { u with active := b }
  | .password none => .error .notNull
  | .password (some h) => .ok { u with password := h }

/-- Assign a list of columns in order. -/
def UserRow.assignAll (u : UserRow) : List UserVal → Except PgError UserRow
  | [] => .ok u
  | v :: vs =>
    match u.assign v with
    | .error e => .error e
    | .ok u1 => UserRow.assignAll u1 vs

/-- Rewrite the user rows whose id is `n`; returns the new table and the rewritten
rows. Any row error aborts the statement. -/
def updateUserRows (f : UserRow → Except PgError UserRow) (n : Int) :
    List UserRow → Except PgError (List UserRow × List UserRow)
  | [] => .ok ([], [])
  | u :: us =>
    if u.id = n then
      match f u with
      | .error e => .error e
      | .ok u1 =>
        match updateUserRows f n us with
        | .error e => .error e
        | .ok (tbl, ret) => .ok (u1 :: tbl, u1 :: ret)
    else
      match updateUserRows f n us with
      | .error e => .error e
      | .ok (tbl, ret) => .ok (u :: tbl, ret)

/-- The statement `UPDATE users SET ... WHERE id = $k RETURNING id, username, name, role,
active` given by its clauses. As for jobs, with no clause the text built by the route
(`UPDATE users SE WHERE id = $1 ...`) is not a statement and the engine raises. The
timestamp columns of `users` are not part of `UserRow`. -/
def execUserUpdate (pg : Pg) (db : Db) (sets : List UserSet) (id : String) :
    Except PgError (List UserRow × Db) :=
  match sets with
  | [] => .error .malformedStatement
  | _ :: _ =>
    match bindUserSets sets with
    | .error e => .error e
    | .ok vals =>
      match bindId pg id with
      | .error e => .error e
      | .ok n =>
        match updateUserRows (fun u => u.assignAll vals) n db.users with
        | .error e => .error e
        | .ok (tbl, ret) => .ok (ret, { db with users := tbl })

/-- The clauses the route builds before the password: `name` when truthy, and for an
admin caller only, `role` when truthy and `active` when it is a boolean. -/
def userSetsBeforePassword (user : TokenUser) (body : UserBody) : List UserSet :=
  (if body.name.truthy then [UserSet.name body.name] else []) ++
  (if user.role = "admin" then
    (if body.role.truthy then [UserSet.role body.role] else []) ++
    (match body.active with
     | .bool b => [UserSet.active b]
     | _ => [])
   else [])

/-- The password clause: none when the password is not truthy, the hash of a string
password; `none` stands for the throw of `bcrypt.hash` on a value that is not a
string. -/
def passwordSet (bcrypt : String → String) (body : UserBody) : Option (List UserSet) :=
  if body.password.truthy then
    match body.password with
    | .str p => some [UserSet.password (bcrypt p)]
    | _ => none
  else some []

/-- The handler `app.put('/api/users/:id')`. `bcrypt` stands for `bcrypt.hash(., 10)` on
strings. -/
def putUser (pg : Pg) (bcrypt : String → String) (db : Db) (user : TokenUser) (id : String)
    (body : UserBody) : Outcome :=
  if user.role ≠ "admin" ∧ jsParseInt id ≠ some user.id then
    { db := db, res := accessDenied, emitted := [] }
  else
    match passwordSet bcrypt body with
    | none => { db := db, res := serverError, emitted := [] }
    | some pw =>
      match execUserUpdate pg db (userSetsBeforePassword user body ++ pw) id with
      | .error _ => { db := db, res := serverError, emitted := [] }
      | .ok ([], db1) => { db := db1, res := ⟨404, .error "User not found"⟩, emitted := [] }
      | .ok (u :: _, db1) =>
        { db := db1
          res := ⟨200, .user { id := u.id, username := u.username, name := u.name,
                               role := u.role, active := u.active }⟩
          emitted := [] }

/-- The keys of the object an event carries. -/
def Payload.keys : Payload → List String
  | .job _ =>
    ["id", "title", "description", "address", "due_date", "due_time", "driver_id", "created_by",
      "status", "created_at", "updated_at"]
  | .jobId _ => ["id"]
  | .location _ => ["driver_id", "latitude", "longitude", "timestamp"]
  | .note _ => ["id", "job_id", "author_id", "note", "created_at", "author_name"]
  | .undefined => []

/-! ## The socket server (`io`) -/

/-- A connected socket: its id, the rooms it is in, the events it has a listener for. -/
structure Socket where
  id : String
  rooms : List String
  handlers : List String
deriving DecidableEq

/-- The state of `io`: the connected sockets. The server registers no middleware
(`io.use` is never called), so it keeps no identity or role for a socket. -/
structure SocketServer where
  sockets : List Socket
deriving DecidableEq

/-- A connection handshake: the socket id and the `auth.token` the client supplied. -/
structure Handshake where
  id : String
  token : JVal
deriving DecidableEq

/-- The callback of `io.on('connection', ...)`: it reads nothing from the handshake and
registers the `join_room` and `disconnect` listeners. A socket starts in the room named
by its own id. -/
def SocketServer.onConnection (io : SocketServer) (h : Handshake) : SocketServer :=
  { sockets := io.sockets ++ [{ id := h.id, rooms := [h.id], handlers := ["join_room", "disconnect"] }] }

/-- The listener `socket.on('join_room', (room) => socket.join(room))`. -/
def SocketServer.joinRoom (io : SocketServer) (id room : String) : SocketServer :=
  { sockets := io.sockets.map (fun s =>
      if s.id = id ∧ "join_room" ∈ s.handlers ∧ room ∉ s.rooms then
        { s with rooms := s.rooms ++ [room] } else s) }

/-- A disconnect removes the socket. -/
def SocketServer.disconnect (io : SocketServer) (id : String) : SocketServer :=
  { sockets := io.sockets.filter (fun s => s.id != id) }

/-- The call `io.emit(name, payload)`: one delivery to every connected socket. -/
def SocketServer.emit (io : SocketServer) (e : Event) : List (String × Event) :=
  io.sockets.map (fun s => (s.id, e))

/-- All deliveries caused by the `io.emit` calls of a handler, in order. -/
def SocketServer.deliver (io : SocketServer) (events : List Event) : List (String × Event) :=
  events.flatMap io.emit

/-! ## The client: `socketService.js`, `JobList.js`, `Dashboard.js` -/

/-- A registered callback: `id` stands for the function reference, `throws` tells
whether calling it raises. -/
structure Callback where
  id : Nat
  throws : Bool
deriving DecidableEq

/-- What the client does on an event: a toast, a callback call, a logged error. -/
inductive Effect where
  | toast (kind : String)
  | call (cb : Nat) (data : Payload)
  | logError (cb : Nat)
deriving DecidableEq

/-- The map `this.listeners`: event name to callbacks, keys in insertion order. -/
abbrev Listeners := List (String × List Callback)

/-- The list stored under an event, if any (`Map.get`). -/
def Listeners.get : Listeners → String → Option (List Callback)
  | [], _ => none
  | (e, cbs) :: rest, event => if e = event then some cbs else Listeners.get rest event

/-- Push a callback on the list stored under an event that is present. -/
def Listeners.pushAt : Listeners → String → Callback → Listeners
  | [], _, _ => []
  | (e, cbs) :: rest, event, cb =>
    if e = event then (e, cbs ++ [cb]) :: rest else (e, cbs) :: Listeners.pushAt rest event cb

/-- The method `SocketService.on(event, callback)`. -/
def SocketService.on (ls : Listeners) (event : String) (callback : Callback) : Listeners :=
  match ls.get event with
  | none => ls ++ [(event, [callback])]
  | some _ => ls.pushAt event callback

/-- Remove the first occurrence of a callback (`indexOf` then `splice`). -/
def spliceFirst (callback : Callback) : List Callback → List Callback
  | [] => []
  | c :: cs => if c.id = callback.id then cs else c :: spliceFirst callback cs

/-- The method `SocketService.off(event, callback)`. -/
def SocketService.off : Listeners → String → Callback → Listeners
  | [], _, _ => []
  | (e, cbs) :: rest, event, callback =>
    if e = event then (e, spliceFirst callback cbs) :: rest
    else (e, cbs) :: SocketService.off rest event callback

/-- The `forEach` of `SocketService.emit`: each callback is called inside `try`; a
raised error is logged and the loop goes on. -/
def callAll (data : Payload) : List Callback → List Effect
  | [] => []
  | c :: cs =>
    if c.throws then .call c.id data :: .logError c.id :: callAll data cs
    else .call c.id data :: callAll data cs

/-- The method `SocketService.emit(event, data)`. -/
def SocketService.emit (ls : Listeners) (event : String) (data : Payload) : List Effect :=
  match ls.get event with
  | none => []
  | some cbs => callAll data cbs

/-- The socket listeners installed by `setupEventListeners`, applied to one event
received from the server: job and note events raise a toast, and every event is
handed to `this.emit` unfiltered. -/
def SocketService.receive (ls : Listeners) (e : Event) : List Effect :=
  if e.name = "job_created" ∨ e.name = "job_updated" ∨ e.name = "job_deleted" ∨
      e.name = "note_added" then
    .toast "info" :: SocketService.emit ls e.name e.payload
  else if e.name = "location_update" then SocketService.emit ls e.name e.payload
  else []

/-- Replace the element at an index (`newJobs[index] = updatedJob`). -/
def replaceAt {α : Type} : List α → Nat → α → List α
  | [], _, _ => []
  | _ :: xs, 0, a => a :: xs
  | x :: xs, n + 1, a => x :: replaceAt xs n a

/-- Index of the first job with the given id (`findIndex`), if any. -/
def findJobIndex (id : Int) : List Job → Option Nat
  | [] => none
  | j :: js => if j.id = id then some 0 else (findJobIndex id js).map (fun i => i + 1)

/-- The state update of `handleJobUpdate` in `JobList.js`: the job replaces the entry
with its id, or is put in front when there is none. -/
def handleJobUpdate (prev : List Job) (updatedJob : Job) : List Job :=
  match findJobIndex updatedJob.id prev with
  | some index => replaceAt prev index updatedJob
  | none => updatedJob :: prev

/-- The state update of `handleLocationUpdate` in `Dashboard.js`. -/
def handleLocationUpdate (prev : List LocationMsg) (location : LocationMsg) : List LocationMsg :=
  prev.filter (fun loc => loc.driver_id != location.driver_id) ++ [location]

/-! ## A sample engine and sample data for concrete runs -/

/-- Value of a non-empty all-digit text. -/
def decimalValue : List Char → Option Nat
  | [] => none
  | cs => if cs.all Char.isDigit then readDigits 10 cs none else none

/-- Plain decimal integer literals in the 32-bit range. -/
def sampleInt4 (s : String) : Option Int :=
  let v : Option Int :=
    match s.data with
    | '-' :: r => (decimalValue r).map (fun n => -(n : Int))
    | r => (decimalValue r).map (fun n => (n : Int))
  match v with
  | none => none
  | some n => if -2147483648 ≤ n ∧ n ≤ 2147483647 then some n else none

/-- Dates written `YYYY-MM-DD` only. -/
def sampleDate (s : String) : Option String :=
  match s.data with
  | [a, b, c, d, '-', e, f, '-', g, h] =>
    if [a, b, c, d, e, f, g, h].all Char.isDigit then some s else none
  | _ => none

/-- Order of two texts character by character, which for dates written `YYYY-MM-DD` is
the order of the dates. -/
def charsLt : List Char → List Char → Bool
  | _, [] => false
  | [], _ :: _ => true
  | a :: as, b :: bs => decide (a.toNat < b.toNat) || (decide (a.toNat = b.toNat) && charsLt as bs)

/-- The order of dates written `YYYY-MM-DD`. -/
def sampleDateLt (a b : String) : Bool := charsLt a.data b.data

/-- Times written `HH:MM` only. -/
def sampleTime (s : String) : Option String :=
  match s.data with
  | [a, b, ':', c, d] => if [a, b, c, d].all Char.isDigit then some s else none
  | _ => none

/-- Whole-number literals within the precision of the column. -/
def sampleNumeric (precision scale : Nat) (s : String) : Option Int :=
  match sampleInt4 s with
  | none => none
  | some n => if n.natAbs < 10 ^ (precision - scale) then some (n * 10 ^ scale) else none

/-- An engine that accepts a small part of what PostgreSQL accepts. It only serves to
run the handlers on concrete requests. -/
def samplePg : Pg :=
  { int4In := sampleInt4, dateIn := sampleDate, timeIn := sampleTime, numericIn := sampleNumeric,
    dateLt := sampleDateLt }

/-- Sample `users` rows: the rows inserted by the setup route, less the dispatcher. -/
def sampleUsers : List UserRow :=
  [ { id := 1, username := "admin", password := "hash", name := "System Admin", role := "admin",
      active := true },
    { id := 2, username := "driver1", password := "hash", name := "Mike Driver", role := "driver",
      active := true },
    { id := 3, username := "driver2", password := "hash", name := "Sarah Driver", role := "driver",
      active := true } ]

/-- A job assigned to driver 2, in status `assigned`. -/
def sampleJob : Job :=
  { id := 1, title := "Pour foundation", description := none, address := "100 Main St",
    due_date := "2024-06-01", due_time := none, driver_id := some 2, created_by := some 1,
    status := some "assigned", created_at := 10, updated_at := 10 }

/-- A store holding the sample users and the sample job. -/
def sampleDb : Db :=
  { users := sampleUsers, jobs := [sampleJob], notes := [], locations := [], jobSeq := 1,
    noteSeq := 0 }

/-- Token claims of the admin. -/
def admin1 : TokenUser := { id := 1, username := "admin", role := "admin" }

/-- Token claims of driver 2. -/
def driver2 : TokenUser := { id := 2, username := "driver1", role := "driver" }

/-- Token claims of driver 3. -/
def driver3 : TokenUser := { id := 3, username := "driver2", role := "driver" }

/-- Callback standing for `handleJobUpdate` of `JobList.js`. -/
def cbJobUpdate : Callback := { id := 1, throws := false }

/-- Callback standing for `handleJobDeleted` of `JobList.js`. -/
def cbJobDeleted : Callback := { id := 2, throws := false }

/-- Callback standing for `handleLocationUpdate` of `Dashboard.js`. -/
def cbLocationUpdate : Callback := { id := 3, throws := false }

/-- The registrations made by the `useEffect` of `JobList.js` followed by the
`location_update` registration of `Dashboard.js`. -/
def mountedListeners : Listeners :=
  SocketService.on
    (SocketService.on
      (SocketService.on (SocketService.on [] "job_created" cbJobUpdate) "job_updated" cbJobUpdate)
      "job_deleted" cbJobDeleted)
    "location_update" cbLocationUpdate

/-- The job the admin creates in the sample run: assigned to driver 3. -/
def sampleCreate : JobBody :=
  { title := .str "Deliver gravel", address := .str "5 Quarry Rd", due_date := .str "2024-06-02",
    driver_id := .int 3 }

/-- The row the sample create stores. -/
def sampleCreated : Job :=
  { id := 2, title := "Deliver gravel", description := none, address := "5 Quarry Rd",
    due_date := "2024-06-02", due_time := none, driver_id := some 3, created_by := some 1,
    status := some "pending", created_at := 20, updated_at := 20 }

/-- Two connections: the admin's client, then the client of driver 2. -/
def sampleIo : SocketServer :=
  (SocketServer.onConnection (SocketServer.onConnection { sockets := [] }
    { id := "sock-admin", token := .str "token-admin" })
    { id := "sock-driver2", token := .str "token-driver2" })

/-- The location message of driver 3 in the sample run. -/
def sampleLocation : LocationMsg :=
  { driver_id := 3, latitude := .int 40, longitude := .int (-74), timestamp := 30 }

/-- The assignments of the general update statement other than status, in the order
of the query builder. -/
def otherSets (body : JobBody) : List (JobCol × JVal) :=
  (if body.title.truthy then [(JobCol.title, body.title)] else []) ++
  (if body.description ≠ .undefined then [(JobCol.description, body.description)] else []) ++
  (if body.address.truthy then [(JobCol.address, body.address)] else []) ++
  (if body.due_date.truthy then [(JobCol.due_date, body.due_date)] else []) ++
  (if body.due_time ≠ .undefined then [(JobCol.due_time, body.due_time)] else []) ++
  (if body.driver_id ≠ .undefined then [(JobCol.driver_id, body.driver_id)] else [])

/-- The status assignment of an update statement: present when `status` is truthy. -/
def statusSets (body : JobBody) : List (JobCol × JVal) :=
  if body.status.truthy then [(JobCol.status, body.status)] else []

/-- The stored status of a row is one of the five values. -/
def Job.statusOk (j : Job) : Bool :=
  match j.status with
  | some s => decide (s ∈ statuses)
  | none => false

/-- The status carried by an event is one of the five values (events that carry no job
have no status). -/
def Event.statusOk (e : Event) : Bool :=
  match e.payload with
  | .job j => j.statusOk
  | _ => true

/-- The status of a row `j` written by an update with the given body from the stored
row `j0`: the status sent, which is one of the five values, when the body carries a
truthy status; the stored status otherwise. -/
def statusAfter (body : JobBody) (j0 j : Job) : Prop :=
  (body.status.truthy = true ∧ ∃ s ∈ statuses, pgParam body.status = some s ∧ j.status = some s) ∨
  (body.status.truthy = false ∧ j.status = j0.status)

/-- The state machine of the specification, section 4.3, as a relation between the
status before and the status after: the status stays, or moves forward along
pending, assigned, in_progress, completed, or becomes cancelled from a state that
is neither completed nor cancelled. -/
def specLegalMove (before after : String) : Bool :=
  let rank : String → Option Nat := fun s =>
    if s = "pending" then some 0 else if s = "assigned" then some 1
    else if s = "in_progress" then some 2 else if s = "completed" then some 3 else none
  before == after ||
  (match rank before, rank after with
   | some a, some b => decide (a < b)
   | _, _ => false) ||
  (after == "cancelled" && (rank before).isSome && before != "completed")

/-- The sample store with the job in the given status. -/
def sampleDbIn (status : String) : Db :=
  { sampleDb with jobs := [{ sampleJob with status := some status }] }

/-! ## The client: `LocationTracker.js` -/

/-- An entry of `pendingUpdates`. -/
structure Sample where
  latitude : JVal
  longitude : JVal
  timestamp : Nat
deriving DecidableEq

/-- The part of a geolocation position the component reads. -/
structure Position where
  latitude : JVal
  longitude : JVal
  accuracy : JVal
  timestamp : Nat
deriving DecidableEq

/-- The state of the component as seen by one run of a callback: `location`,
`lastUpdate`, `isOnline`, `pendingUpdates`. -/
structure Tracker where
  location : Option Position
  lastUpdate : Option Nat
  isOnline : Bool
  pendingUpdates : List Sample
deriving DecidableEq

/-- One run of a callback: the state it leaves, the calls of
`apiService.updateLocation` it made, the toasts it raised, the errors it logged. -/
structure TrackerRun where
  state : Tracker
  requests : List LocationBody
  toasts : List String
  logged : List String
deriving DecidableEq

/-- The function `processPendingUpdates`. `sendOk` tells whether the awaited
`apiService.updateLocation` resolves; `now` is `new Date()`. -/
def processPendingUpdates (background : Bool) (now : Nat) (sendOk : Bool) (st : Tracker) :
    TrackerRun :=
  match st.pendingUpdates.getLast? with
  | none => { state := st, requests := [], toasts := [], logged := [] }
  | some latestUpdate =>
    let request : LocationBody :=
      { latitude := latestUpdate.latitude, longitude := latestUpdate.longitude }
    if sendOk then
      { state := { st with pendingUpdates := [], lastUpdate := some now }
        requests := [request]
        toasts := if !background then ["Location synced"] else []
        logged := [] }
    else
      { state := st, requests := [request], toasts := [],
        logged := ["Error processing pending updates:"] }

/-- The effect `useEffect(..., [isOnline])`, run when `isOnline` changes. -/
def onlineEffect (background : Bool) (now : Nat) (sendOk : Bool) (st : Tracker) : TrackerRun :=
  if st.isOnline && decide (st.pendingUpdates.length > 0) then
    processPendingUpdates background now sendOk st
  else { state := st, requests := [], toasts := [], logged := [] }

/-- The function `handleLocationSuccess`. `sendOk` tells whether the awaited
`apiService.updateLocation` resolves; `now` is `new Date()`. -/
def handleLocationSuccess (background : Bool) (now : Nat) (sendOk : Bool) (position : Position)
    (st : Tracker) : TrackerRun :=
  let st1 : Tracker := { st with location := some position }
  let request : LocationBody := { latitude := position.latitude, longitude := position.longitude }
  let sample : Sample :=
    { latitude := position.latitude, longitude := position.longitude, timestamp := now }
  if st.isOnline then
    if sendOk then
      { state := { st1 with lastUpdate := some now }
        requests := [request]
        toasts := if !background then ["Location updated"] else []
        logged := [] }
    else
      { state := { st1 with pendingUpdates := st1.pendingUpdates ++ [sample] }
        requests := [request]
        toasts := if !background then ["Failed to update location"] else []
        logged := ["Error updating location:"] }
  else
    { state := { st1 with pendingUpdates := st1.pendingUpdates ++ [sample] }
      requests := []
      toasts := if !background then ["Location cached (offline)"] else []
      logged := [] }

/-! ## The client: `authService.js` -/

/-- The properties of a decoded token payload that the service reads; an absent
property is `undefined`. -/
structure TokenPayload where
  id : JVal := .undefined
  username : JVal := .undefined
  role : JVal := .undefined
  exp : JVal := .undefined
deriving DecidableEq

/-- The object returned by `validateToken` and `getUser`. -/
structure ClientUser where
  id : JVal
  username : JVal
  role : JVal
deriving DecidableEq

/-- Library routines of the browser, taken as parameters: `decode` is `JSON.parse(atob(
segment))` followed by the property reads, `none` when any of them throws; `number` is
the number a text denotes, `none` for NaN. Numbers are exact rationals: rounding of
floating point is not modelled. -/
structure Browser where
  decode : String → Option TokenPayload
  number : String → Option ℚ

/-- The pieces of a text between dots (`split('.')`), the current piece in reverse. -/
def splitDots : List Char → List Char → List String
  | [], cur => [String.mk cur.reverse]
  | c :: cs, cur =>
    if c = '.' then String.mk cur.reverse :: splitDots cs [] else splitDots cs (c :: cur)

/-- The argument of `atob` in `atob(token.split('.')[1])`: the second piece, or the text
`undefined` when there is none. -/
def secondSegment (token : String) : String :=
  match splitDots token.data [] with
  | _ :: seg :: _ => seg
  | _ => "undefined"

/-- JavaScript `ToNumber`; `none` is NaN. -/
def jsNumber (br : Browser) : JVal → Option ℚ
  | .undefined => none
  | .null => some 0
  | .bool b => some (if b then 1 else 0)
  | .int n => some (n : ℚ)
  | .frac t => br.number t
  | .str t => br.number t
  | .obj t => br.number t

/-- The comparison `payload.exp * 1000 < Date.now()`; false when the product is NaN. -/
def expiredBefore (br : Browser) (payload : TokenPayload) (now : Nat) : Bool :=
  match jsNumber br payload.exp with
  | none => false
  | some e => decide (e * 1000 < (now : ℚ))

/-- The comparison `payload.exp * 1000 > Date.now()`; false when the product is NaN. -/
def expiresAfter (br : Browser) (payload : TokenPayload) (now : Nat) : Bool :=
  match jsNumber br payload.exp with
  | none => false
  | some e => decide (e * 1000 > (now : ℚ))

/-- The method `validateToken(token)`: `none` is the rejection with `Invalid token`
(a `null` token makes `split` throw, which the `catch` turns into the same
rejection). -/
def validateToken (br : Browser) (now : Nat) (token : Option String) : Option ClientUser :=
  match token with
  | none => none
  | some t =>
    match br.decode (secondSegment t) with
    | none => none
    | some payload =>
      if expiredBefore br payload now then none
      else some { id := payload.id, username := payload.username, role := payload.role }

/-- The method `isAuthenticated()`; `stored` is `localStorage.getItem('token')`. -/
def isAuthenticated (br : Browser) (now : Nat) (stored : Option String) : Bool :=
  match stored with
  | none => false
  | some t =>
    if t = "" then false
    else
      match br.decode (secondSegment t) with
      | none => false
      | some payload => expiresAfter br payload now

/-- A browser for concrete runs: it decodes two segments, one to a payload without
`exp` and one to a payload expiring at second 5. -/
def sampleBrowser : Browser :=
  { decode := fun seg =>
      if seg = "bm9leHA" then
        some { id := .int 2, username := .str "driver1", role := .str "driver" }
      else if seg = "ZXhwNQ" then
        some { id := .int 2, username := .str "driver1", role := .str "driver", exp := .int 5 }
      else none
    number := fun _ => none }

/-! ## Sequences of requests and registrations -/

/-- One location report: the time it is handled, the caller, the body. -/
structure Report where
  now : Nat
  user : TokenUser
  body : LocationBody
deriving DecidableEq

/-- The store after a sequence of location reports handled in order. -/
def reportAll (pg : Pg) : Db → List Report → Db
  | db, [] => db
  | db, r :: rs => reportAll pg (postLocation pg db r.now r.user r.body).db rs

/-- Every report of the sequence is accepted (reply 200) in the store it meets. -/
def allAccepted (pg : Pg) : Db → List Report → Bool
  | _, [] => true
  | db, r :: rs =>
    decide ((postLocation pg db r.now r.user r.body).res.status = 200) &&
      allAccepted pg (postLocation pg db r.now r.user r.body).db rs

/-- The most recent report of a driver in a sequence, if any. -/
def lastReport (driver : Int) : List Report → Option Report
  | [] => none
  | r :: rs =>
    match lastReport driver rs with
    | some x => some x
    | none => if r.user.id = driver then some r else none

/-- The row a report stores: the coordinates as the engine reads them into the two
numeric columns, the time of the report. -/
def storedRow (pg : Pg) (r : Report) : Option DriverLocation :=
  match pgParam r.body.latitude, pgParam r.body.longitude with
  | some a, some b =>
    match pg.numericIn 10 8 a, pg.numericIn 11 8 b with
    | some lat, some lng =>
      some { driver_id := r.user.id, latitude := lat, longitude := lng, updated_at := r.now }
    | _, _ => none
  | _, _ => none

/-- A sequence of `on(event, callback)` calls, applied in order. -/
def registerAll (ls : Listeners) : List (String × Callback) → Listeners
  | [] => ls
  | (event, callback) :: rest => registerAll (SocketService.on ls event callback) rest

/-- The callback calls among the effects, in order: which callback, with what data. -/
def calls : List Effect → List (Nat × Payload)
  | [] => []
  | .call cb data :: rest => (cb, data) :: calls rest
  | _ :: rest => calls rest

/-- The assignments of the UPDATE statement the update route runs for a caller that
passed the ownership check: the status alone for a driver sending a truthy status, the
clauses of the query builder otherwise. -/
def updateSets (user : TokenUser) (id : String) (body : JobBody) : List (JobCol × JVal) :=
  if user.role = "driver" ∧ body.status.truthy = true then [(JobCol.status, body.status)]
  else (buildJobUpdate body id).cols.zip (buildJobUpdate body id).params

/-- First sample report of driver 3. -/
def sampleReport1 : Report :=
  { now := 30, user := driver3, body := { latitude := .int 40, longitude := .int (-74) } }

/-- Second sample report of driver 3. -/
def sampleReport2 : Report :=
  { now := 40, user := driver3, body := { latitude := .int 41, longitude := .int (-73) } }

/-- A store with two jobs, two notes on job 1 and one note on job 2. -/
def sampleDbNotes : Db :=
  { sampleDb with
    jobs := [sampleJob, sampleCreated]
    notes :=
      [ { id := 1, job_id := some 1, author_id := some 2, note := "on site", created_at := 11 },
        { id := 2, job_id := some 1, author_id := some 1, note := "gate code 4411", created_at := 12 },
        { id := 3, job_id := some 2, author_id := some 3, note := "loaded", created_at := 21 } ]
    jobSeq := 2
    noteSeq := 3 }

/-- A store with locations of drivers 2 and 3, updated at the given times. -/
def sampleDbLocations (t2 t3 : Nat) : Db :=
  { sampleDb with
    locations :=
      [ { driver_id := 2, latitude := 4000000000, longitude := -7400000000, updated_at := t2 },
        { driver_id := 3, latitude := 4100000000, longitude := -7300000000, updated_at := t3 } ] }

/-- A tracker that is back online with three queued samples. -/
def sampleTracker : Tracker :=
  { location := none, lastUpdate := none, isOnline := true,
    pendingUpdates :=
      [ { latitude := .int 40, longitude := .int (-74), timestamp := 10 },
        { latitude := .int 41, longitude := .int (-73), timestamp := 20 },
        { latitude := .int 42, longitude := .int (-72), timestamp := 30 } ] }

/-- A position read from the geolocation service. -/
def samplePosition : Position :=
  { latitude := .int 43, longitude := .int (-71), accuracy := .int 12, timestamp := 39 }

/-- A callback that raises when called. -/
def cbThrowing : Callback := { id := 9, throws := true }

/-- Three listeners under `job_updated`, the second of which raises. -/
def throwingListeners : Listeners :=
  registerAll []
    [("job_updated", cbJobUpdate), ("job_updated", cbThrowing), ("job_updated", cbJobDeleted)]

/-- A body with no applicable field: an empty title and nothing else. -/
def sampleEmptyUpdate : JobBody := { title := .str "" }

/-- The column an assignment writes. -/
def JobSet.col : JobSet → JobCol
  | .title _ => .title
  | .description _ => .description
  | .address _ => .address
  | .due_date _ => .due_date
  | .due_time _ => .due_time
  | .driver_id _ => .driver_id
  | .status _ => .status

/-- The text carried for a non-integral number or for an array or object is not empty
(a number has at least one digit, an array or object at least its brackets). -/
def JVal.textOk : JVal → Bool
  | .frac t => t != ""
  | .obj t => t != ""
  | _ => true

/-- The columns of the update query builder, in the order of its clauses. -/
def jobCols : List JobCol :=
  [.title, .description, .address, .due_date, .due_time, .driver_id, .status]

/-- The field of the body that goes with a column. -/
def JobBody.value (body : JobBody) : JobCol → JVal
  | .title => body.title
  | .description => body.description
  | .address => body.address
  | .due_date => body.due_date
  | .due_time => body.due_time
  | .driver_id => body.driver_id
  | .status => body.status

/-- A field is applicable when the query builder emits a clause for it: title, address,
due_date and status when truthy, description, due_time and driver_id when not
`undefined`. -/
def applicable (body : JobBody) : JobCol → Bool
  | .title => body.title.truthy
  | .description => decide (body.description ≠ .undefined)
  | .address => body.address.truthy
  | .due_date => body.due_date.truthy
  | .due_time => decide (body.due_time ≠ .undefined)
  | .driver_id => decide (body.driver_id ≠ .undefined)
  | .status => body.status.truthy

/-- The clause that binds a column to the placeholder `$k`. -/
def setClause (k : Nat) (c : JobCol) : String :=
  c.name ++ " = $" ++ toString k

/-- The clauses of a list of columns, bound to the placeholders after `$k` in order and
separated by a comma and a space. -/
def joinClauses : Nat → List JobCol → String
  | _, [] => ""
  | k, [c] => setClause (k + 1) c
  | k, c :: c2 :: cs => setClause (k + 1) c ++ ", " ++ joinClauses (k + 1) (c2 :: cs)

/-- The clauses of a list of columns as the builder accumulates them: each followed by
a comma and a space. -/
def trailingClauses : Nat → List JobCol → String
  | _, [] => ""
  | k, c :: cs => setClause (k + 1) c ++ ", " ++ trailingClauses (k + 1) cs

/-- The state the builder starts from. -/
def startQuery : UpdateQuery :=
  { query := "UPDATE jobs SET ", params := [], paramCount := 0, cols := [] }

/-- One step of the builder for a column: its clause is pushed when the field is
applicable. -/
def stepClause (body : JobBody) (q : UpdateQuery) (c : JobCol) : UpdateQuery :=
  if applicable body c then q.push c (body.value c) else q

/-- The statement that sets `n` columns: the i-th column is bound to `$i` and the id
to `$(n+1)`. -/
def updateText (cols : List JobCol) : String :=
  "UPDATE jobs SET " ++ joinClauses 0 cols ++ " WHERE id = $" ++ toString (cols.length + 1) ++
    " RETURNING *"

/-- A job assigned to driver 3, due before the sample job. -/
def sampleJobOfDriver3 : Job :=
  { id := 2, title := "Deliver gravel", description := none, address := "7 Quarry Rd",
    due_date := "2024-05-20", due_time := none, driver_id := some 3, created_by := some 1,
    status := some "assigned", created_at := 12, updated_at := 12 }

/-- A store holding one job of driver 2 and one job of driver 3. -/
def sampleDbListing : Db :=
  { sampleDb with jobs := [sampleJob, sampleJobOfDriver3], jobSeq := 2 }

/-! ## Theorems -/

/-- C1 (the code departs from the claim). Driver 2, assigned to job 1, sends an update
whose body carries a title and no status. The driver branch of the update route only
returns when `status` is truthy, so the request falls through to the general query
builder: the reply is 200 and the stored title is rewritten. -/
theorem C1_driver_update_without_status_rewrites_title :
    putJob samplePg sampleDb 20 driver2 "1" { title := .str "Changed" } =
      { db := { sampleDb with jobs := [{ sampleJob with title := "Changed", updated_at := 20 }] }
        res := ⟨200, .job { sampleJob with title := "Changed", updated_at := 20 }⟩
        emitted := [⟨"job_updated", .job { sampleJob with title := "Changed", updated_at := 20 }⟩] } := by
  decide

/-- C2. A driver-role caller updating a job id under which no stored job has the
caller as `driver_id` (the job is assigned to someone else, is unassigned, or does not
exist) gets 403 `Access denied`; the store is unchanged and nothing is emitted. -/
theorem C2_driver_update_unassigned_denied (pg : Pg) (db : Db) (now : Nat) (user : TokenUser)
    (id : String) (body : JobBody) (n : Int)
    (hrole : user.role = "driver") (hid : pg.int4In id = some n)
    (hnot : ∀ j ∈ db.jobs, j.id = n → j.driver_id ≠ some user.id) :
    putJob pg db now user id body = { db := db, res := accessDenied, emitted := [] } := by
  unfold putJob selectJobDriver bindId
  simp only [hrole, hid, if_true]
  cases hf : (db.jobs.filter (fun j => j.id == n)).map (fun j => j.driver_id) with
  | nil => rfl
  | cons d rest =>
    have hmem : d ∈ (db.jobs.filter (fun j => j.id == n)).map (fun j => j.driver_id) := by
      rw [hf]; exact List.mem_cons_self _ _
    obtain ⟨j, hj, rfl⟩ := List.mem_map.1 hmem
    have hj2 := List.mem_filter.1 hj
    have hd : j.driver_id ≠ some user.id := hnot j hj2.1 (by simpa using hj2.2)
    simp [hd]

/-- Witness of C2: driver 3 on job 1 (assigned to driver 2), and driver 3 on the
unused id 7. -/
theorem C2_driver_update_unassigned_denied_witness :
    putJob samplePg sampleDb 20 driver3 "1" { status := .str "completed" } =
        { db := sampleDb, res := accessDenied, emitted := [] } ∧
      putJob samplePg sampleDb 20 driver3 "7" { status := .str "completed" } =
        { db := sampleDb, res := accessDenied, emitted := [] } :=
  ⟨C2_driver_update_unassigned_denied samplePg sampleDb 20 driver3 "1" _ 1 (by decide) (by decide)
      (by decide),
   C2_driver_update_unassigned_denied samplePg sampleDb 20 driver3 "7" _ 7 (by decide) (by decide)
      (by decide)⟩

/-- C3 (the code departs from the claim). Driver 3 reports a location while the client
of driver 2 is connected. `io.emit` sends `location_update` to every socket: the event
with `driver_id` 3 is delivered to the socket of driver 2, the client hands it to the
registered listener unfiltered, and `handleLocationUpdate` stores it in the state of
driver 2's dashboard. -/
theorem C3_location_update_reaches_other_driver :
    (postLocation samplePg sampleDb 30 driver3 { latitude := .int 40, longitude := .int (-74) }).emitted
        = [⟨"location_update", .location sampleLocation⟩] ∧
      sampleLocation.driver_id ≠ driver2.id ∧
      ("sock-driver2", (⟨"location_update", .location sampleLocation⟩ : Event)) ∈
        sampleIo.deliver
          (postLocation samplePg sampleDb 30 driver3
            { latitude := .int 40, longitude := .int (-74) }).emitted ∧
      SocketService.receive mountedListeners ⟨"location_update", .location sampleLocation⟩ =
        [.call cbLocationUpdate.id (.location sampleLocation)] ∧
      handleLocationUpdate [] sampleLocation = [sampleLocation] := by
  decide

/-- C4 (the code departs from the claim). The admin creates a job assigned to driver 3
while the client of driver 2 is connected. `io.emit` sends `job_created` to every
socket, the client of driver 2 raises a toast and calls the registered listener with
the job, and `handleJobUpdate` puts the job of driver 3 in front of driver 2's job
list. -/
theorem C4_job_event_reaches_other_driver :
    (postJob samplePg sampleDb 20 admin1 sampleCreate).emitted
        = [⟨"job_created", .job sampleCreated⟩] ∧
      sampleCreated.driver_id ≠ some driver2.id ∧
      ("sock-driver2", (⟨"job_created", .job sampleCreated⟩ : Event)) ∈
        sampleIo.deliver (postJob samplePg sampleDb 20 admin1 sampleCreate).emitted ∧
      SocketService.receive mountedListeners ⟨"job_created", .job sampleCreated⟩ =
        [.toast "info", .call cbJobUpdate.id (.job sampleCreated)] ∧
      handleJobUpdate [] sampleCreated = [sampleCreated] := by
  decide

/-- C5 (the code departs from the claim). A connection attempt that supplies no token
is accepted: the `connection` callback registers `join_room` for it, a `join_room`
message adds a room, and the next `io.emit` is delivered to it. -/
theorem C5_connection_without_credential_accepted :
    (SocketServer.onConnection { sockets := [] } { id := "sock-anon", token := .undefined }).sockets
        = [{ id := "sock-anon", rooms := ["sock-anon"], handlers := ["join_room", "disconnect"] }] ∧
      ((SocketServer.onConnection { sockets := [] }
          { id := "sock-anon", token := .undefined }).joinRoom "sock-anon" "global").sockets
        = [{ id := "sock-anon", rooms := ["sock-anon", "global"],
             handlers := ["join_room", "disconnect"] }] ∧
      (SocketServer.onConnection { sockets := [] } { id := "sock-anon", token := .undefined }).deliver
          (postJob samplePg sampleDb 20 admin1 sampleCreate).emitted
        = [("sock-anon", ⟨"job_created", .job sampleCreated⟩)] := by
  decide

/-! ### Assignments and the status column -/

/-- The column a converted parameter assigns. -/
theorem bindJobParam_not_status {pg : Pg} {c : JobCol} {v : JVal} {s : JobSet}
    (h : bindJobParam pg c v = .ok s) (hc : c ≠ .status) : ∀ w, s ≠ .status w := by
  intro w hs
  subst hs
  cases c <;> simp only [bindJobParam] at h
  · cases hb : bindVarchar 200 (pgParam v) <;> simp [hb, Except.map] at h
  · simp at h
  · simp at h
  · cases hb : bindWith pg.dateIn (pgParam v) <;> simp [hb, Except.map] at h
  · cases hb : bindWith pg.timeIn (pgParam v) <;> simp [hb, Except.map] at h
  · cases hb : bindWith pg.int4In (pgParam v) <;> simp [hb, Except.map] at h
  · exact hc rfl

/-- Parameters of columns other than status convert to assignments other than status. -/
theorem bindJobParams_not_status {pg : Pg} :
    ∀ {l : List (JobCol × JVal)} {ss : List JobSet}, bindJobParams pg l = .ok ss →
      (∀ p ∈ l, p.1 ≠ .status) → ∀ s ∈ ss, ∀ w, s ≠ .status w := by
  intro l
  induction l with
  | nil =>
    intro ss h _ s hs
    simp [bindJobParams] at h
    subst h
    simp at hs
  | cons p rest ih =>
    intro ss h hl s hs
    obtain ⟨c, v⟩ := p
    simp only [bindJobParams] at h
    cases h1 : bindJobParam pg c v with
    | error e => simp [h1] at h
    | ok s1 =>
      cases h2 : bindJobParams pg rest with
      | error e => simp [h1, h2] at h
      | ok ss1 =>
        simp [h1, h2] at h
        subst h
        rcases List.mem_cons.1 hs with rfl | hs
        · exact bindJobParam_not_status h1 (hl (c, v) (List.mem_cons_self _ _))
        · exact ih h2 (fun p hp => hl p (List.mem_cons_of_mem _ hp)) s hs

/-- An assignment never changes the id of the row. -/
theorem Job.assign_id {db : Db} {j j1 : Job} {s : JobSet} (h : j.assign db s = .ok j1) :
    j1.id = j.id := by
  cases s with
  | title v => cases v <;> simp [Job.assign] at h; subst h; rfl
  | description v => simp [Job.assign] at h; subst h; rfl
  | address v => cases v <;> simp [Job.assign] at h; subst h; rfl
  | due_date v => cases v <;> simp [Job.assign] at h; subst h; rfl
  | due_time v => simp [Job.assign] at h; subst h; rfl
  | driver_id v =>
    simp only [Job.assign] at h
    split at h
    · simp at h; subst h; rfl
    · simp at h
  | status v =>
    cases v with
    | none => simp [Job.assign] at h; subst h; rfl
    | some t =>
      simp only [Job.assign] at h
      split at h
      · simp at h; subst h; rfl
      · simp at h

/-- An assignment to a column other than status leaves the status. -/
theorem Job.assign_status_of_ne {db : Db} {j j1 : Job} {s : JobSet}
    (h : j.assign db s = .ok j1) (hs : ∀ w, s ≠ .status w) : j1.status = j.status := by
  cases s with
  | title v => cases v <;> simp [Job.assign] at h; subst h; rfl
  | description v => simp [Job.assign] at h; subst h; rfl
  | address v => cases v <;> simp [Job.assign] at h; subst h; rfl
  | due_date v => cases v <;> simp [Job.assign] at h; subst h; rfl
  | due_time v => simp [Job.assign] at h; subst h; rfl
  | driver_id v =>
    simp only [Job.assign] at h
    split at h
    · simp at h; subst h; rfl
    · simp at h
  | status v => exact absurd rfl (hs v)

/-- A list of assignments never changes the id of the row. -/
theorem Job.assignAll_id {db : Db} :
    ∀ {ss : List JobSet} {j j1 : Job}, Job.assignAll db j ss = .ok j1 → j1.id = j.id := by
  intro ss
  induction ss with
  | nil => intro j j1 h; simp [Job.assignAll] at h; subst h; rfl
  | cons s rest ih =>
    intro j j1 h
    simp only [Job.assignAll] at h
    cases h1 : j.assign db s with
    | error e => simp [h1] at h
    | ok j2 =>
      simp only [h1] at h
      rw [ih h, Job.assign_id h1]

/-- Assignments to columns other than status leave the status. -/
theorem Job.assignAll_status_of_ne {db : Db} :
    ∀ {ss : List JobSet} {j j1 : Job}, Job.assignAll db j ss = .ok j1 →
      (∀ s ∈ ss, ∀ w, s ≠ .status w) → j1.status = j.status := by
  intro ss
  induction ss with
  | nil => intro j j1 h _; simp [Job.assignAll] at h; subst h; rfl
  | cons s rest ih =>
    intro j j1 h hs
    simp only [Job.assignAll] at h
    cases h1 : j.assign db s with
    | error e => simp [h1] at h
    | ok j2 =>
      simp only [h1] at h
      rw [ih h (fun t ht => hs t (List.mem_cons_of_mem _ ht)),
        Job.assign_status_of_ne h1 (hs s (List.mem_cons_self _ _))]

/-- What a successful INSERT returns: a row with the next id and status `pending`,
appended to the table. -/
theorem insertJob_ok {pg : Pg} {db db1 : Db} {now : Nat} {t d a dd dt dr : JVal} {u : Int}
    {row : Job} (h : insertJob pg db now t d a dd dt dr u = .ok (row, db1)) :
    row.status = some "pending" ∧ row.id = db.jobSeq + 1 ∧
      db1 = { db with jobs := db.jobs ++ [row], jobSeq := db.jobSeq + 1 } := by
  unfold insertJob at h
  cases h1 : bindJobParams pg [(.title, t), (.description, d), (.address, a),
      (.due_date, dd), (.due_time, dt), (.driver_id, dr)] with
  | error e => simp [h1] at h
  | ok sets =>
    simp only [h1] at h
    split at h
    · simp at h
    · rename_i r hr
      split at h
      · simp only [Except.ok.injEq, Prod.mk.injEq] at h
        obtain ⟨rfl, rfl⟩ := h
        have hns : ∀ s ∈ sets, ∀ w, s ≠ JobSet.status w :=
          bindJobParams_not_status h1 (by simp)
        exact ⟨Job.assignAll_status_of_ne hr hns, Job.assignAll_id hr, rfl⟩
      · simp at h

/-- C8. Every create request that is accepted (reply 201) stores a row whose status
is `pending` and emits exactly one `job_created` event carrying that row, which is also
the reply; the `status` of the request body has no effect on the outcome. -/
theorem C8_created_job_is_pending (pg : Pg) (db : Db) (now : Nat) (user : TokenUser)
    (body : JobBody) (hok : (postJob pg db now user body).res.status = 201) :
    (∃ row : Job, row.status = some "pending" ∧
        (postJob pg db now user body).res = ⟨201, .job row⟩ ∧
        (postJob pg db now user body).emitted = [⟨"job_created", .job row⟩] ∧
        (postJob pg db now user body).db.jobs = db.jobs ++ [row]) ∧
      ∀ v : JVal, postJob pg db now user { body with status := v } =
        postJob pg db now user body := by
  refine ⟨?_, fun v => rfl⟩
  unfold postJob at hok ⊢
  split at hok
  · simp [accessDenied] at hok
  · split at hok
    · simp [createInvalid] at hok
    · rename_i hrole hval
      simp only [hrole, hval, if_false]
      cases hins : insertJob pg db now body.title body.description body.address body.due_date
          body.due_time body.driver_id user.id with
      | error e => simp [hins, finishCreate, serverError] at hok
      | ok r =>
        obtain ⟨row, db1⟩ := r
        obtain ⟨hst, _, hdb⟩ := insertJob_ok hins
        refine ⟨row, hst, ?_, ?_, ?_⟩
        · simp [finishCreate]
        · simp [finishCreate]
        · simp [finishCreate, hdb]

/-- Witness of C8: the admin creates a job whose body carries the status `completed`. -/
theorem C8_created_job_is_pending_witness :
    (∃ row : Job, row.status = some "pending" ∧
        (postJob samplePg sampleDb 20 admin1 { sampleCreate with status := .str "completed" }).res
          = ⟨201, .job row⟩ ∧
        (postJob samplePg sampleDb 20 admin1 { sampleCreate with status := .str "completed" }).emitted
          = [⟨"job_created", .job row⟩] ∧
        (postJob samplePg sampleDb 20 admin1
          { sampleCreate with status := .str "completed" }).db.jobs = sampleDb.jobs ++ [row]) ∧
      ∀ v : JVal,
        postJob samplePg sampleDb 20 admin1
            { ({ sampleCreate with status := .str "completed" } : JobBody) with status := v } =
          postJob samplePg sampleDb 20 admin1 { sampleCreate with status := .str "completed" } :=
  C8_created_job_is_pending samplePg sampleDb 20 admin1
    { sampleCreate with status := .str "completed" } (by decide)

/-- C9. For an admin or dispatcher caller: when title, address or due_date is not
truthy (absent, null and the empty string are not truthy) the create route replies 400,
stores nothing and emits nothing; when all three are truthy (a string is truthy exactly
when it is non-empty) validation passes and the outcome is that of the INSERT
statement. -/
theorem C9_create_requires_title_address_due_date (pg : Pg) (db : Db) (now : Nat)
    (user : TokenUser) (body : JobBody) (hrole : user.role = "admin" ∨ user.role = "dispatcher") :
    ((body.title.truthy = false ∨ body.address.truthy = false ∨ body.due_date.truthy = false) →
        postJob pg db now user body = { db := db, res := createInvalid, emitted := [] }) ∧
      ((body.title.truthy = true ∧ body.address.truthy = true ∧ body.due_date.truthy = true) →
        postJob pg db now user body =
          finishCreate db (insertJob pg db now body.title body.description body.address
            body.due_date body.due_time body.driver_id user.id)) ∧
      (JVal.undefined.truthy = false ∧ JVal.null.truthy = false ∧
        ∀ s : String, (JVal.str s).truthy = true ↔ s ≠ "") := by
  have hnd : ¬ user.role = "driver" := by
    rcases hrole with h | h <;> rw [h] <;> decide
  refine ⟨?_, ?_, rfl, rfl, ?_⟩
  · intro h
    unfold postJob
    rcases h with h | h | h <;> simp [hnd, h]
  · rintro ⟨h1, h2, h3⟩
    unfold postJob
    simp [hnd, h1, h2, h3]
  · intro s
    simp [JVal.truthy]

/-- Witness of C9: the admin sends an empty title, then a complete body. -/
theorem C9_create_requires_title_address_due_date_witness :
    postJob samplePg sampleDb 20 admin1 { sampleCreate with title := .str "" } =
        { db := sampleDb, res := createInvalid, emitted := [] } ∧
      postJob samplePg sampleDb 20 admin1 sampleCreate =
        finishCreate sampleDb (insertJob samplePg sampleDb 20 sampleCreate.title
          sampleCreate.description sampleCreate.address sampleCreate.due_date
          sampleCreate.due_time sampleCreate.driver_id admin1.id) :=
  ⟨(C9_create_requires_title_address_due_date samplePg sampleDb 20 admin1
      { sampleCreate with title := .str "" } (Or.inl rfl)).1 (Or.inl (by decide)),
   (C9_create_requires_title_address_due_date samplePg sampleDb 20 admin1 sampleCreate
      (Or.inl rfl)).2.1 (by decide)⟩

/-- C10. For a driver-role caller the create route and the delete route both reply 403
`Access denied` whatever the store holds, leave the store as it is and emit nothing; for
an admin or dispatcher caller neither route replies 403. -/
theorem C10_driver_cannot_create_or_delete (pg : Pg) (db : Db) (now : Nat) (user : TokenUser)
    (id : String) (body : JobBody) :
    (user.role = "driver" →
        postJob pg db now user body = { db := db, res := accessDenied, emitted := [] } ∧
        deleteJob pg db user id = { db := db, res := accessDenied, emitted := [] }) ∧
      (user.role = "admin" ∨ user.role = "dispatcher" →
        (postJob pg db now user body).res.status ≠ 403 ∧
        (deleteJob pg db user id).res.status ≠ 403) := by
  constructor
  · intro h
    simp [postJob, deleteJob, h]
  · intro hrole
    have hnd : ¬ user.role = "driver" := by
      rcases hrole with h | h <;> rw [h] <;> decide
    constructor
    · unfold postJob
      simp only [hnd, if_false]
      split
      · simp [createInvalid]
      · cases insertJob pg db now body.title body.description body.address body.due_date
            body.due_time body.driver_id user.id with
        | error e => simp [finishCreate, serverError]
        | ok r => simp [finishCreate]
    · unfold deleteJob
      simp only [hnd, if_false]
      split <;> simp [serverError, jobNotFound]

/-- Witness of C10: driver 2 and the admin on the sample store. -/
theorem C10_driver_cannot_create_or_delete_witness :
    (postJob samplePg sampleDb 20 driver2 sampleCreate =
        { db := sampleDb, res := accessDenied, emitted := [] } ∧
      deleteJob samplePg sampleDb driver2 "1" =
        { db := sampleDb, res := accessDenied, emitted := [] }) ∧
      ((postJob samplePg sampleDb 20 admin1 sampleCreate).res.status ≠ 403 ∧
        (deleteJob samplePg sampleDb admin1 "1").res.status ≠ 403) :=
  ⟨(C10_driver_cannot_create_or_delete samplePg sampleDb 20 driver2 "1" sampleCreate).1 rfl,
   (C10_driver_cannot_create_or_delete samplePg sampleDb 20 admin1 "1" sampleCreate).2
      (Or.inl rfl)⟩

/-! ### The update statement -/

/-- The columns and parameters of the built statement, paired, are the assignments of
`otherSets` followed by the status assignment: each clause is bound to its own value. -/
theorem buildJobUpdate_sets (body : JobBody) (id : String) :
    (buildJobUpdate body id).cols.zip (buildJobUpdate body id).params =
      otherSets body ++ statusSets body := by
  unfold buildJobUpdate otherSets statusSets
  by_cases h1 : body.title.truthy = true <;>
  by_cases h2 : body.description = .undefined <;>
  by_cases h3 : body.address.truthy = true <;>
  by_cases h4 : body.due_date.truthy = true <;>
  by_cases h5 : body.due_time = .undefined <;>
  by_cases h6 : body.driver_id = .undefined <;>
  by_cases h7 : body.status.truthy = true <;>
  simp [UpdateQuery.push, h1, h2, h3, h4, h5, h6, h7]

/-- No assignment of `otherSets` is to the status column. -/
theorem otherSets_not_status (body : JobBody) : ∀ p ∈ otherSets body, p.1 ≠ JobCol.status := by
  intro p hp
  unfold otherSets at hp
  simp only [List.mem_append] at hp
  rcases hp with ((((hp | hp) | hp) | hp) | hp) | hp <;>
    (split at hp <;> simp at hp; subst hp; simp)

/-- A truthy value is bound as a text, never as NULL. -/
theorem pgParam_of_truthy {v : JVal} (h : v.truthy = true) : ∃ t, pgParam v = some t := by
  cases v <;> simp [JVal.truthy, pgParam] at h ⊢

/-- A text that `VARCHAR(20)` stores as one of the five statuses is that status. -/
theorem varcharIn_status {t s : String} (h : varcharIn 20 t = some s) (hs : s ∈ statuses) :
    t = s := by
  unfold varcharIn at h
  split at h
  · simpa using h
  · rename_i hlen
    split at h
    · simp only [Option.some.injEq] at h
      have hlt : 20 < t.data.length := Nat.lt_of_not_le hlen
      have hl : s.data.length = 20 := by
        rw [← h]
        show (List.take 20 t.data).length = 20
        rw [List.length_take]
        omega
      exfalso
      simp only [statuses, List.mem_cons, List.mem_singleton, List.not_mem_nil, or_false] at hs
      rcases hs with rfl | rfl | rfl | rfl | rfl <;> exact absurd hl (by decide)
    · simp at h

/-- Conversion of an appended parameter list splits. -/
theorem bindJobParams_append {pg : Pg} :
    ∀ {l1 l2 : List (JobCol × JVal)} {vals : List JobSet},
      bindJobParams pg (l1 ++ l2) = .ok vals →
      ∃ v1 v2, vals = v1 ++ v2 ∧ bindJobParams pg l1 = .ok v1 ∧ bindJobParams pg l2 = .ok v2 := by
  intro l1
  induction l1 with
  | nil => intro l2 vals h; exact ⟨[], vals, rfl, rfl, h⟩
  | cons p rest ih =>
    intro l2 vals h
    obtain ⟨c, v⟩ := p
    simp only [List.cons_append, bindJobParams] at h ⊢
    cases h1 : bindJobParam pg c v with
    | error e => simp [h1] at h
    | ok s1 =>
      cases h2 : bindJobParams pg (rest ++ l2) with
      | error e => simp [h1, h2] at h
      | ok ss1 =>
        simp [h1, h2] at h
        obtain ⟨v1, v2, rfl, hv1, hv2⟩ := ih h2
        exact ⟨s1 :: v1, v2, by simp [← h], by simp [hv1], hv2⟩

/-- Assigning an appended list is assigning the first part, then the second. -/
theorem Job.assignAll_append {db : Db} :
    ∀ {v1 v2 : List JobSet} {j j1 : Job}, Job.assignAll db j (v1 ++ v2) = .ok j1 →
      ∃ j0, Job.assignAll db j v1 = .ok j0 ∧ Job.assignAll db j0 v2 = .ok j1 := by
  intro v1
  induction v1 with
  | nil => intro v2 j j1 h; exact ⟨j, rfl, h⟩
  | cons s rest ih =>
    intro v2 j j1 h
    simp only [List.cons_append, Job.assignAll] at h ⊢
    cases h1 : j.assign db s with
    | error e => simp [h1] at h
    | ok j2 =>
      simp only [h1] at h
      exact ih h

/-- The converted status assignment of a truthy status: a text, which a successful
assignment finds among the five statuses and stores as it was sent. -/
theorem status_set_ok {pg : Pg} {db : Db} {v : JVal} {vals : List JobSet} {j j1 : Job}
    (hv : v.truthy = true) (hb : bindJobParams pg [(JobCol.status, v)] = .ok vals)
    (ha : Job.assignAll db j vals = .ok j1) :
    ∃ s ∈ statuses, pgParam v = some s ∧ j1.status = some s := by
  obtain ⟨t, ht⟩ := pgParam_of_truthy hv
  simp only [bindJobParams, bindJobParam, ht, bindVarchar] at hb
  cases hvc : varcharIn 20 t with
  | none => simp [hvc, Except.map] at hb
  | some s =>
    simp [hvc, Except.map] at hb
    subst hb
    simp only [Job.assignAll, Job.assign] at ha
    by_cases hs : s ∈ statuses
    · simp [hs] at ha
      subst ha
      exact ⟨s, hs, by rw [ht, varcharIn_status hvc hs], rfl⟩
    · simp [hs] at ha

/-- Rows of the table and rows returned by a successful `updateRows`. -/
theorem updateRows_ok {f : Job → Except PgError Job} {n : Int} :
    ∀ {l tbl ret : List Job}, updateRows f n l = .ok (tbl, ret) →
      (∀ j ∈ tbl, j ∈ l ∨ ∃ j0 ∈ l, j0.id = n ∧ f j0 = .ok j) ∧
      (∀ j ∈ ret, j ∈ tbl ∧ ∃ j0 ∈ l, j0.id = n ∧ f j0 = .ok j) ∧
      (ret = [] → tbl = l) := by
  intro l
  induction l with
  | nil =>
    intro tbl ret h
    simp [updateRows] at h
    obtain ⟨rfl, rfl⟩ := h
    simp
  | cons a rest ih =>
    intro tbl ret h
    simp only [updateRows] at h
    split at h
    · rename_i hid
      cases h1 : f a with
      | error e => simp [h1] at h
      | ok a1 =>
        cases h2 : updateRows f n rest with
        | error e => simp [h1, h2] at h
        | ok r =>
          obtain ⟨tbl1, ret1⟩ := r
          simp [h1, h2] at h
          obtain ⟨rfl, rfl⟩ := h
          obtain ⟨i1, i2, _⟩ := ih h2
          refine ⟨?_, ?_, by simp⟩
          · intro j hj
            rcases List.mem_cons.1 hj with rfl | hj
            · exact Or.inr ⟨a, List.mem_cons_self _ _, hid, h1⟩
            · rcases i1 j hj with h | ⟨j0, hj0, h⟩
              · exact Or.inl (List.mem_cons_of_mem _ h)
              · exact Or.inr ⟨j0, List.mem_cons_of_mem _ hj0, h⟩
          · intro j hj
            rcases List.mem_cons.1 hj with rfl | hj
            · exact ⟨List.mem_cons_self _ _, a, List.mem_cons_self _ _, hid, h1⟩
            · obtain ⟨h, j0, hj0, h3⟩ := i2 j hj
              exact ⟨List.mem_cons_of_mem _ h, j0, List.mem_cons_of_mem _ hj0, h3⟩
    · cases h2 : updateRows f n rest with
      | error e => simp [h2] at h
      | ok r =>
        obtain ⟨tbl1, ret1⟩ := r
        simp [h2] at h
        obtain ⟨rfl, rfl⟩ := h
        obtain ⟨i1, i2, i3⟩ := ih h2
        refine ⟨?_, ?_, ?_⟩
        · intro j hj
          rcases List.mem_cons.1 hj with rfl | hj
          · exact Or.inl (List.mem_cons_self _ _)
          · rcases i1 j hj with h | ⟨j0, hj0, h⟩
            · exact Or.inl (List.mem_cons_of_mem _ h)
            · exact Or.inr ⟨j0, List.mem_cons_of_mem _ hj0, h⟩
        · intro j hj
          obtain ⟨h, j0, hj0, h3⟩ := i2 j hj
          exact ⟨List.mem_cons_of_mem _ h, j0, List.mem_cons_of_mem _ hj0, h3⟩
        · intro hr
          rw [i3 hr]

/-- What a successful UPDATE statement returns: every returned row is in the new table
and is a stored row of the bound id rewritten by the converted assignments; with no
returned row the store is unchanged. -/
theorem execJobUpdate_ok {pg : Pg} {db db1 : Db} {now : Nat} {sets : List (JobCol × JVal)}
    {id : String} {ret : List Job} (h : execJobUpdate pg db now sets id = .ok (ret, db1)) :
    ∃ vals n, bindJobParams pg sets = .ok vals ∧ pg.int4In id = some n ∧
      (∀ j ∈ db1.jobs, j ∈ db.jobs ∨ ∃ j0 ∈ db.jobs, j0.id = n ∧ Job.updated db now vals j0 = .ok j) ∧
      (∀ j ∈ ret, j ∈ db1.jobs ∧ ∃ j0 ∈ db.jobs, j0.id = n ∧ Job.updated db now vals j0 = .ok j) ∧
      (ret = [] → db1 = db) := by
  unfold execJobUpdate at h
  cases sets with
  | nil => simp at h
  | cons p rest =>
    simp only at h
    cases h1 : bindJobParams pg (p :: rest) with
    | error e => simp [h1] at h
    | ok vals =>
      simp only [h1, bindId] at h
      cases h2 : pg.int4In id with
      | none => simp [h2] at h
      | some n =>
        simp only [h2] at h
        cases h3 : updateRows (Job.updated db now vals) n db.jobs with
        | error e => simp [h3] at h
        | ok r =>
          obtain ⟨tbl, ret1⟩ := r
          simp [h3] at h
          obtain ⟨rfl, rfl⟩ := h
          obtain ⟨i1, i2, i3⟩ := updateRows_ok h3
          refine ⟨vals, n, rfl, rfl, i1, i2, ?_⟩
          intro hr
          rw [i3 hr]

/-- The row written by an update whose assignments are some non-status assignments
followed by the status assignment of the body: same id, status as `statusAfter`. -/
theorem Job.updated_status {pg : Pg} {db : Db} {now : Nat} {pre : List (JobCol × JVal)}
    {body : JobBody} {vals : List JobSet} {j0 j : Job}
    (hpre : ∀ p ∈ pre, p.1 ≠ JobCol.status)
    (hb : bindJobParams pg (pre ++ statusSets body) = .ok vals)
    (hu : Job.updated db now vals j0 = .ok j) :
    j.id = j0.id ∧ statusAfter body j0 j := by
  unfold Job.updated at hu
  cases ha : Job.assignAll db j0 vals with
  | error e => simp [ha] at hu
  | ok j1 =>
    have hid : j1.id = j0.id := Job.assignAll_id ha
    have hst : statusAfter body j0 j1 := by
      obtain ⟨v1, v2, rfl, hv1, hv2⟩ := bindJobParams_append hb
      obtain ⟨jm, hm1, hm2⟩ := Job.assignAll_append ha
      have hmid : jm.status = j0.status :=
        Job.assignAll_status_of_ne hm1 (bindJobParams_not_status hv1 hpre)
      by_cases ht : body.status.truthy = true
      · left
        simp only [statusSets, ht, if_true] at hv2
        exact ⟨ht, status_set_ok ht hv2 hm2⟩
      · right
        simp only [statusSets, ht] at hv2
        simp [bindJobParams] at hv2
        subst hv2
        simp [Job.assignAll] at hm2
        subst hm2
        exact ⟨by simpa using ht, hmid⟩
    simp [ha] at hu
    subst hu
    exact ⟨hid, hst⟩

/-- The two outcomes of an UPDATE statement followed by the reply of the update route:
either nothing is stored or emitted and the reply is not 200, or the reply is 200 with
a row that is emitted, is in the new table and has the status of `statusAfter`, and
every row of the new table is a stored row or such a rewritten row. -/
theorem finishUpdate_spec (pg : Pg) (db : Db) (now : Nat) (id : String)
    (pre : List (JobCol × JVal)) (body : JobBody) (hpre : ∀ p ∈ pre, p.1 ≠ JobCol.status) :
    ((finishUpdate db (execJobUpdate pg db now (pre ++ statusSets body) id)).res.status ≠ 200 ∧
      (finishUpdate db (execJobUpdate pg db now (pre ++ statusSets body) id)).db = db ∧
      (finishUpdate db (execJobUpdate pg db now (pre ++ statusSets body) id)).emitted = []) ∨
    (∃ row : Job,
      (finishUpdate db (execJobUpdate pg db now (pre ++ statusSets body) id)).res
        = ⟨200, .job row⟩ ∧
      (finishUpdate db (execJobUpdate pg db now (pre ++ statusSets body) id)).emitted
        = [⟨"job_updated", .job row⟩] ∧
      row ∈ (finishUpdate db (execJobUpdate pg db now (pre ++ statusSets body) id)).db.jobs ∧
      (∀ j ∈ (finishUpdate db (execJobUpdate pg db now (pre ++ statusSets body) id)).db.jobs,
        j ∈ db.jobs ∨ ∃ j0 ∈ db.jobs, j.id = j0.id ∧ statusAfter body j0 j) ∧
      ∃ j0 ∈ db.jobs, row.id = j0.id ∧ statusAfter body j0 row) := by
  cases hx : execJobUpdate pg db now (pre ++ statusSets body) id with
  | error e => left; simp [finishUpdate, serverError]
  | ok r =>
    obtain ⟨ret, db1⟩ := r
    obtain ⟨vals, n, hb, _, h1, h2, h3⟩ := execJobUpdate_ok hx
    cases ret with
    | nil => left; simp [finishUpdate, jobNotFound, h3 rfl]
    | cons row rest =>
      right
      obtain ⟨hin, j0, hj0, _, hu⟩ := h2 row (List.mem_cons_self _ _)
      refine ⟨row, rfl, rfl, hin, ?_, j0, hj0, Job.updated_status hpre hb hu⟩
      intro j hj
      rcases h1 j hj with h | ⟨k, hk, _, hku⟩
      · exact Or.inl h
      · exact Or.inr ⟨k, hk, Job.updated_status hpre hb hku⟩

/-- The two outcomes of the update route, as in `finishUpdate_spec`. -/
theorem putJob_spec (pg : Pg) (db : Db) (now : Nat) (user : TokenUser) (id : String)
    (body : JobBody) :
    ((putJob pg db now user id body).res.status ≠ 200 ∧
      (putJob pg db now user id body).db = db ∧
      (putJob pg db now user id body).emitted = []) ∨
    (∃ row : Job,
      (putJob pg db now user id body).res = ⟨200, .job row⟩ ∧
      (putJob pg db now user id body).emitted = [⟨"job_updated", .job row⟩] ∧
      row ∈ (putJob pg db now user id body).db.jobs ∧
      (∀ j ∈ (putJob pg db now user id body).db.jobs,
        j ∈ db.jobs ∨ ∃ j0 ∈ db.jobs, j.id = j0.id ∧ statusAfter body j0 j) ∧
      ∃ j0 ∈ db.jobs, row.id = j0.id ∧ statusAfter body j0 row) := by
  have hgen : putJobGeneral pg db now id body =
      finishUpdate db (execJobUpdate pg db now (otherSets body ++ statusSets body) id) := by
    simp only [putJobGeneral, buildJobUpdate_sets]
  have hG := finishUpdate_spec pg db now id (otherSets body) body (otherSets_not_status body)
  rw [← hgen] at hG
  unfold putJob
  split
  · split
    · left; simp [serverError]
    · left; simp [accessDenied]
    · split
      · left; simp [accessDenied]
      · split
        · rename_i ht
          have hS := finishUpdate_spec pg db now id [] body (by simp)
          simpa [statusSets, ht] using hS
        · exact hG
  · exact hG

/-- C6, counterexample to the claim as stated. A create request whose body carries the
status `bogus` is accepted (201, `job_created` emitted), and an update request whose
body carries the empty string as status is accepted (200, `job_updated` emitted),
although neither string is one of the five values. -/
theorem C6_unlisted_status_request_accepted :
    "bogus" ∉ statuses ∧
      (postJob samplePg sampleDb 20 admin1 { sampleCreate with status := .str "bogus" }).res
        = ⟨201, .job sampleCreated⟩ ∧
      (postJob samplePg sampleDb 20 admin1 { sampleCreate with status := .str "bogus" }).emitted
        = [⟨"job_created", .job sampleCreated⟩] ∧
      "" ∉ statuses ∧
      (putJob samplePg sampleDb 20 admin1 "1" { title := .str "Changed", status := .str "" }).res
        = ⟨200, .job { sampleJob with title := "Changed", updated_at := 20 }⟩ ∧
      (putJob samplePg sampleDb 20 admin1 "1"
          { title := .str "Changed", status := .str "" }).emitted
        = [⟨"job_updated", .job { sampleJob with title := "Changed", updated_at := 20 }⟩] := by
  decide

/-- C6, amended. On a store whose job statuses are among the five values, every
create request and every update request, from any role, leaves a store whose job
statuses are among the five values and emits only events whose status is among them;
and an update request carrying a non-empty status string outside the five is not
accepted: the reply is not 200, the store is unchanged and nothing is emitted. -/
theorem C6_status_among_five (pg : Pg) (db : Db) (now : Nat) (user : TokenUser)
    (hinv : ∀ j ∈ db.jobs, j.statusOk = true) :
    (∀ body : JobBody,
      (∀ j ∈ (postJob pg db now user body).db.jobs, j.statusOk = true) ∧
      (∀ e ∈ (postJob pg db now user body).emitted, e.statusOk = true)) ∧
    (∀ (id : String) (body : JobBody),
      (∀ j ∈ (putJob pg db now user id body).db.jobs, j.statusOk = true) ∧
      (∀ e ∈ (putJob pg db now user id body).emitted, e.statusOk = true)) ∧
    (∀ (id : String) (body : JobBody) (s : String),
      body.status = .str s → s ≠ "" → s ∉ statuses →
      (putJob pg db now user id body).res.status ≠ 200 ∧
      (putJob pg db now user id body).db = db ∧
      (putJob pg db now user id body).emitted = []) := by
  have hafter : ∀ (body : JobBody) (j0 j : Job), j0 ∈ db.jobs → statusAfter body j0 j →
      j.statusOk = true := by
    intro body j0 j hj0 h
    rcases h with ⟨_, s, hs, _, hj⟩ | ⟨_, hj⟩
    · simp [Job.statusOk, hj, hs]
    · have := hinv j0 hj0
      simpa [Job.statusOk, hj] using this
  refine ⟨?_, ?_, ?_⟩
  · intro body
    unfold postJob
    split
    · exact ⟨hinv, by simp⟩
    · split
      · exact ⟨hinv, by simp⟩
      · cases hins : insertJob pg db now body.title body.description body.address
            body.due_date body.due_time body.driver_id user.id with
        | error e => exact ⟨by simpa [finishCreate] using hinv, by simp [finishCreate]⟩
        | ok r =>
          obtain ⟨row, db1⟩ := r
          obtain ⟨hst, _, hdb⟩ := insertJob_ok hins
          have hrow : row.statusOk = true := by simp [Job.statusOk, hst, statuses]
          constructor
          · intro j hj
            simp only [finishCreate, hdb, List.mem_append, List.mem_singleton] at hj
            rcases hj with hj | rfl
            · exact hinv j hj
            · exact hrow
          · intro e he
            simp only [finishCreate, List.mem_singleton] at he
            subst he
            exact hrow
  · intro id body
    rcases putJob_spec pg db now user id body with ⟨_, hdb, hem⟩ | ⟨row, _, hem, _, hall, j0, hj0, _, hst⟩
    · rw [hdb, hem]
      exact ⟨hinv, by simp⟩
    · constructor
      · intro j hj
        rcases hall j hj with h | ⟨k, hk, _, hks⟩
        · exact hinv j h
        · exact hafter body k j hk hks
      · intro e he
        rw [hem, List.mem_singleton] at he
        subst he
        exact hafter body j0 row hj0 hst
  · intro id body s hs hne hnot
    rcases putJob_spec pg db now user id body with h | ⟨row, _, _, _, _, j0, _, _, hst⟩
    · exact h
    · exfalso
      rcases hst with ⟨_, t, ht, hp, _⟩ | ⟨hf, _⟩
      · rw [hs] at hp
        simp only [pgParam, Option.some.injEq] at hp
        exact hnot (hp ▸ ht)
      · rw [hs] at hf
        simp [JVal.truthy, hne] at hf

/-- Witness of C6: on the sample store, the admin's update of job 1 with status
`bogus` is refused and changes nothing. -/
theorem C6_status_among_five_witness :
    (putJob samplePg sampleDb 20 admin1 "1" { status := .str "bogus" }).res.status ≠ 200 ∧
      (putJob samplePg sampleDb 20 admin1 "1" { status := .str "bogus" }).db = sampleDb ∧
      (putJob samplePg sampleDb 20 admin1 "1" { status := .str "bogus" }).emitted = [] :=
  (C6_status_among_five samplePg sampleDb 20 admin1 (by decide)).2.2 "1"
    { status := .str "bogus" } "bogus" rfl (by decide) (by decide)

/-- C7, counterexample to the claim as stated. The admin updates a completed job with
status `pending`: the reply is 200 and the stored status moves from `completed` back to
`pending`, which is not a move of the state machine. -/
theorem C7_completed_job_reopened :
    (sampleDbIn "completed").jobs.map (fun j => j.status) = [some "completed"] ∧
      (putJob samplePg (sampleDbIn "completed") 20 admin1 "1" { status := .str "pending" }).res
        = ⟨200, .job { sampleJob with status := some "pending", updated_at := 20 }⟩ ∧
      (putJob samplePg (sampleDbIn "completed") 20 admin1 "1"
          { status := .str "pending" }).db.jobs.map (fun j => j.status) = [some "pending"] ∧
      specLegalMove "completed" "pending" = false := by
  decide

/-- C7, amended. For every successful job update (reply 200 with a row), the row is in
the new table and rewrites a stored job of the same id, and its status is the status
sent by the request, one of the five values, when the request carries a truthy
status, and the status before otherwise. The status before plays no part: on the sample
store every one of the twenty-five moves between the five values succeeds. -/
theorem C7_update_status_unconstrained (pg : Pg) (db : Db) (now : Nat) (user : TokenUser)
    (id : String) (body : JobBody) (row : Job)
    (hok : (putJob pg db now user id body).res = ⟨200, .job row⟩) :
    (row ∈ (putJob pg db now user id body).db.jobs ∧
      ∃ j0 ∈ db.jobs, row.id = j0.id ∧
        ((body.status.truthy = true ∧
            ∃ s ∈ statuses, pgParam body.status = some s ∧ row.status = some s) ∨
          (body.status.truthy = false ∧ row.status = j0.status))) ∧
    (∀ a ∈ statuses, ∀ b ∈ statuses,
      (putJob samplePg (sampleDbIn a) 20 admin1 "1" { status := .str b }).res =
        ⟨200, .job { sampleJob with status := some b, updated_at := 20 }⟩) := by
  constructor
  · rcases putJob_spec pg db now user id body with ⟨hne, _, _⟩ | ⟨r, hres, _, hin, _, j0, hj0, hid, hst⟩
    · rw [hok] at hne
      exact absurd rfl hne
    · rw [hok] at hres
      simp only [Response.mk.injEq, ResBody.job.injEq, true_and] at hres
      subst hres
      exact ⟨hin, j0, hj0, hid, hst⟩
  · decide

/-- Witness of C7: the admin's update of the completed sample job to `pending`. -/
theorem C7_update_status_unconstrained_witness :
    { sampleJob with status := some "pending", updated_at := 20 } ∈
        (putJob samplePg (sampleDbIn "completed") 20 admin1 "1" { status := .str "pending" }).db.jobs ∧
      ∃ j0 ∈ (sampleDbIn "completed").jobs,
        ({ sampleJob with status := some "pending", updated_at := 20 } : Job).id = j0.id ∧
        (((JVal.str "pending").truthy = true ∧
            ∃ s ∈ statuses, pgParam (JVal.str "pending") = some s ∧
              ({ sampleJob with status := some "pending", updated_at := 20 } : Job).status = some s) ∨
          ((JVal.str "pending").truthy = false ∧
            ({ sampleJob with status := some "pending", updated_at := 20 } : Job).status
              = j0.status)) :=
  (C7_update_status_unconstrained samplePg (sampleDbIn "completed") 20 admin1 "1"
    { status := .str "pending" } { sampleJob with status := some "pending", updated_at := 20 }
    (by decide)).1

/-! ### Events and store statements -/

/-- The statement the update route runs is the one of `updateSets`, and its reply is
that of `finishUpdate`, unless the route answered before running it (403 or 500 of the
ownership check), in which case it emits nothing and leaves the store. -/
theorem putJob_runs_updateSets (pg : Pg) (db : Db) (now : Nat) (user : TokenUser) (id : String)
    (body : JobBody) :
    putJob pg db now user id body =
        finishUpdate db (execJobUpdate pg db now (updateSets user id body) id) ∨
      ((putJob pg db now user id body).emitted = [] ∧ (putJob pg db now user id body).db = db) := by
  unfold putJob updateSets putJobGeneral
  by_cases hr : user.role = "driver"
  · simp only [hr, if_true, true_and]
    split
    · right; simp
    · right; simp
    · split
      · right; simp
      · by_cases ht : body.status.truthy = true
        · left; simp [ht]
        · left; simp [ht]
  · left; simp [hr]

/-- C11. No event without a successful store statement, for each mutating route:
when the INSERT of the create route, the UPDATE of the update route, the DELETE of the
delete route, the INSERT of the note route or the upsert of the location route raises,
or the UPDATE or DELETE returns no row, the route emits nothing; and whenever a route
emits, its statement has succeeded (and returned a row) and the store of the outcome is
the store that statement left. -/
theorem C11_no_event_without_store_success (pg : Pg) (db : Db) (now : Nat) (user : TokenUser)
    (id : String) :
    (∀ body : JobBody,
      ((∃ e, insertJob pg db now body.title body.description body.address body.due_date
            body.due_time body.driver_id user.id = .error e) →
          (postJob pg db now user body).emitted = []) ∧
      ((postJob pg db now user body).emitted ≠ [] →
          ∃ row db1, insertJob pg db now body.title body.description body.address body.due_date
            body.due_time body.driver_id user.id = .ok (row, db1) ∧
            (postJob pg db now user body).db = db1)) ∧
    (∀ body : JobBody,
      (((∃ e, execJobUpdate pg db now (updateSets user id body) id = .error e) ∨
          (∃ db1, execJobUpdate pg db now (updateSets user id body) id = .ok ([], db1))) →
          (putJob pg db now user id body).emitted = []) ∧
      ((putJob pg db now user id body).emitted ≠ [] →
          ∃ row rest db1,
            execJobUpdate pg db now (updateSets user id body) id = .ok (row :: rest, db1) ∧
            (putJob pg db now user id body).db = db1)) ∧
    ((((∃ e, deleteJobRows pg db id = .error e) ∨ (∃ db1, deleteJobRows pg db id = .ok ([], db1))) →
        (deleteJob pg db user id).emitted = []) ∧
      ((deleteJob pg db user id).emitted ≠ [] →
        ∃ row rest db1, deleteJobRows pg db id = .ok (row :: rest, db1) ∧
          (deleteJob pg db user id).db = db1)) ∧
    (∀ body : NoteBody,
      ((∃ e, insertNote pg db now id user.id body.note = .error e) →
          (postNote pg db now user id body).emitted = []) ∧
      ((postNote pg db now user id body).emitted ≠ [] →
          ∃ row db1, insertNote pg db now id user.id body.note = .ok (row, db1) ∧
            (postNote pg db now user id body).db = db1)) ∧
    (∀ body : LocationBody,
      ((∃ e, upsertLocation pg db now user.id body.latitude body.longitude = .error e) →
          (postLocation pg db now user body).emitted = []) ∧
      ((postLocation pg db now user body).emitted ≠ [] →
          ∃ db1, upsertLocation pg db now user.id body.latitude body.longitude = .ok db1 ∧
            (postLocation pg db now user body).db = db1)) := by
  refine ⟨?_, ?_, ?_, ?_, ?_⟩
  · intro body
    unfold postJob
    constructor
    · rintro ⟨e, he⟩
      split
      · rfl
      · split
        · rfl
        · simp [he, finishCreate]
    · intro h
      split at h
      · exact absurd rfl h
      · split at h
        · exact absurd rfl h
        · rename_i hr hv
          simp only [hr, hv, if_false]
          cases hins : insertJob pg db now body.title body.description body.address
              body.due_date body.due_time body.driver_id user.id with
          | error e => simp [hins, finishCreate] at h
          | ok r => exact ⟨r.1, r.2, rfl, rfl⟩
  · intro body
    rcases putJob_runs_updateSets pg db now user id body with hrun | ⟨hem, _⟩
    · rw [hrun]
      constructor
      · rintro (⟨e, he⟩ | ⟨db1, he⟩) <;> simp [he, finishUpdate]
      · intro h
        cases hx : execJobUpdate pg db now (updateSets user id body) id with
        | error e => simp [hx, finishUpdate] at h
        | ok r =>
          obtain ⟨ret, db1⟩ := r
          cases ret with
          | nil => simp [hx, finishUpdate] at h
          | cons row rest => exact ⟨row, rest, db1, rfl, rfl⟩
    · exact ⟨fun _ => hem, fun h => absurd hem h⟩
  · unfold deleteJob
    constructor
    · rintro (⟨e, he⟩ | ⟨db1, he⟩) <;> split <;> simp [he]
    · intro h
      split at h
      · exact absurd rfl h
      · rename_i hr
        simp only [hr, if_false]
        cases hx : deleteJobRows pg db id with
        | error e => simp [hx] at h
        | ok r =>
          obtain ⟨ret, db1⟩ := r
          cases ret with
          | nil => simp [hx] at h
          | cons row rest => exact ⟨row, rest, db1, rfl, rfl⟩
  · intro body
    unfold postNote
    constructor
    · rintro ⟨e, he⟩
      split
      · rfl
      · simp [he]
    · intro h
      split at h
      · exact absurd rfl h
      · rename_i hv
        simp only [hv]
        cases hx : insertNote pg db now id user.id body.note with
        | error e => simp [hx] at h
        | ok r =>
          obtain ⟨row, db1⟩ := r
          refine ⟨row, db1, rfl, ?_⟩
          simp only [Bool.false_eq_true, if_false]
          cases selectNoteWithAuthor db1 row.id <;> rfl
  · intro body
    unfold postLocation
    constructor
    · rintro ⟨e, he⟩
      split
      · rfl
      · simp [he]
    · intro h
      split at h
      · exact absurd rfl h
      · rename_i hv
        simp only [hv]
        cases hx : upsertLocation pg db now user.id body.latitude body.longitude with
        | error e => simp [hx] at h
        | ok db1 => exact ⟨db1, rfl, rfl⟩

/-- Witness of C11: the admin updates the unused job id 7 (the UPDATE returns no row)
and adds a note to it (the INSERT raises on the foreign key): neither emits. -/
theorem C11_no_event_without_store_success_witness :
    (putJob samplePg sampleDb 20 admin1 "7" { title := .str "Changed" }).emitted = [] ∧
      (postNote samplePg sampleDb 20 admin1 "7" { note := .str "on site" }).emitted = [] :=
  ⟨((C11_no_event_without_store_success samplePg sampleDb 20 admin1 "7").2.1
      { title := .str "Changed" }).1 (Or.inr ⟨sampleDb, rfl⟩),
   ((C11_no_event_without_store_success samplePg sampleDb 20 admin1 "7").2.2.2.1
      { note := .str "on site" }).1 ⟨.foreignKey, rfl⟩⟩

/-- C12 (the code departs from the claim). The admin creates a job assigned to driver
3, then moves job 1 (assigned to driver 2) to `in_progress`. Both events carry the bare
row returned by `RETURNING *`: the object has no key `driver_name`, although the
listing join finds the display names `Sarah Driver` and `Mike Driver` for these jobs. -/
theorem C12_job_event_lacks_driver_name :
    (postJob samplePg sampleDb 20 admin1 sampleCreate).emitted
        = [⟨"job_created", .job sampleCreated⟩] ∧
      "driver_name" ∉ (Payload.job sampleCreated).keys ∧
      withDriver (postJob samplePg sampleDb 20 admin1 sampleCreate).db sampleCreated
        = [{ job := sampleCreated, driver_name := some "Sarah Driver",
             driver_username := some "driver2" }] ∧
      (putJob samplePg sampleDb 20 admin1 "1" { status := .str "in_progress" }).emitted
        = [⟨"job_updated", .job { sampleJob with status := some "in_progress", updated_at := 20 }⟩] ∧
      "driver_name" ∉
        (Payload.job { sampleJob with status := some "in_progress", updated_at := 20 }).keys ∧
      withDriver (putJob samplePg sampleDb 20 admin1 "1" { status := .str "in_progress" }).db
          { sampleJob with status := some "in_progress", updated_at := 20 }
        = [{ job := { sampleJob with status := some "in_progress", updated_at := 20 },
             driver_name := some "Mike Driver", driver_username := some "driver1" }] := by
  decide

/-- C13. A location report whose latitude or longitude is missing (the key is absent or
null) is answered 400 `Latitude and longitude required`; the store, and so the
`driver_locations` table, is unchanged and nothing is emitted. -/
theorem C13_location_missing_coordinate_rejected (pg : Pg) (db : Db) (now : Nat)
    (user : TokenUser) (body : LocationBody)
    (h : (body.latitude = .undefined ∨ body.latitude = .null) ∨
      (body.longitude = .undefined ∨ body.longitude = .null)) :
    postLocation pg db now user body =
      { db := db, res := ⟨400, .error "Latitude and longitude required"⟩, emitted := [] } := by
  unfold postLocation
  rcases h with (h | h) | (h | h) <;> simp [h, JVal.truthy]

/-- Witness of C13: driver 3 reports a latitude and no longitude. -/
theorem C13_location_missing_coordinate_rejected_witness :
    postLocation samplePg sampleDb 30 driver3 { latitude := .int 40 } =
      { db := sampleDb, res := ⟨400, .error "Latitude and longitude required"⟩, emitted := [] } :=
  C13_location_missing_coordinate_rejected samplePg sampleDb 30 driver3 { latitude := .int 40 }
    (Or.inr (Or.inl rfl))

/-- C14, counterexample to the claim as stated. A report whose latitude is the
non-numeric string `north` passes the validation of the route and reaches the store,
whose numeric column rejects it: the reply is 500 `Server error`, not the validation
error 400. -/
theorem C14_non_numeric_coordinate_gets_server_error :
    postLocation samplePg sampleDb 30 driver3 { latitude := .str "north", longitude := .int (-74) }
        = { db := sampleDb, res := ⟨500, .error "Server error"⟩, emitted := [] } ∧
      (JVal.str "north").truthy = true ∧
      upsertLocation samplePg sampleDb 30 driver3.id (.str "north") (.int (-74))
        = .error .invalidText := by
  refine ⟨by decide, by decide, rfl⟩

/-- C14, amended. The validation of the location route tests presence by truthiness:
a non-zero number and a non-empty string are truthy, and a report with two truthy
coordinates passes validation, so that its outcome is that of the upsert: 200 with the
new store and one `location_update` when the upsert succeeds, 500 with the store
unchanged and no event when it raises, which it does when the engine does not read a
coordinate as a numeric value. -/
theorem C14_location_validation_by_presence (pg : Pg) (db : Db) (now : Nat) (user : TokenUser)
    (body : LocationBody) (hlat : body.latitude.truthy = true)
    (hlng : body.longitude.truthy = true) :
    ((∀ n : Int, n ≠ 0 → (JVal.int n).truthy = true) ∧ (∀ t : String, (JVal.frac t).truthy = true) ∧
      (∀ t : String, t ≠ "" → (JVal.str t).truthy = true)) ∧
    (∀ db1, upsertLocation pg db now user.id body.latitude body.longitude = .ok db1 →
      postLocation pg db now user body =
        { db := db1, res := ⟨200, .message "Location updated"⟩,
          emitted := [⟨"location_update",
            .location { driver_id := user.id, latitude := body.latitude,
                        longitude := body.longitude, timestamp := now }⟩] }) ∧
    (∀ e, upsertLocation pg db now user.id body.latitude body.longitude = .error e →
      postLocation pg db now user body = { db := db, res := serverError, emitted := [] }) ∧
    (((∃ t, pgParam body.latitude = some t ∧ pg.numericIn 10 8 t = none) ∨
        (∃ t, pgParam body.longitude = some t ∧ pg.numericIn 11 8 t = none)) →
      postLocation pg db now user body = { db := db, res := serverError, emitted := [] }) := by
  have hpost : ∀ e, upsertLocation pg db now user.id body.latitude body.longitude = .error e →
      postLocation pg db now user body = { db := db, res := serverError, emitted := [] } := by
    intro e he
    simp [postLocation, hlat, hlng, he]
  refine ⟨⟨?_, ?_, ?_⟩, ?_, hpost, ?_⟩
  · intro n hn; simp [JVal.truthy, hn]
  · intro t; rfl
  · intro t ht; simp [JVal.truthy, ht]
  · intro db1 h
    simp [postLocation, hlat, hlng, h]
  · intro h
    have : ∃ e, upsertLocation pg db now user.id body.latitude body.longitude = .error e := by
      unfold upsertLocation
      rcases h with ⟨t, ht, hn⟩ | ⟨t, ht, hn⟩
      · refine ⟨.invalidText, ?_⟩
        simp [ht, bindWith, hn]
      · cases h1 : bindWith (pg.numericIn 10 8) (pgParam body.latitude) with
        | error e => exact ⟨e, by simp [ht, bindWith, hn]⟩
        | ok v => exact ⟨.invalidText, by simp [ht, bindWith, hn]⟩
    obtain ⟨e, he⟩ := this
    exact hpost e he

/-- Witness of C14: driver 3 reports the string `north` as latitude. -/
theorem C14_location_validation_by_presence_witness :
    postLocation samplePg sampleDb 30 driver3 { latitude := .str "north", longitude := .int (-74) }
      = { db := sampleDb, res := serverError, emitted := [] } :=
  (C14_location_validation_by_presence samplePg sampleDb 30 driver3
    { latitude := .str "north", longitude := .int (-74) } (by decide) (by decide)).2.2.2
    (Or.inl ⟨"north", rfl, rfl⟩)

/-! ### The location table -/

/-- What an accepted location report stores: the row of `storedRow`, written over the
rows of the reporting driver when there is one, appended otherwise. -/
theorem postLocation_ok {pg : Pg} {db : Db} {r : Report}
    (h : (postLocation pg db r.now r.user r.body).res.status = 200) :
    ∃ row, storedRow pg r = some row ∧ row.driver_id = r.user.id ∧
      (postLocation pg db r.now r.user r.body).db.locations =
        if db.locations.any (fun l => l.driver_id == r.user.id) then
          db.locations.map (fun l => if l.driver_id == r.user.id then row else l)
        else db.locations ++ [row] := by
  unfold postLocation at h ⊢
  split at h
  · simp at h
  · rename_i hv
    simp only [hv]
    cases hx : upsertLocation pg db r.now r.user.id r.body.latitude r.body.longitude with
    | error e => simp [hx, serverError] at h
    | ok db1 =>
      simp only [Bool.false_eq_true, if_false]
      have hv2 : r.body.latitude.truthy = true ∧ r.body.longitude.truthy = true := by
        simpa using hv
      obtain ⟨a, ha⟩ := pgParam_of_truthy hv2.1
      obtain ⟨b, hb⟩ := pgParam_of_truthy hv2.2
      unfold upsertLocation at hx
      unfold storedRow
      cases hla : pg.numericIn 10 8 a with
      | none => simp [ha, hb, bindWith, hla] at hx
      | some lat =>
        cases hlb : pg.numericIn 11 8 b with
        | none => simp [ha, hb, bindWith, hla, hlb] at hx
        | some lng =>
          simp only [ha, hb, bindWith, hla, hlb] at hx
          refine ⟨⟨r.user.id, lat, lng, r.now⟩, by simp [ha, hb, hla, hlb], rfl, ?_⟩
          split at hx
          · rename_i hany
            simp only [Except.ok.injEq] at hx
            subst hx
            simp [hany]
          · rename_i hany
            split at hx
            · simp only [Except.ok.injEq] at hx
              subst hx
              simp [hany]
            · simp at hx

/-- Overwriting the rows of one driver with a row of that driver keeps the driver ids. -/
theorem overwrite_ids {row : DriverLocation} {d : Int} (hrow : row.driver_id = d)
    (l : List DriverLocation) :
    (l.map (fun x => if x.driver_id == d then row else x)).map (fun x => x.driver_id)
      = l.map (fun x => x.driver_id) := by
  induction l with
  | nil => rfl
  | cons x xs ih =>
    simp only [List.map_cons, ih]
    by_cases hxd : x.driver_id = d
    · simp [hxd, hrow]
    · simp [hxd]

/-- Overwriting the rows of one driver leaves the rows of every other driver. -/
theorem overwrite_other {row : DriverLocation} {d d2 : Int} (hrow : row.driver_id = d)
    (hd2 : d2 ≠ d) (l : List DriverLocation) :
    (l.map (fun x => if x.driver_id == d then row else x)).filter (fun x => x.driver_id == d2)
      = l.filter (fun x => x.driver_id == d2) := by
  induction l with
  | nil => rfl
  | cons x xs ih =>
    have h2 : ¬ d = d2 := fun h => hd2 h.symm
    simp only [List.map_cons, List.filter_cons, ih]
    by_cases hxd : x.driver_id = d
    · simp [hxd, hrow, h2]
    · simp [hxd]

/-- Overwriting the rows of a driver that has none yields no row of that driver. -/
theorem overwrite_absent {row : DriverLocation} {d : Int}
    (l : List DriverLocation) (h : ∀ x ∈ l, x.driver_id ≠ d) :
    (l.map (fun x => if x.driver_id == d then row else x)).filter (fun x => x.driver_id == d)
      = [] := by
  induction l with
  | nil => rfl
  | cons x xs ih =>
    have hx : x.driver_id ≠ d := h x (List.mem_cons_self _ _)
    simp only [List.map_cons, List.filter_cons, ih (fun y hy => h y (List.mem_cons_of_mem _ hy))]
    simp [hx]

/-- Overwriting the rows of a driver in a table with unique driver ids leaves exactly
the new row for that driver. -/
theorem overwrite_present {row : DriverLocation} {d : Int} (hrow : row.driver_id = d)
    (l : List DriverLocation) (hnd : (l.map (fun x => x.driver_id)).Nodup)
    (h : ∃ x ∈ l, x.driver_id = d) :
    (l.map (fun x => if x.driver_id == d then row else x)).filter (fun x => x.driver_id == d)
      = [row] := by
  induction l with
  | nil => obtain ⟨x, hx, _⟩ := h; simp at hx
  | cons x xs ih =>
    simp only [List.map_cons, List.nodup_cons] at hnd
    obtain ⟨hx, hxs⟩ := hnd
    simp only [List.map_cons, List.filter_cons]
    by_cases hxd : x.driver_id = d
    · have habs : ∀ y ∈ xs, y.driver_id ≠ d := by
        intro y hy hyd
        apply hx
        rw [hxd, ← hyd]
        exact List.mem_map_of_mem _ hy
      rw [overwrite_absent xs habs]
      simp [hxd, hrow]
    · have h' : ∃ y ∈ xs, y.driver_id = d := by
        obtain ⟨y, hy, hyd⟩ := h
        rcases List.mem_cons.1 hy with rfl | hy
        · exact absurd hyd hxd
        · exact ⟨y, hy, hyd⟩
      rw [ih hxs h']
      simp [hxd]

/-- One accepted report on a table with unique driver ids: the ids stay unique, the
rows of the reporting driver are the one stored row, rows of other drivers stay. -/
theorem postLocation_step {pg : Pg} {db : Db} {r : Report}
    (hpk : (db.locations.map (fun x => x.driver_id)).Nodup)
    (h : (postLocation pg db r.now r.user r.body).res.status = 200) :
    ((postLocation pg db r.now r.user r.body).db.locations.map (fun x => x.driver_id)).Nodup ∧
      (∃ row, storedRow pg r = some row ∧
        (postLocation pg db r.now r.user r.body).db.locations.filter
          (fun x => x.driver_id == r.user.id) = [row]) ∧
      ∀ d2, d2 ≠ r.user.id →
        (postLocation pg db r.now r.user r.body).db.locations.filter (fun x => x.driver_id == d2)
          = db.locations.filter (fun x => x.driver_id == d2) := by
  obtain ⟨row, hrow, hid, hloc⟩ := postLocation_ok h
  rw [hloc]
  by_cases hany : db.locations.any (fun l => l.driver_id == r.user.id) = true
  · simp only [hany, if_true]
    have hex : ∃ x ∈ db.locations, x.driver_id = r.user.id := by
      obtain ⟨x, hx, hxd⟩ := List.any_eq_true.1 hany
      exact ⟨x, hx, by simpa using hxd⟩
    refine ⟨by rw [overwrite_ids hid]; exact hpk, ⟨row, hrow, overwrite_present hid _ hpk hex⟩, ?_⟩
    intro d2 hd2
    exact overwrite_other hid hd2 _
  · have hnone : db.locations.any (fun l => l.driver_id == r.user.id) = false := by
      simpa using hany
    have hnot : ∀ x ∈ db.locations, ¬ x.driver_id = r.user.id := by
      intro x hx hxd
      have : db.locations.any (fun l => l.driver_id == r.user.id) = true :=
        List.any_eq_true.2 ⟨x, hx, by simpa using hxd⟩
      rw [hnone] at this
      exact absurd this (by decide)
    simp only [hnone, Bool.false_eq_true, if_false]
    refine ⟨?_, ⟨row, hrow, ?_⟩, ?_⟩
    · rw [List.map_append, List.nodup_append]
      refine ⟨hpk, by simp, ?_⟩
      intro a ha hb
      simp only [List.map_cons, List.map_nil, List.mem_singleton] at hb
      obtain ⟨x, hx, hxa⟩ := List.mem_map.1 ha
      exact hnot x hx (by rw [hxa, hb, hid])
    · rw [List.filter_append]
      have : db.locations.filter (fun x => x.driver_id == r.user.id) = [] := by
        rw [List.filter_eq_nil_iff]
        intro x hx
        simpa using hnot x hx
      simp [this, hid]
    · intro d2 hd2
      rw [List.filter_append]
      have h2 : ¬ r.user.id = d2 := fun h => hd2 h.symm
      simp [hid, h2]

/-- After a sequence of accepted reports on a table with unique driver ids: the ids are
unique, the rows of a driver that reported are the one row stored by its most recent
report, and the rows of a driver that did not report are as before. -/
theorem reportAll_rows {pg : Pg} :
    ∀ (rs : List Report) (db : Db), (db.locations.map (fun x => x.driver_id)).Nodup →
      allAccepted pg db rs = true →
      ((reportAll pg db rs).locations.map (fun x => x.driver_id)).Nodup ∧
      ∀ d : Int,
        (∀ last, lastReport d rs = some last →
          ∃ row, storedRow pg last = some row ∧
            (reportAll pg db rs).locations.filter (fun x => x.driver_id == d) = [row]) ∧
        (lastReport d rs = none →
          (reportAll pg db rs).locations.filter (fun x => x.driver_id == d)
            = db.locations.filter (fun x => x.driver_id == d)) := by
  intro rs
  induction rs with
  | nil =>
    intro db hpk _
    refine ⟨hpk, fun d => ⟨?_, fun _ => rfl⟩⟩
    intro last h
    simp [lastReport] at h
  | cons r rest ih =>
    intro db hpk hacc
    simp only [allAccepted, Bool.and_eq_true, decide_eq_true_eq] at hacc
    obtain ⟨h200, hrest⟩ := hacc
    obtain ⟨nd1, ⟨row, hrow, hf⟩, hother⟩ := postLocation_step hpk h200
    obtain ⟨nd, hd⟩ := ih _ nd1 hrest
    refine ⟨nd, fun d => ⟨?_, ?_⟩⟩
    · intro last hlast
      simp only [lastReport] at hlast
      cases hl : lastReport d rest with
      | some x =>
        simp only [hl, Option.some.injEq] at hlast
        subst hlast
        exact (hd d).1 x hl
      | none =>
        simp only [hl] at hlast
        split at hlast
        · rename_i hrd
          simp only [Option.some.injEq] at hlast
          subst hlast
          subst hrd
          refine ⟨row, hrow, ?_⟩
          show (reportAll pg (postLocation pg db r.now r.user r.body).db rest).locations.filter _ = _
          rw [(hd r.user.id).2 hl, hf]
        · simp at hlast
    · intro hnone
      simp only [lastReport] at hnone
      cases hl : lastReport d rest with
      | some x => simp [hl] at hnone
      | none =>
        simp only [hl] at hnone
        have hne : d ≠ r.user.id := by
          intro h
          simp [h] at hnone
        show (reportAll pg (postLocation pg db r.now r.user r.body).db rest).locations.filter _ = _
        rw [(hd d).2 hl, hother d hne]

/-- A driver with a report in the sequence has a most recent report, made by that
driver. -/
theorem lastReport_of_mem :
    ∀ (rs : List Report) (r : Report), r ∈ rs →
      ∃ last, lastReport r.user.id rs = some last ∧ last.user.id = r.user.id := by
  intro rs
  induction rs with
  | nil => intro r h; simp at h
  | cons x rest ih =>
    intro r hr
    simp only [lastReport]
    cases hl : lastReport r.user.id rest with
    | some y =>
      rcases List.mem_cons.1 hr with rfl | hr
      · have hy : ∀ (l : List Report) (d : Int) (z : Report), lastReport d l = some z →
            z.user.id = d := by
          intro l
          induction l with
          | nil => intro d z h; simp [lastReport] at h
          | cons w ws ihw =>
            intro d z h
            simp only [lastReport] at h
            cases hw : lastReport d ws with
            | some v =>
              simp only [hw, Option.some.injEq] at h
              subst h
              exact ihw d v hw
            | none =>
              simp only [hw] at h
              split at h
              · simp only [Option.some.injEq] at h
                subst h
                assumption
              · simp at h
        exact ⟨y, rfl, hy rest _ y hl⟩
      · obtain ⟨last, h1, h2⟩ := ih r hr
        rw [hl] at h1
        simp only [Option.some.injEq] at h1
        subst h1
        exact ⟨y, rfl, h2⟩
    | none =>
      rcases List.mem_cons.1 hr with rfl | hr
      · exact ⟨r, by simp, rfl⟩
      · obtain ⟨last, h1, _⟩ := ih r hr
        rw [hl] at h1
        simp at h1

/-- C15. On a `driver_locations` table with unique driver ids (its primary key), after
every sequence of accepted location reports the driver ids are still unique and, for
each driver with a report in the sequence, the table holds exactly one row of that
driver, which is the row stored by the driver's most recent report (its coordinates as
the numeric columns read them, its time). In particular after two accepted reports of
one driver the single row of that driver holds the second report. -/
theorem C15_one_row_per_reporting_driver (pg : Pg) (db : Db) (rs : List Report)
    (hpk : (db.locations.map (fun x => x.driver_id)).Nodup)
    (hacc : allAccepted pg db rs = true) :
    ((reportAll pg db rs).locations.map (fun x => x.driver_id)).Nodup ∧
    (∀ r ∈ rs, ∃ last row, lastReport r.user.id rs = some last ∧ last.user.id = r.user.id ∧
      storedRow pg last = some row ∧
      (reportAll pg db rs).locations.filter (fun x => x.driver_id == r.user.id) = [row]) ∧
    (∀ r1 r2 : Report, r1.user.id = r2.user.id → allAccepted pg db [r1, r2] = true →
      ∃ row, storedRow pg r2 = some row ∧
        (reportAll pg db [r1, r2]).locations.filter (fun x => x.driver_id == r2.user.id)
          = [row]) := by
  obtain ⟨nd, hd⟩ := reportAll_rows rs db hpk hacc
  refine ⟨nd, ?_, ?_⟩
  · intro r hr
    obtain ⟨last, hl, hid⟩ := lastReport_of_mem rs r hr
    obtain ⟨row, hrow, hf⟩ := (hd r.user.id).1 last hl
    exact ⟨last, row, hl, hid, hrow, hf⟩
  · intro r1 r2 hsame h2
    obtain ⟨_, hd2⟩ := reportAll_rows [r1, r2] db hpk h2
    exact (hd2 r2.user.id).1 r2 (by simp [lastReport])

/-- Witness of C15: driver 3 reports (40, -74) and then (41, -73) on the sample store;
the rows of driver 3 are the single row of the second report. -/
theorem C15_one_row_per_reporting_driver_witness :
    ∃ row, storedRow samplePg sampleReport2 = some row ∧
      (reportAll samplePg sampleDb [sampleReport1, sampleReport2]).locations.filter
        (fun x => x.driver_id == sampleReport2.user.id) = [row] :=
  (C15_one_row_per_reporting_driver samplePg sampleDb [sampleReport1, sampleReport2]
    (by decide) (by decide)).2.2 sampleReport1 sampleReport2 rfl (by decide)

/-! ### Reading locations and notes -/

/-- When every row of a list matches exactly one user, the join returns the rows of the
list, in order, each once. -/
theorem join_users_rows (users : List UserRow) :
    ∀ (l : List DriverLocation),
      (∀ x ∈ l, ∃ u, users.filter (fun u => u.id == x.driver_id) = [u]) →
      (l.flatMap (fun x => (users.filter (fun u => u.id == x.driver_id)).map
        (fun u => ({ loc := x, driver_name := u.name } : LocationRow)))).map (fun r => r.loc) = l := by
  intro l
  induction l with
  | nil => intro _; rfl
  | cons x xs ih =>
    intro h
    obtain ⟨u, hu⟩ := h x (List.mem_cons_self _ _)
    have := ih (fun y hy => h y (List.mem_cons_of_mem _ hy))
    simp only [List.flatMap_cons, List.map_append, hu, List.map_cons, List.map_nil, this]
    rfl

/-- The test of the locations query, in minutes: the row was updated less than sixty
minutes before `now`. -/
theorem updatedWithinHour_iff (now : Nat) (l : DriverLocation) :
    updatedWithinHour now l = true ↔ now < l.updated_at + 60 * oneMinute := by
  unfold updatedWithinHour oneHour oneMinute
  rw [decide_eq_true_eq]
  omega

/-- C16. For a caller that is not a driver, on a store in which every location row
belongs to exactly one user (primary and foreign key), the locations route returns, for
every table state and current time, exactly the location rows updated less than sixty
minutes before the current time, in table order: a row updated 59 minutes ago is
returned, a row updated more than 60 minutes ago is not; the store is unchanged and
nothing is emitted. -/
theorem C16_locations_within_last_hour (db : Db) (now : Nat) (user : TokenUser)
    (hrole : user.role ≠ "driver")
    (hfk : ∀ l ∈ db.locations, ∃ u, db.users.filter (fun u => u.id == l.driver_id) = [u]) :
    ∃ rows, getLocations db now user = { db := db, res := ⟨200, .locations rows⟩, emitted := [] } ∧
      rows.map (fun r => r.loc) =
        db.locations.filter (fun l => decide (now < l.updated_at + 60 * oneMinute)) ∧
      (∀ l ∈ db.locations, l.updated_at + 59 * oneMinute = now → l ∈ rows.map (fun r => r.loc)) ∧
      (∀ l ∈ db.locations, l.updated_at + 60 * oneMinute < now → l ∉ rows.map (fun r => r.loc)) := by
  have hrows : (selectActiveLocations db now).map (fun r => r.loc) =
      db.locations.filter (fun l => decide (now < l.updated_at + 60 * oneMinute)) := by
    unfold selectActiveLocations
    rw [join_users_rows db.users _ (fun x hx => hfk x (List.mem_filter.1 hx).1)]
    apply List.filter_congr
    intro x _
    rw [Bool.eq_iff_iff, updatedWithinHour_iff, decide_eq_true_eq]
  refine ⟨selectActiveLocations db now, by simp [getLocations, hrole], hrows, ?_, ?_⟩
  · intro l hl h59
    rw [hrows, List.mem_filter, decide_eq_true_eq]
    refine ⟨hl, ?_⟩
    unfold oneMinute at h59 ⊢
    omega
  · intro l _ h60
    rw [hrows, List.mem_filter, decide_eq_true_eq]
    rintro ⟨_, h⟩
    omega

/-- Witness of C16: at a time just over two hours in, the location of driver 2 is 61
minutes old and that of driver 3 is 59 minutes old; the admin gets the row of driver 3
only. -/
theorem C16_locations_within_last_hour_witness :
    ∃ rows, getLocations (sampleDbLocations (60 * oneMinute) (62 * oneMinute)) (121 * oneMinute)
          admin1 =
        { db := sampleDbLocations (60 * oneMinute) (62 * oneMinute),
          res := ⟨200, .locations rows⟩, emitted := [] } ∧
      rows.map (fun r => r.loc) =
        (sampleDbLocations (60 * oneMinute) (62 * oneMinute)).locations.filter
          (fun l => decide (121 * oneMinute < l.updated_at + 60 * oneMinute)) ∧
      (∀ l ∈ (sampleDbLocations (60 * oneMinute) (62 * oneMinute)).locations,
        l.updated_at + 59 * oneMinute = 121 * oneMinute → l ∈ rows.map (fun r => r.loc)) ∧
      (∀ l ∈ (sampleDbLocations (60 * oneMinute) (62 * oneMinute)).locations,
        l.updated_at + 60 * oneMinute < 121 * oneMinute → l ∉ rows.map (fun r => r.loc)) :=
  C16_locations_within_last_hour (sampleDbLocations (60 * oneMinute) (62 * oneMinute))
    (121 * oneMinute) admin1 (by decide) (by
      intro l hl
      simp only [sampleDbLocations, List.mem_cons, List.mem_singleton, List.not_mem_nil,
        or_false] at hl
      rcases hl with rfl | rfl
      · exact ⟨_, rfl⟩
      · exact ⟨_, rfl⟩)

/-- What a successful delete leaves: the id is bound to a number `n`, the jobs and the
notes of job `n` are gone, the rest of the store is as before. -/
theorem deleteJob_ok {pg : Pg} {db : Db} {user : TokenUser} {id : String}
    (hok : (deleteJob pg db user id).res.status = 200) :
    ∃ n, pg.int4In id = some n ∧
      (deleteJob pg db user id).db =
        { db with jobs := db.jobs.filter (fun j => j.id != n),
                  notes := db.notes.filter (fun m => m.job_id != some n) } := by
  unfold deleteJob at hok ⊢
  split at hok
  · simp [accessDenied] at hok
  · rename_i hr
    simp only [hr, if_false]
    unfold deleteJobRows at hok ⊢
    simp only [bindId] at hok ⊢
    cases hn : pg.int4In id with
    | none => simp [hn, serverError] at hok
    | some n =>
      simp only [hn] at hok ⊢
      refine ⟨n, rfl, ?_⟩
      cases hg : db.jobs.filter (fun j => j.id == n) with
      | nil => simp [hg, jobNotFound] at hok
      | cons j js => simp [hg]

/-- C17. After a successful delete of a job (reply 200), the notes route for that job id
returns the empty list, the notes route for every id bound to another number replies
as it did before the delete, and the notes table is the former table without the notes
of the deleted job. -/
theorem C17_delete_job_removes_its_notes (pg : Pg) (db : Db) (user : TokenUser) (id : String)
    (hok : (deleteJob pg db user id).res.status = 200) :
    (getNotes pg (deleteJob pg db user id).db id).res = ⟨200, .notes []⟩ ∧
    (∀ id2 : String, pg.int4In id2 ≠ pg.int4In id →
      (getNotes pg (deleteJob pg db user id).db id2).res = (getNotes pg db id2).res) ∧
    (∃ n, pg.int4In id = some n ∧
      (deleteJob pg db user id).db.notes = db.notes.filter (fun m => m.job_id != some n)) := by
  obtain ⟨n, hn, hdb⟩ := deleteJob_ok hok
  rw [hdb]
  refine ⟨?_, ?_, ⟨n, hn, rfl⟩⟩
  · have hnil : (db.notes.filter (fun m => m.job_id != some n)).filter
        (fun m => m.job_id == some n) = [] := by
      rw [List.filter_eq_nil_iff]
      intro m hm
      have := (List.mem_filter.1 hm).2
      simpa using this
    simp [getNotes, selectNotes, bindId, hn, hnil, sortByCreated]
  · intro id2 hne
    cases hm : pg.int4In id2 with
    | none => simp [getNotes, selectNotes, bindId, hm]
    | some m =>
      have hmn : m ≠ n := by
        intro h
        apply hne
        rw [hm, hn, h]
      have hkeep : (db.notes.filter (fun x => x.job_id != some n)).filter
          (fun x => x.job_id == some m) = db.notes.filter (fun x => x.job_id == some m) := by
        rw [List.filter_filter]
        apply List.filter_congr
        intro x _
        by_cases hx : x.job_id = some m
        · simp [hx, hmn]
        · simp [hx]
      have hwa : withAuthor
          { db with jobs := db.jobs.filter (fun j => j.id != n),
                    notes := db.notes.filter (fun m => m.job_id != some n) } = withAuthor db := rfl
      simp only [getNotes, selectNotes, bindId, hm, hkeep, hwa]

/-- Witness of C17: the admin deletes job 1 of the sample store with notes; the notes
of job 1 are gone and the note of job 2 is still returned. -/
theorem C17_delete_job_removes_its_notes_witness :
    (getNotes samplePg (deleteJob samplePg sampleDbNotes admin1 "1").db "1").res
        = ⟨200, .notes []⟩ ∧
      (getNotes samplePg (deleteJob samplePg sampleDbNotes admin1 "1").db "2").res
        = (getNotes samplePg sampleDbNotes "2").res :=
  ⟨(C17_delete_job_removes_its_notes samplePg sampleDbNotes admin1 "1" (by decide)).1,
   (C17_delete_job_removes_its_notes samplePg sampleDbNotes admin1 "1" (by decide)).2.1 "2"
      (by decide)⟩

/-! ### The offline queue -/

/-- C18. For a pending list that ends with a sample `latest`, `processPendingUpdates`
makes exactly one `updateLocation` call, with the latitude and longitude of `latest`;
when that send succeeds the pending list becomes empty; the effect run when the client
is back online is this function. For an empty pending list nothing is sent and the
state is unchanged. -/
theorem C18_pending_replay_sends_latest (background : Bool) (now : Nat) (sendOk : Bool)
    (st : Tracker) :
    (∀ (older : List Sample) (latest : Sample), st.pendingUpdates = older ++ [latest] →
      (processPendingUpdates background now sendOk st).requests
        = [{ latitude := latest.latitude, longitude := latest.longitude }] ∧
      (sendOk = true →
        (processPendingUpdates background now sendOk st).state.pendingUpdates = []) ∧
      (st.isOnline = true →
        onlineEffect background now sendOk st = processPendingUpdates background now sendOk st)) ∧
    (st.pendingUpdates = [] →
      (processPendingUpdates background now sendOk st).requests = [] ∧
      (processPendingUpdates background now sendOk st).state = st ∧
      (onlineEffect background now sendOk st).requests = []) := by
  constructor
  · intro older latest h
    have hlast : st.pendingUpdates.getLast? = some latest := by
      rw [h]; simp
    refine ⟨?_, ?_, ?_⟩
    · unfold processPendingUpdates
      simp only [hlast]
      cases sendOk <;> simp
    · intro hs
      unfold processPendingUpdates
      simp [hlast, hs]
    · intro ho
      unfold onlineEffect
      simp [ho, h]
  · intro h
    have hlast : st.pendingUpdates.getLast? = none := by
      rw [h]; rfl
    refine ⟨?_, ?_, ?_⟩
    · unfold processPendingUpdates
      simp [hlast]
    · unfold processPendingUpdates
      simp [hlast]
    · unfold onlineEffect
      simp [h]

/-- Witness of C18: three queued samples, the send succeeds; one request with the
coordinates of the third sample, and the list is emptied. -/
theorem C18_pending_replay_sends_latest_witness :
    (processPendingUpdates true 50 true sampleTracker).requests
        = [{ latitude := .int 42, longitude := .int (-72) }] ∧
      (processPendingUpdates true 50 true sampleTracker).state.pendingUpdates = [] ∧
      onlineEffect true 50 true sampleTracker = processPendingUpdates true 50 true sampleTracker :=
  have h := (C18_pending_replay_sends_latest true 50 true sampleTracker).1
    [ { latitude := .int 40, longitude := .int (-74), timestamp := 10 },
      { latitude := .int 41, longitude := .int (-73), timestamp := 20 } ]
    { latitude := .int 42, longitude := .int (-72), timestamp := 30 } rfl
  ⟨h.1, h.2.1 rfl, h.2.2 rfl⟩

/-- C19. When the client is online and the send of a sample fails,
`handleLocationSuccess` has made the one request and leaves the pending list equal to
the list before followed by the sample; and when the replay send of
`processPendingUpdates` fails, the state, and so the pending list, is exactly as it
was. -/
theorem C19_failed_send_keeps_sample (background : Bool) (now : Nat) (position : Position)
    (st : Tracker) :
    (st.isOnline = true →
      (handleLocationSuccess background now false position st).requests
        = [{ latitude := position.latitude, longitude := position.longitude }] ∧
      (handleLocationSuccess background now false position st).state.pendingUpdates
        = st.pendingUpdates ++
            [{ latitude := position.latitude, longitude := position.longitude,
               timestamp := now }]) ∧
    (processPendingUpdates background now false st).state = st := by
  constructor
  · intro ho
    unfold handleLocationSuccess
    simp [ho]
  · unfold processPendingUpdates
    cases st.pendingUpdates.getLast? <;> simp

/-- Witness of C19: the online sample tracker fails to send a new position. -/
theorem C19_failed_send_keeps_sample_witness :
    (handleLocationSuccess true 50 false samplePosition sampleTracker).requests
        = [{ latitude := samplePosition.latitude, longitude := samplePosition.longitude }] ∧
      (handleLocationSuccess true 50 false samplePosition sampleTracker).state.pendingUpdates
        = sampleTracker.pendingUpdates ++
            [{ latitude := samplePosition.latitude, longitude := samplePosition.longitude,
               timestamp := 50 }] :=
  (C19_failed_send_keeps_sample true 50 samplePosition sampleTracker).1 rfl

/-! ### The listener map -/

/-- The list under an event after `on`: the callback is appended to the list of its
event, the lists of other events are untouched. -/
theorem Listeners.get_on (ls : Listeners) (event : String) (cb : Callback) (e : String) :
    ((SocketService.on ls event cb).get e).getD [] =
      if e = event then (ls.get e).getD [] ++ [cb] else (ls.get e).getD [] := by
  unfold SocketService.on
  cases hg : ls.get event with
  | none =>
    simp only
    induction ls with
    | nil =>
      by_cases he : event = e
      · simp [Listeners.get, he]
      · have he2 : ¬ e = event := fun h => he h.symm
        simp [Listeners.get, he, he2]
    | cons p rest ih =>
      obtain ⟨k, cbs⟩ := p
      simp only [Listeners.get] at hg
      split at hg
      · simp at hg
      · rename_i hk
        simp only [List.cons_append, Listeners.get]
        by_cases hke : k = e
        · have he2 : ¬ e = event := fun h => hk (hke.trans h)
          simp [hke, he2]
        · simp only [hke, if_false]
          exact ih hg
  | some old =>
    simp only
    induction ls with
    | nil => simp [Listeners.get] at hg
    | cons p rest ih =>
      obtain ⟨k, cbs⟩ := p
      simp only [Listeners.get] at hg
      simp only [Listeners.pushAt]
      split at hg
      · rename_i hk
        simp only [hk, if_true, Listeners.get]
        by_cases he : event = e
        · simp [he]
        · have he2 : ¬ e = event := fun h => he h.symm
          simp [he, he2]
      · rename_i hk
        simp only [hk, if_false, Listeners.get]
        by_cases hke : k = e
        · have he2 : ¬ e = event := fun h => hk (hke.trans h)
          simp [hke, he2]
        · simp only [hke, if_false]
          exact ih hg

/-- The list under an event after a sequence of registrations: the former list
followed by the callbacks registered under that event, in order. -/
theorem registerAll_get (event : String) :
    ∀ (regs : List (String × Callback)) (ls : Listeners),
      ((registerAll ls regs).get event).getD [] =
        (ls.get event).getD [] ++ (regs.filter (fun r => r.1 == event)).map (fun r => r.2) := by
  intro regs
  induction regs with
  | nil => intro ls; simp [registerAll]
  | cons r rest ih =>
    intro ls
    obtain ⟨e, cb⟩ := r
    simp only [registerAll]
    rw [ih, Listeners.get_on]
    by_cases he : e = event
    · simp [he]
    · have he2 : ¬ event = e := fun h => he h.symm
      simp [he, he2]

/-- The calls made by the loop of `emit`: every callback of the list, once, in order,
with the data, whether or not it throws. -/
theorem calls_callAll (data : Payload) :
    ∀ cbs : List Callback, calls (callAll data cbs) = cbs.map (fun c => (c.id, data)) := by
  intro cbs
  induction cbs with
  | nil => rfl
  | cons c cs ih =>
    simp only [callAll]
    split <;> simp [calls, ih]

/-- C20. After any sequence of `on(event, callback)` registrations on a fresh
service, `emit(event, data)` calls exactly the callbacks registered under that event,
once per registration and in registration order, each with `data`; registrations
under other events cause no call. -/
theorem C20_emit_calls_registered_in_order (regs : List (String × Callback)) (event : String)
    (data : Payload) :
    calls (SocketService.emit (registerAll [] regs) event data) =
      (regs.filter (fun r => r.1 == event)).map (fun r => (r.2.id, data)) := by
  have hemit : ∀ ls : Listeners,
      SocketService.emit ls event data = callAll data ((ls.get event).getD []) := by
    intro ls
    unfold SocketService.emit
    cases ls.get event <;> simp [callAll]
  rw [hemit, calls_callAll, registerAll_get]
  simp [Listeners.get]

/-! ### The listener map: `off` and throwing callbacks -/

/-- Removing a callback that is not in the list leaves the list. -/
theorem spliceFirst_of_absent (callback : Callback) :
    ∀ cbs : List Callback, (∀ c ∈ cbs, c.id ≠ callback.id) → spliceFirst callback cbs = cbs := by
  intro cbs
  induction cbs with
  | nil => intro _; rfl
  | cons c cs ih =>
    intro h
    have hc : c.id ≠ callback.id := h c (List.mem_cons_self _ _)
    simp only [spliceFirst, hc, if_false]
    rw [ih (fun x hx => h x (List.mem_cons_of_mem _ hx))]

/-- C21. When the callback is not in the list stored under the event, which includes
the case of an event with no list at all, `off(event, callback)` returns the listener
map it was given: every event keeps the same callbacks in the same order. -/
theorem C21_off_unregistered_is_noop (ls : Listeners) (event : String) (callback : Callback)
    (h : ∀ cbs, ls.get event = some cbs → ∀ c ∈ cbs, c.id ≠ callback.id) :
    SocketService.off ls event callback = ls := by
  induction ls with
  | nil => rfl
  | cons p rest ih =>
    obtain ⟨e, cbs⟩ := p
    simp only [SocketService.off]
    by_cases he : e = event
    · have hcbs : ∀ c ∈ cbs, c.id ≠ callback.id := h cbs (by simp [Listeners.get, he])
      simp only [he, if_true]
      rw [spliceFirst_of_absent callback cbs hcbs]
    · simp only [he, if_false]
      rw [ih (fun l hl => h l (by simpa [Listeners.get, he] using hl))]

/-- Witness of C21: on the mounted listeners, removing the location callback from
`job_created`, and removing a callback from an event that has no list. -/
theorem C21_off_unregistered_is_noop_witness :
    SocketService.off mountedListeners "job_created" cbLocationUpdate = mountedListeners ∧
      SocketService.off mountedListeners "note_added" cbJobUpdate = mountedListeners :=
  ⟨C21_off_unregistered_is_noop mountedListeners "job_created" cbLocationUpdate (by decide),
   C21_off_unregistered_is_noop mountedListeners "note_added" cbJobUpdate (by decide)⟩

/-- C29. For the list of callbacks stored under an event, whichever of them raise,
`emit(event, data)` calls every callback of the list once, in registration order, each
with `data`; what it does is, for each callback in turn, the call followed by a logged
error when the callback raises, so that no raise leaves `emit`. -/
theorem C29_emit_survives_throwing_callback (ls : Listeners) (event : String) (data : Payload)
    (cbs : List Callback) (h : ls.get event = some cbs) :
    calls (SocketService.emit ls event data) = cbs.map (fun c => (c.id, data)) ∧
      SocketService.emit ls event data =
        cbs.flatMap (fun c =>
          if c.throws then [Effect.call c.id data, Effect.logError c.id]
          else [Effect.call c.id data]) := by
  have hemit : SocketService.emit ls event data = callAll data cbs := by
    simp [SocketService.emit, h]
  rw [hemit]
  refine ⟨calls_callAll data cbs, ?_⟩
  induction cbs generalizing ls with
  | nil => rfl
  | cons c cs ih =>
    simp only [callAll, List.flatMap_cons]
    have hrest : callAll data cs = cs.flatMap (fun c =>
        if c.throws then [Effect.call c.id data, Effect.logError c.id]
        else [Effect.call c.id data]) :=
      ih [(event, cs)] (by simp [Listeners.get]) (by simp [SocketService.emit, Listeners.get])
    rw [← hrest]
    split <;> simp

/-- Witness of C29: the second of three callbacks raises; all three are called, in
order. -/
theorem C29_emit_survives_throwing_callback_witness :
    calls (SocketService.emit throwingListeners "job_updated" (.jobId (some 1))) =
        [(cbJobUpdate.id, .jobId (some 1)), (cbThrowing.id, .jobId (some 1)),
         (cbJobDeleted.id, .jobId (some 1))] ∧
      SocketService.emit throwingListeners "job_updated" (.jobId (some 1)) =
        [.call cbJobUpdate.id (.jobId (some 1)), .call cbThrowing.id (.jobId (some 1)),
         .logError cbThrowing.id, .call cbJobDeleted.id (.jobId (some 1))] :=
  C29_emit_survives_throwing_callback throwingListeners "job_updated" (.jobId (some 1))
    [cbJobUpdate, cbThrowing, cbJobDeleted] (by decide)

/-! ### Notes and locations: who may write what -/

/-- C23 (the code departs from the claim). Driver 3 adds a note to job 1, which is
assigned to driver 2: the note route makes no role or ownership check, the reply is 201,
the note is stored and `note_added` is emitted, although the update route refuses the
same driver on the same job with 403. -/
theorem C23_driver_adds_note_to_foreign_job :
    sampleDb.jobs.map (fun j => (j.id, j.driver_id)) = [(1, some 2)] ∧
      driver3.role = "driver" ∧ driver3.id = 3 ∧
      postNote samplePg sampleDb 30 driver3 "1" { note := .str "left early" } =
        { db := { sampleDb with
                    notes := [{ id := 1, job_id := some 1, author_id := some 3,
                                note := "left early", created_at := 30 }]
                    noteSeq := 1 }
          res := ⟨201, .note { note := { id := 1, job_id := some 1, author_id := some 3,
                                         note := "left early", created_at := 30 },
                               author_name := "Sarah Driver" }⟩
          emitted := [⟨"note_added",
            .note { note := { id := 1, job_id := some 1, author_id := some 3,
                              note := "left early", created_at := 30 },
                    author_name := "Sarah Driver" }⟩] } ∧
      (putJob samplePg sampleDb 30 driver3 "1" { status := .str "completed" }).res
        = accessDenied := by
  decide

/-- A successful upsert touches the `driver_locations` table only. -/
theorem upsertLocation_frame {pg : Pg} {db db1 : Db} {now : Nat} {d : Int} {lat lng : JVal}
    (h : upsertLocation pg db now d lat lng = .ok db1) :
    db1.users = db.users ∧ db1.jobs = db.jobs ∧ db1.notes = db.notes := by
  unfold upsertLocation at h
  split at h
  · simp at h
  · simp at h
  · simp at h
  · simp at h
  · split at h
    · simp only [Except.ok.injEq] at h
      subst h
      exact ⟨rfl, rfl, rfl⟩
    · split at h
      · simp only [Except.ok.injEq] at h
        subst h
        exact ⟨rfl, rfl, rfl⟩
      · simp at h

/-- C28. For every location report, whatever its body: the rows of every driver other
than the caller are as before, the users, jobs and notes tables are as before, every
event emitted is a `location_update` whose `driver_id` is the id of the caller's token,
and when the report is accepted the row it stored is a row of the caller. -/
theorem C28_location_keyed_by_caller (pg : Pg) (db : Db) (now : Nat) (user : TokenUser)
    (body : LocationBody) :
    (∀ d : Int, d ≠ user.id →
      (postLocation pg db now user body).db.locations.filter (fun x => x.driver_id == d)
        = db.locations.filter (fun x => x.driver_id == d)) ∧
    ((postLocation pg db now user body).db.users = db.users ∧
      (postLocation pg db now user body).db.jobs = db.jobs ∧
      (postLocation pg db now user body).db.notes = db.notes) ∧
    (∀ e ∈ (postLocation pg db now user body).emitted,
      ∃ m : LocationMsg, e = ⟨"location_update", .location m⟩ ∧ m.driver_id = user.id) ∧
    ((postLocation pg db now user body).res.status = 200 →
      ∃ row ∈ (postLocation pg db now user body).db.locations,
        row.driver_id = user.id ∧ storedRow pg ⟨now, user, body⟩ = some row) := by
  have hframe : (postLocation pg db now user body).db.users = db.users ∧
      (postLocation pg db now user body).db.jobs = db.jobs ∧
      (postLocation pg db now user body).db.notes = db.notes := by
    unfold postLocation
    split
    · exact ⟨rfl, rfl, rfl⟩
    · cases hx : upsertLocation pg db now user.id body.latitude body.longitude with
      | error e => exact ⟨rfl, rfl, rfl⟩
      | ok db1 => exact upsertLocation_frame hx
  have hev : ∀ e ∈ (postLocation pg db now user body).emitted,
      ∃ m : LocationMsg, e = ⟨"location_update", .location m⟩ ∧ m.driver_id = user.id := by
    unfold postLocation
    split
    · intro e he; simp at he
    · cases hx : upsertLocation pg db now user.id body.latitude body.longitude with
      | error e => intro e he; simp at he
      | ok db1 =>
        intro e he
        simp only [List.mem_singleton] at he
        exact ⟨_, he, rfl⟩
  by_cases h200 : (postLocation pg db now user body).res.status = 200
  · obtain ⟨row, hrow, hid, hloc⟩ :=
      @postLocation_ok pg db ⟨now, user, body⟩ h200
    have hloc2 : (postLocation pg db now user body).db.locations =
        if db.locations.any (fun l => l.driver_id == user.id) then
          db.locations.map (fun l => if l.driver_id == user.id then row else l)
        else db.locations ++ [row] := hloc
    refine ⟨?_, hframe, hev, fun _ => ⟨row, ?_, hid, hrow⟩⟩
    · intro d hd
      rw [hloc2]
      split
      · exact overwrite_other hid hd _
      · rw [List.filter_append]
        have h2 : ¬ user.id = d := fun h => hd h.symm
        have hid2 : row.driver_id = user.id := hid
        simp [hid2, h2]
    · rw [hloc2]
      split
      · rename_i hany
        obtain ⟨x, hx, hxd⟩ := List.any_eq_true.1 hany
        refine List.mem_map.2 ⟨x, hx, ?_⟩
        simp [hxd]
      · simp
  · have hdb : (postLocation pg db now user body).db = db := by
      unfold postLocation at h200 ⊢
      split
      · rfl
      · rename_i hv
        simp only [hv] at h200
        cases hx : upsertLocation pg db now user.id body.latitude body.longitude with
        | error e => rfl
        | ok db1 => simp [hx] at h200
    refine ⟨fun d _ => by rw [hdb], hframe, hev, fun h => absurd h h200⟩

/-- Witness of C28: driver 3 reports on a store holding rows of drivers 2 and 3; the row
of driver 2 is as before and the stored row is a row of driver 3. -/
theorem C28_location_keyed_by_caller_witness :
    (postLocation samplePg (sampleDbLocations 10 20) 30 driver3
          { latitude := .int 42, longitude := .int (-72) }).db.locations.filter
        (fun x => x.driver_id == 2)
        = (sampleDbLocations 10 20).locations.filter (fun x => x.driver_id == 2) ∧
      ∃ row ∈ (postLocation samplePg (sampleDbLocations 10 20) 30 driver3
          { latitude := .int 42, longitude := .int (-72) }).db.locations,
        row.driver_id = driver3.id ∧
        storedRow samplePg ⟨30, driver3, { latitude := .int 42, longitude := .int (-72) }⟩
          = some row :=
  ⟨(C28_location_keyed_by_caller samplePg (sampleDbLocations 10 20) 30 driver3
      { latitude := .int 42, longitude := .int (-72) }).1 2 (by decide),
   (C28_location_keyed_by_caller samplePg (sampleDbLocations 10 20) 30 driver3
      { latitude := .int 42, longitude := .int (-72) }).2.2.2 (by decide)⟩

/-! ### The update statement as text -/

/-- C27. When no field of an update body is applicable (title, address, due_date and
status are not truthy; description, due_time and driver_id are absent), the query
builder yields the text `UPDATE jobs SE WHERE id = $1 RETURNING *` with the id as only
parameter; the store raises on it, so the general branch replies 500, changes nothing
and emits nothing. That is the outcome for every caller that is not a driver and for a
driver whom the ownership check lets through. -/
theorem C27_update_without_fields_fails (pg : Pg) (db : Db) (now : Nat) (user : TokenUser)
    (id : String) (body : JobBody)
    (ht : body.title.truthy = false) (hd : body.description = .undefined)
    (ha : body.address.truthy = false) (hdd : body.due_date.truthy = false)
    (hdt : body.due_time = .undefined) (hdr : body.driver_id = .undefined)
    (hs : body.status.truthy = false) :
    (buildJobUpdate body id).query = "UPDATE jobs SE WHERE id = $1 RETURNING *" ∧
    (buildJobUpdate body id).params = [.str id] ∧
    putJobGeneral pg db now id body = { db := db, res := serverError, emitted := [] } ∧
    (user.role ≠ "driver" →
      putJob pg db now user id body = { db := db, res := serverError, emitted := [] }) ∧
    (user.role = "driver" → ∀ rest, selectJobDriver pg db id = .ok (some user.id :: rest) →
      putJob pg db now user id body = { db := db, res := serverError, emitted := [] }) ∧
    ((putJob pg db now user id body).res.status ≠ 200 ∧
      (putJob pg db now user id body).db = db ∧
      (putJob pg db now user id body).emitted = []) := by
  have hq : (buildJobUpdate body id).query = "UPDATE jobs SE WHERE id = $1 RETURNING *" := by
    simp only [buildJobUpdate, ht, hd, ha, hdd, hdt, hdr, hs, Bool.false_eq_true, if_false,
      ne_eq, not_true_eq_false]
    decide
  have hp : (buildJobUpdate body id).params = [.str id] := by
    simp [buildJobUpdate, ht, hd, ha, hdd, hdt, hdr, hs]
  have hc : (buildJobUpdate body id).cols = [] := by
    simp [buildJobUpdate, ht, hd, ha, hdd, hdt, hdr, hs]
  have hg : putJobGeneral pg db now id body = { db := db, res := serverError, emitted := [] } := by
    simp [putJobGeneral, hc, execJobUpdate, finishUpdate]
  refine ⟨hq, hp, hg, ?_, ?_, ?_⟩
  · intro hr
    simp [putJob, hr, hg]
  · intro hr rest hsel
    simp [putJob, hr, hsel, hs, hg]
  · unfold putJob
    rw [hg]
    split
    · split
      · simp [serverError]
      · simp [accessDenied]
      · split
        · simp [accessDenied]
        · simp [hs, serverError]
    · simp [serverError]

/-- Witness of C27: the admin, and then driver 2 who is assigned to job 1, send an update
of job 1 whose only field is an empty title. -/
theorem C27_update_without_fields_fails_witness :
    (buildJobUpdate sampleEmptyUpdate "1").query = "UPDATE jobs SE WHERE id = $1 RETURNING *" ∧
      putJob samplePg sampleDb 20 admin1 "1" sampleEmptyUpdate =
        { db := sampleDb, res := serverError, emitted := [] } ∧
      putJob samplePg sampleDb 20 driver2 "1" sampleEmptyUpdate =
        { db := sampleDb, res := serverError, emitted := [] } :=
  ⟨(C27_update_without_fields_fails samplePg sampleDb 20 admin1 "1" sampleEmptyUpdate
      rfl rfl rfl rfl rfl rfl rfl).1,
   (C27_update_without_fields_fails samplePg sampleDb 20 admin1 "1" sampleEmptyUpdate
      rfl rfl rfl rfl rfl rfl rfl).2.2.2.1 (by decide),
   (C27_update_without_fields_fails samplePg sampleDb 20 driver2 "1" sampleEmptyUpdate
      rfl rfl rfl rfl rfl rfl rfl).2.2.2.2.1 rfl [] rfl⟩

/-! ### Mandatory columns under update -/

/-- The digit loop started on a non-empty accumulator yields a non-empty list. -/
theorem toDigitsCore_ne_nil (base : Nat) :
    ∀ (fuel n : Nat) (ds : List Char), ds ≠ [] → Nat.toDigitsCore base fuel n ds ≠ [] := by
  intro fuel
  induction fuel with
  | zero => intro n ds h; simpa [Nat.toDigitsCore] using h
  | succ f ih =>
    intro n ds _
    simp only [Nat.toDigitsCore]
    split
    · simp
    · exact ih _ _ (by simp)

/-- The decimal text of a natural number is not empty. -/
theorem nat_repr_ne_empty (n : Nat) : Nat.repr n ≠ "" := by
  intro h
  have hd : (Nat.toDigits 10 n) = [] := by
    have := congrArg String.data h
    simpa [Nat.repr, List.asString] using this
  unfold Nat.toDigits at hd
  simp only [Nat.toDigitsCore] at hd
  split at hd
  · simp at hd
  · exact toDigitsCore_ne_nil 10 _ _ _ (by simp) hd

/-- The decimal text of an integer is not empty. -/
theorem int_toString_ne_empty (n : Int) : toString n ≠ "" := by
  cases n with
  | ofNat m => exact nat_repr_ne_empty m
  | negSucc m =>
    intro h
    have := congrArg String.length h
    have h2 : (toString (Int.negSucc m)) = "-" ++ toString (Nat.succ m) := rfl
    rw [h2, String.length_append] at this
    have h1 : "-".length = 1 := by decide
    rw [h1] at this
    simp at this

/-- A truthy value with well-formed text is bound as a non-empty text. -/
theorem pgParam_nonempty {v : JVal} (h : v.truthy = true) (hw : v.textOk = true) :
    ∃ t, pgParam v = some t ∧ t ≠ "" := by
  cases v with
  | undefined => simp [JVal.truthy] at h
  | null => simp [JVal.truthy] at h
  | bool b =>
    simp only [JVal.truthy] at h
    subst h
    exact ⟨"true", rfl, by decide⟩
  | int n => exact ⟨toString n, rfl, int_toString_ne_empty n⟩
  | frac t => exact ⟨t, rfl, by simpa [JVal.textOk] using hw⟩
  | str t => exact ⟨t, rfl, by simpa [JVal.truthy] using h⟩
  | obj t => exact ⟨t, rfl, by simpa [JVal.textOk] using hw⟩

/-- Storing a non-empty text into `VARCHAR(200)` stores a non-empty text. -/
theorem varcharIn_nonempty {t s : String} (h : varcharIn 200 t = some s) (ht : t ≠ "") :
    s ≠ "" := by
  unfold varcharIn at h
  split at h
  · simp only [Option.some.injEq] at h
    rw [← h]; exact ht
  · rename_i hlen
    split at h
    · simp only [Option.some.injEq] at h
      intro hs
      rw [hs] at h
      have hl : (List.take 200 t.data).length = 0 := by
        have := congrArg String.data h
        simp only at this
        rw [this]
        rfl
      rw [List.length_take] at hl
      have : 200 < t.data.length := Nat.lt_of_not_le hlen
      omega
    · simp at h

/-- The assignment a converted parameter yields writes the column it was bound to. -/
theorem bindJobParam_col {pg : Pg} {c : JobCol} {v : JVal} {s : JobSet}
    (h : bindJobParam pg c v = .ok s) : s.col = c := by
  cases c <;> simp only [bindJobParam] at h
  · cases hb : bindVarchar 200 (pgParam v) <;> simp [hb, Except.map] at h
    subst h; rfl
  · simp at h; subst h; rfl
  · simp at h; subst h; rfl
  · cases hb : bindWith pg.dateIn (pgParam v) <;> simp [hb, Except.map] at h
    subst h; rfl
  · cases hb : bindWith pg.timeIn (pgParam v) <;> simp [hb, Except.map] at h
    subst h; rfl
  · cases hb : bindWith pg.int4In (pgParam v) <;> simp [hb, Except.map] at h
    subst h; rfl
  · cases hb : bindVarchar 20 (pgParam v) <;> simp [hb, Except.map] at h
    subst h; rfl

/-- Every converted assignment comes from a parameter of the statement. -/
theorem bindJobParams_mem {pg : Pg} :
    ∀ {l : List (JobCol × JVal)} {ss : List JobSet}, bindJobParams pg l = .ok ss →
      ∀ s ∈ ss, ∃ p ∈ l, bindJobParam pg p.1 p.2 = .ok s := by
  intro l
  induction l with
  | nil =>
    intro ss h s hs
    simp [bindJobParams] at h
    subst h
    simp at hs
  | cons p rest ih =>
    intro ss h s hs
    obtain ⟨c, v⟩ := p
    simp only [bindJobParams] at h
    cases h1 : bindJobParam pg c v with
    | error e => simp [h1] at h
    | ok s1 =>
      cases h2 : bindJobParams pg rest with
      | error e => simp [h1, h2] at h
      | ok ss1 =>
        simp [h1, h2] at h
        subst h
        rcases List.mem_cons.1 hs with rfl | hs
        · exact ⟨(c, v), List.mem_cons_self _ _, h1⟩
        · obtain ⟨q, hq, hb⟩ := ih h2 s hs
          exact ⟨q, List.mem_cons_of_mem _ hq, hb⟩

/-- What a successful assignment does, by column. -/
theorem Job.assign_cases {db : Db} {j j1 : Job} {s : JobSet} (h : j.assign db s = .ok j1) :
    (∃ t, s = .title (some t) ∧ j1 = { j with title := t }) ∨
    (∃ d, s = .description d ∧ j1 = { j with description := d }) ∨
    (∃ a, s = .address (some a) ∧ j1 = { j with address := a }) ∨
    (∃ d, s = .due_date (some d) ∧ j1 = { j with due_date := d }) ∨
    (∃ t, s = .due_time t ∧ j1 = { j with due_time := t }) ∨
    (∃ d, s = .driver_id d ∧ j1 = { j with driver_id := d }) ∨
    (∃ v, s = .status v ∧ j1 = { j with status := v }) := by
  cases s with
  | title v =>
    cases v with
    | none => simp [Job.assign] at h
    | some t => simp [Job.assign] at h; exact Or.inl ⟨t, rfl, h.symm⟩
  | description v =>
    simp [Job.assign] at h; exact Or.inr (Or.inl ⟨v, rfl, h.symm⟩)
  | address v =>
    cases v with
    | none => simp [Job.assign] at h
    | some t => simp [Job.assign] at h; exact Or.inr (Or.inr (Or.inl ⟨t, rfl, h.symm⟩))
  | due_date v =>
    cases v with
    | none => simp [Job.assign] at h
    | some t =>
      simp [Job.assign] at h; exact Or.inr (Or.inr (Or.inr (Or.inl ⟨t, rfl, h.symm⟩)))
  | due_time v =>
    simp [Job.assign] at h
    exact Or.inr (Or.inr (Or.inr (Or.inr (Or.inl ⟨v, rfl, h.symm⟩))))
  | driver_id v =>
    simp only [Job.assign] at h
    split at h
    · simp at h
      exact Or.inr (Or.inr (Or.inr (Or.inr (Or.inr (Or.inl ⟨v, rfl, h.symm⟩)))))
    · simp at h
  | status v =>
    cases v with
    | none =>
      simp [Job.assign] at h
      exact Or.inr (Or.inr (Or.inr (Or.inr (Or.inr (Or.inr ⟨none, rfl, h.symm⟩)))))
    | some t =>
      simp only [Job.assign] at h
      split at h
      · simp at h
        exact Or.inr (Or.inr (Or.inr (Or.inr (Or.inr (Or.inr ⟨some t, rfl, h.symm⟩)))))
      · simp at h

/-- A property of rows kept by each assignment of a list is kept by the list. -/
theorem Job.assignAll_inv {db : Db} (P : Job → Prop) :
    ∀ {ss : List JobSet} {j j1 : Job},
      (∀ s ∈ ss, ∀ a b : Job, P a → a.assign db s = .ok b → P b) →
      P j → Job.assignAll db j ss = .ok j1 → P j1 := by
  intro ss
  induction ss with
  | nil => intro j j1 _ hp h; simp [Job.assignAll] at h; subst h; exact hp
  | cons s rest ih =>
    intro j j1 hstep hp h
    simp only [Job.assignAll] at h
    cases h1 : j.assign db s with
    | error e => simp [h1] at h
    | ok j2 =>
      simp only [h1] at h
      exact ih (fun t ht => hstep t (List.mem_cons_of_mem _ ht))
        (hstep s (List.mem_cons_self _ _) j j2 hp h1) h

/-- The mandatory columns among the clauses of the query builder carry the truthy value
of the body. -/
theorem otherSets_mem (body : JobBody) :
    ∀ p ∈ otherSets body,
      (p.1 = JobCol.title → p.2 = body.title ∧ body.title.truthy = true) ∧
      (p.1 = JobCol.address → p.2 = body.address ∧ body.address.truthy = true) ∧
      (p.1 = JobCol.due_date → p.2 = body.due_date ∧ body.due_date.truthy = true) := by
  intro p hp
  unfold otherSets at hp
  simp only [List.mem_append] at hp
  rcases hp with ((((hp | hp) | hp) | hp) | hp) | hp <;>
    (split at hp <;> simp at hp; subst hp; simp_all)

/-- An assignment of the statement the update route runs is the status assignment or a
clause of the query builder. -/
theorem updateSets_mem (user : TokenUser) (id : String) (body : JobBody) :
    ∀ p ∈ updateSets user id body, p.1 = JobCol.status ∨ p ∈ otherSets body := by
  intro p hp
  unfold updateSets at hp
  split at hp
  · simp only [List.mem_singleton] at hp
    subst hp
    exact Or.inl rfl
  · rw [buildJobUpdate_sets, List.mem_append] at hp
    rcases hp with hp | hp
    · exact Or.inr hp
    · unfold statusSets at hp
      split at hp
      · simp only [List.mem_singleton] at hp
        subst hp
        exact Or.inl rfl
      · simp at hp

/-- A successful update (reply 200 with a row): the row is in the new table and is a
stored job rewritten by the converted assignments of `updateSets`, then stamped by the
trigger. -/
theorem putJob_200 {pg : Pg} {db : Db} {now : Nat} {user : TokenUser} {id : String}
    {body : JobBody} {row : Job}
    (hok : (putJob pg db now user id body).res = ⟨200, .job row⟩) :
    row ∈ (putJob pg db now user id body).db.jobs ∧
      ∃ j0 ∈ db.jobs, ∃ vals j1, bindJobParams pg (updateSets user id body) = .ok vals ∧
        Job.assignAll db j0 vals = .ok j1 ∧ row = { j1 with updated_at := now } := by
  have hem : (putJob pg db now user id body).emitted ≠ [] := by
    rcases putJob_spec pg db now user id body with ⟨hne, _, _⟩ | ⟨r, _, hem, _⟩
    · rw [hok] at hne
      exact absurd rfl hne
    · rw [hem]; simp
  rcases putJob_runs_updateSets pg db now user id body with hrun | ⟨h0, _⟩
  · rw [hrun] at hok ⊢
    cases hx : execJobUpdate pg db now (updateSets user id body) id with
    | error e => simp [hx, finishUpdate, serverError] at hok
    | ok r =>
      obtain ⟨ret, db1⟩ := r
      cases ret with
      | nil => simp [hx, finishUpdate, jobNotFound] at hok
      | cons r0 rest =>
        simp only [hx, finishUpdate, Response.mk.injEq, ResBody.job.injEq, true_and] at hok
        subst hok
        obtain ⟨vals, n, hb, _, _, h2, _⟩ := execJobUpdate_ok hx
        obtain ⟨hin, j0, hj0, _, hu⟩ := h2 r0 (List.mem_cons_self _ _)
        refine ⟨hin, j0, hj0, vals, ?_⟩
        unfold Job.updated at hu
        cases ha : Job.assignAll db j0 vals with
        | error e => simp [ha] at hu
        | ok j1 =>
          simp only [ha, Except.ok.injEq] at hu
          exact ⟨j1, hb, rfl, hu.symm⟩
  · exact absurd h0 hem

/-- C22. For every successful job update (reply 200 with a row), by any role, on a body
whose title and address are well-formed values: the row rewrites a stored job of the
same id; a title, address or due_date that is not truthy in the body (missing or empty)
leaves the stored value; a non-empty title stays non-empty and a non-empty address
stays non-empty; the due date is the stored one or a date the engine read from the
body, so that it stays non-empty as long as the engine never yields an empty date. -/
theorem C22_update_keeps_mandatory_fields (pg : Pg) (db : Db) (now : Nat) (user : TokenUser)
    (id : String) (body : JobBody) (row : Job)
    (hok : (putJob pg db now user id body).res = ⟨200, .job row⟩)
    (htitle : body.title.textOk = true) (haddr : body.address.textOk = true) :
    ∃ j0 ∈ db.jobs, row.id = j0.id ∧ row ∈ (putJob pg db now user id body).db.jobs ∧
      (body.title.truthy = false → row.title = j0.title) ∧
      (body.address.truthy = false → row.address = j0.address) ∧
      (body.due_date.truthy = false → row.due_date = j0.due_date) ∧
      (j0.title ≠ "" → row.title ≠ "") ∧
      (j0.address ≠ "" → row.address ≠ "") ∧
      (row.due_date = j0.due_date ∨
        ∃ t, pgParam body.due_date = some t ∧ pg.dateIn t = some row.due_date) ∧
      ((∀ t d, pg.dateIn t = some d → d ≠ "") → j0.due_date ≠ "" → row.due_date ≠ "") := by
  obtain ⟨hin, j0, hj0, vals, j1, hb, ha, hrow⟩ := putJob_200 hok
  -- where each converted assignment comes from
  have hsrc : ∀ s ∈ vals, ∃ p ∈ updateSets user id body,
      bindJobParam pg p.1 p.2 = .ok s ∧ s.col = p.1 := by
    intro s hs
    obtain ⟨p, hp, hbp⟩ := bindJobParams_mem hb s hs
    exact ⟨p, hp, hbp, bindJobParam_col hbp⟩
  have hcol : ∀ s ∈ vals, ∀ c : JobCol, c ≠ JobCol.status → s.col = c →
      ∃ p ∈ otherSets body, p.1 = c ∧ bindJobParam pg c p.2 = .ok s := by
    intro s hs c hc hsc
    obtain ⟨p, hp, hbp, hpc⟩ := hsrc s hs
    have hp1 : p.1 = c := by rw [← hpc, hsc]
    rcases updateSets_mem user id body p hp with h | h
    · exact absurd (hp1 ▸ h) hc
    · exact ⟨p, h, hp1, by rw [← hp1]; exact hbp⟩
  have hTitleKeep : body.title.truthy = false → j1.title = j0.title := by
    intro hf
    refine Job.assignAll_inv (fun j => j.title = j0.title) ?_ rfl ha
    intro s hs a b hpa hab
    have hne : s.col ≠ JobCol.title := by
      intro hsc
      obtain ⟨p, hp, hp1, _⟩ := hcol s hs JobCol.title (by decide) hsc
      have := ((otherSets_mem body p hp).1 hp1).2
      rw [hf] at this
      exact absurd this (by decide)
    rcases Job.assign_cases hab with ⟨t, rfl, rfl⟩ | ⟨d, rfl, rfl⟩ | ⟨t, rfl, rfl⟩ |
      ⟨d, rfl, rfl⟩ | ⟨t, rfl, rfl⟩ | ⟨d, rfl, rfl⟩ | ⟨v, rfl, rfl⟩
    · exact absurd rfl hne
    all_goals exact hpa
  have hAddrKeep : body.address.truthy = false → j1.address = j0.address := by
    intro hf
    refine Job.assignAll_inv (fun j => j.address = j0.address) ?_ rfl ha
    intro s hs a b hpa hab
    have hne : s.col ≠ JobCol.address := by
      intro hsc
      obtain ⟨p, hp, hp1, _⟩ := hcol s hs JobCol.address (by decide) hsc
      have := ((otherSets_mem body p hp).2.1 hp1).2
      rw [hf] at this
      exact absurd this (by decide)
    rcases Job.assign_cases hab with ⟨t, rfl, rfl⟩ | ⟨d, rfl, rfl⟩ | ⟨t, rfl, rfl⟩ |
      ⟨d, rfl, rfl⟩ | ⟨t, rfl, rfl⟩ | ⟨d, rfl, rfl⟩ | ⟨v, rfl, rfl⟩
    · exact hpa
    · exact hpa
    · exact absurd rfl hne
    all_goals exact hpa
  have hDateKeep : body.due_date.truthy = false → j1.due_date = j0.due_date := by
    intro hf
    refine Job.assignAll_inv (fun j => j.due_date = j0.due_date) ?_ rfl ha
    intro s hs a b hpa hab
    have hne : s.col ≠ JobCol.due_date := by
      intro hsc
      obtain ⟨p, hp, hp1, _⟩ := hcol s hs JobCol.due_date (by decide) hsc
      have := ((otherSets_mem body p hp).2.2 hp1).2
      rw [hf] at this
      exact absurd this (by decide)
    rcases Job.assign_cases hab with ⟨t, rfl, rfl⟩ | ⟨d, rfl, rfl⟩ | ⟨t, rfl, rfl⟩ |
      ⟨d, rfl, rfl⟩ | ⟨t, rfl, rfl⟩ | ⟨d, rfl, rfl⟩ | ⟨v, rfl, rfl⟩
    · exact hpa
    · exact hpa
    · exact hpa
    · exact absurd rfl hne
    all_goals exact hpa
  have hTitleNe : j0.title ≠ "" → j1.title ≠ "" := by
    intro h0
    refine Job.assignAll_inv (fun j => j.title ≠ "") ?_ h0 ha
    intro s hs a b hpa hab
    rcases Job.assign_cases hab with ⟨t, rfl, rfl⟩ | ⟨d, rfl, rfl⟩ | ⟨t, rfl, rfl⟩ |
      ⟨d, rfl, rfl⟩ | ⟨t, rfl, rfl⟩ | ⟨d, rfl, rfl⟩ | ⟨v, rfl, rfl⟩
    · obtain ⟨p, hp, hp1, hbp⟩ := hcol _ hs JobCol.title (by decide) rfl
      obtain ⟨hv, htr⟩ := (otherSets_mem body p hp).1 hp1
      rw [hv] at hbp
      obtain ⟨text, htext, hne⟩ := pgParam_nonempty htr htitle
      simp only [bindJobParam, htext, bindVarchar] at hbp
      cases hvc : varcharIn 200 text with
      | none => simp [hvc, Except.map] at hbp
      | some s2 =>
        simp [hvc, Except.map] at hbp
        subst hbp
        exact varcharIn_nonempty hvc hne
    all_goals exact hpa
  have hAddrNe : j0.address ≠ "" → j1.address ≠ "" := by
    intro h0
    refine Job.assignAll_inv (fun j => j.address ≠ "") ?_ h0 ha
    intro s hs a b hpa hab
    rcases Job.assign_cases hab with ⟨t, rfl, rfl⟩ | ⟨d, rfl, rfl⟩ | ⟨t, rfl, rfl⟩ |
      ⟨d, rfl, rfl⟩ | ⟨t, rfl, rfl⟩ | ⟨d, rfl, rfl⟩ | ⟨v, rfl, rfl⟩
    · exact hpa
    · exact hpa
    · obtain ⟨p, hp, hp1, hbp⟩ := hcol _ hs JobCol.address (by decide) rfl
      obtain ⟨hv, htr⟩ := (otherSets_mem body p hp).2.1 hp1
      rw [hv] at hbp
      obtain ⟨text, htext, hne⟩ := pgParam_nonempty htr haddr
      simp only [bindJobParam, htext, Except.ok.injEq, JobSet.address.injEq,
        Option.some.injEq] at hbp
      subst hbp
      exact hne
    all_goals exact hpa
  have hDate : j1.due_date = j0.due_date ∨
      ∃ t, pgParam body.due_date = some t ∧ pg.dateIn t = some j1.due_date := by
    refine Job.assignAll_inv (fun j => j.due_date = j0.due_date ∨
      ∃ t, pgParam body.due_date = some t ∧ pg.dateIn t = some j.due_date) ?_ (Or.inl rfl) ha
    intro s hs a b hpa hab
    rcases Job.assign_cases hab with ⟨t, rfl, rfl⟩ | ⟨d, rfl, rfl⟩ | ⟨t, rfl, rfl⟩ |
      ⟨d, rfl, rfl⟩ | ⟨t, rfl, rfl⟩ | ⟨d, rfl, rfl⟩ | ⟨v, rfl, rfl⟩
    · exact hpa
    · exact hpa
    · exact hpa
    · right
      obtain ⟨p, hp, hp1, hbp⟩ := hcol _ hs JobCol.due_date (by decide) rfl
      obtain ⟨hv, htr⟩ := (otherSets_mem body p hp).2.2 hp1
      rw [hv] at hbp
      obtain ⟨text, htext⟩ := pgParam_of_truthy htr
      simp only [bindJobParam, htext, bindWith] at hbp
      cases hdi : pg.dateIn text with
      | none => simp [hdi, Except.map] at hbp
      | some d2 =>
        simp [hdi, Except.map] at hbp
        subst hbp
        exact ⟨text, htext, hdi⟩
    all_goals exact hpa
  have hid : j1.id = j0.id := Job.assignAll_id ha
  subst hrow
  refine ⟨j0, hj0, hid, hin, hTitleKeep, hAddrKeep, hDateKeep, hTitleNe, hAddrNe, hDate, ?_⟩
  intro hpg h0
  rcases hDate with h | ⟨t, _, ht⟩
  · show j1.due_date ≠ ""
    rw [h]; exact h0
  · exact hpg t _ ht

/-- Witness of C22: the admin sends an update of job 1 with an empty title and a new
address; the title is kept and the address is replaced by a non-empty one. -/
theorem C22_update_keeps_mandatory_fields_witness :
    ∃ j0 ∈ sampleDb.jobs,
      ({ sampleJob with address := "7 Dock Rd", updated_at := 20 } : Job).id = j0.id ∧
      ({ sampleJob with address := "7 Dock Rd", updated_at := 20 } : Job).title = j0.title ∧
      ({ sampleJob with address := "7 Dock Rd", updated_at := 20 } : Job).address ≠ "" :=
  have h := C22_update_keeps_mandatory_fields samplePg sampleDb 20 admin1 "1"
    { title := .str "", address := .str "7 Dock Rd" }
    { sampleJob with address := "7 Dock Rd", updated_at := 20 } (by decide) rfl rfl
  match h with
  | ⟨j0, hj0, hid, _, ht, _, _, _, ha, _⟩ =>
    ⟨j0, hj0, hid, ht rfl, ha (by
      have : j0 = sampleJob := by simpa [sampleDb] using hj0
      rw [this]; decide)⟩

/-- One conditional step of the builder, by column. -/
theorem stepClause_eq (body : JobBody) (q : UpdateQuery) :
    (if body.title.truthy then q.push .title body.title else q) = stepClause body q .title ∧
    (if body.description ≠ .undefined then q.push .description body.description else q)
      = stepClause body q .description ∧
    (if body.address.truthy then q.push .address body.address else q)
      = stepClause body q .address ∧
    (if body.due_date.truthy then q.push .due_date body.due_date else q)
      = stepClause body q .due_date ∧
    (if body.due_time ≠ .undefined then q.push .due_time body.due_time else q)
      = stepClause body q .due_time ∧
    (if body.driver_id ≠ .undefined then q.push .driver_id body.driver_id else q)
      = stepClause body q .driver_id ∧
    (if body.status.truthy then q.push .status body.status else q)
      = stepClause body q .status := by
  simp [stepClause, applicable, JobBody.value]

/-- The builder is the seven steps in the order of `jobCols`, then the cut of the last
two characters and the WHERE clause. -/
theorem buildJobUpdate_fold (body : JobBody) (id : String) :
    buildJobUpdate body id =
      { query :=
          String.mk ((jobCols.foldl (stepClause body) startQuery).query.data.take
            ((jobCols.foldl (stepClause body) startQuery).query.length - 2)) ++
          " WHERE id = $" ++
          toString ((jobCols.foldl (stepClause body) startQuery).paramCount + 1) ++ " RETURNING *"
        params := (jobCols.foldl (stepClause body) startQuery).params ++ [.str id]
        paramCount := (jobCols.foldl (stepClause body) startQuery).paramCount + 1
        cols := (jobCols.foldl (stepClause body) startQuery).cols } := by
  unfold buildJobUpdate
  simp only [(stepClause_eq body _).1, (stepClause_eq body _).2.1, (stepClause_eq body _).2.2.1,
    (stepClause_eq body _).2.2.2.1, (stepClause_eq body _).2.2.2.2.1,
    (stepClause_eq body _).2.2.2.2.2.1, (stepClause_eq body _).2.2.2.2.2.2]
  rfl

/-- The state of the builder after the steps of a list of columns: the applicable
columns are appended, each with its value, its clause and a comma. -/
theorem foldl_stepClause (body : JobBody) :
    ∀ (l : List JobCol) (q : UpdateQuery),
      (l.foldl (stepClause body) q).cols = q.cols ++ l.filter (applicable body) ∧
      (l.foldl (stepClause body) q).params
        = q.params ++ (l.filter (applicable body)).map body.value ∧
      (l.foldl (stepClause body) q).paramCount
        = q.paramCount + (l.filter (applicable body)).length ∧
      (l.foldl (stepClause body) q).query
        = q.query ++ trailingClauses q.paramCount (l.filter (applicable body)) := by
  intro l
  induction l with
  | nil => intro q; simp [trailingClauses]
  | cons c cs ih =>
    intro q
    simp only [List.foldl_cons]
    obtain ⟨i1, i2, i3, i4⟩ := ih (stepClause body q c)
    rw [i1, i2, i3, i4]
    by_cases hc : applicable body c = true
    · simp only [stepClause, hc, if_true, UpdateQuery.push, List.filter_cons, List.map_cons,
        List.length_cons, trailingClauses, setClause]
      refine ⟨by simp, by simp, by omega, ?_⟩
      simp only [String.append_assoc]
    · simp only [stepClause, hc, List.filter_cons]
      simp

/-- Clauses each followed by a comma are the clauses separated by commas, followed by
one more comma. -/
theorem trailingClauses_eq :
    ∀ (l : List JobCol) (k : Nat), l ≠ [] → trailingClauses k l = joinClauses k l ++ ", " := by
  intro l
  induction l with
  | nil => intro k h; exact absurd rfl h
  | cons c cs ih =>
    intro k _
    cases cs with
    | nil => simp [trailingClauses, joinClauses]
    | cons c2 rest =>
      rw [trailingClauses, ih (k + 1) (by simp), joinClauses]
      simp only [String.append_assoc]

/-- Cutting the last two characters of a text that ends with a comma and a space. -/
theorem cut_trailing_comma (t : String) :
    String.mk ((t ++ ", ").data.take ((t ++ ", ").length - 2)) = t := by
  have h2 : (", " : String).data = [',', ' '] := rfl
  have hd : (t ++ ", ").data = t.data ++ [',', ' '] := by
    rw [String.data_append, h2]
  have hl : (t ++ ", ").length = t.data.length + 2 := by
    show (t ++ ", ").data.length = t.data.length + 2
    rw [hd, List.length_append]
    rfl
  rw [hl, hd, Nat.add_sub_cancel, List.take_left']
  rfl

/-- The columns, text and parameters of the built statement, for every body: the
applicable columns in the order of `jobCols`, the text of `updateText` when there is at
least one, their values followed by the id. -/
theorem buildJobUpdate_text (body : JobBody) (id : String) :
    (buildJobUpdate body id).cols = jobCols.filter (applicable body) ∧
    (jobCols.filter (applicable body) ≠ [] →
      (buildJobUpdate body id).query = updateText (jobCols.filter (applicable body))) ∧
    (buildJobUpdate body id).params =
      (jobCols.filter (applicable body)).map body.value ++ [.str id] := by
  obtain ⟨i1, i2, i3, i4⟩ := foldl_stepClause body jobCols startQuery
  rw [buildJobUpdate_fold]
  simp only [i1, i2, i3, i4]
  refine ⟨by simp [startQuery], ?_, by simp [startQuery]⟩
  intro hne
  rw [trailingClauses_eq _ _ hne]
  have hs : startQuery.query ++ (joinClauses startQuery.paramCount
      (jobCols.filter (applicable body)) ++ ", ")
      = (startQuery.query ++ joinClauses startQuery.paramCount
          (jobCols.filter (applicable body))) ++ ", " := by
    rw [String.append_assoc]
  rw [hs, cut_trailing_comma]
  simp [updateText, startQuery]

/-- C26. For every job-update body with at least one applicable field: the built
statement assigns exactly the applicable fields, in the fixed order title, description,
address, due_date, due_time, driver_id, status; its text is `UPDATE jobs SET` followed
by the clauses `field = $k` with `k` counting from 1 in that order, then
`WHERE id = $(n+1) RETURNING *` for `n` fields; its parameters are the values of these
fields in the same order followed by the job id. For an admin or dispatcher caller this
is the statement the update route runs. -/
theorem C26_update_statement_binds_in_order (body : JobBody) (id : String)
    (h : ∃ c, applicable body c = true) :
    (buildJobUpdate body id).cols = jobCols.filter (applicable body) ∧
    (buildJobUpdate body id).query = updateText (jobCols.filter (applicable body)) ∧
    (buildJobUpdate body id).params =
      (jobCols.filter (applicable body)).map body.value ++ [.str id] ∧
    (buildJobUpdate body id).params.length = (jobCols.filter (applicable body)).length + 1 ∧
    (∀ (pg : Pg) (db : Db) (now : Nat) (user : TokenUser),
      user.role = "admin" ∨ user.role = "dispatcher" →
      putJob pg db now user id body =
        finishUpdate db (execJobUpdate pg db now
          ((buildJobUpdate body id).cols.zip (buildJobUpdate body id).params) id)) := by
  obtain ⟨hc, hq, hp⟩ := buildJobUpdate_text body id
  have hne : jobCols.filter (applicable body) ≠ [] := by
    obtain ⟨c, hc2⟩ := h
    have hmem : c ∈ jobCols.filter (applicable body) :=
      List.mem_filter.2 ⟨by cases c <;> decide, hc2⟩
    intro hnil
    rw [hnil] at hmem
    simp at hmem
  refine ⟨hc, hq hne, hp, by rw [hp]; simp, ?_⟩
  intro pg db now user hrole
  have hnd : ¬ user.role = "driver" := by
    rcases hrole with h | h <;> rw [h] <;> decide
  simp [putJob, hnd, putJobGeneral]

/-- Witness of C26: a body with a title, a null description and a status. -/
theorem C26_update_statement_binds_in_order_witness :
    (buildJobUpdate { title := .str "Pour slab", description := .null, status := .str "assigned" }
        "12").query
        = "UPDATE jobs SET title = $1, description = $2, status = $3 WHERE id = $4 RETURNING *" ∧
      (buildJobUpdate { title := .str "Pour slab", description := .null, status := .str "assigned" }
        "12").params = [.str "Pour slab", .null, .str "assigned", .str "12"] := by
  have h := C26_update_statement_binds_in_order
    { title := .str "Pour slab", description := .null, status := .str "assigned" } "12"
    ⟨.title, rfl⟩
  exact ⟨h.2.1.trans (by decide), h.2.2.1.trans (by decide)⟩

/-! ### The two token checks of the client -/

/-- C30 (the code departs from the claim). A stored token whose payload has no `exp`
is accepted by `validateToken`, which returns its id, username and role, while
`isAuthenticated` returns false for it; and a token whose expiry instant `exp * 1000`
equals the current time is accepted by `validateToken` and refused by
`isAuthenticated`. -/
theorem C30_token_checks_disagree :
    validateToken sampleBrowser 1000 (some "hdr.bm9leHA.sig") =
        some { id := .int 2, username := .str "driver1", role := .str "driver" } ∧
      isAuthenticated sampleBrowser 1000 (some "hdr.bm9leHA.sig") = false ∧
      validateToken sampleBrowser 5000 (some "hdr.ZXhwNQ.sig") =
        some { id := .int 2, username := .str "driver1", role := .str "driver" } ∧
      isAuthenticated sampleBrowser 5000 (some "hdr.ZXhwNQ.sig") = false := by
  have hs1 : secondSegment "hdr.bm9leHA.sig" = "bm9leHA" := by decide
  have hs2 : secondSegment "hdr.ZXhwNQ.sig" = "ZXhwNQ" := by decide
  have hd1 : sampleBrowser.decode "bm9leHA" =
      some { id := .int 2, username := .str "driver1", role := .str "driver" } := by
    simp [sampleBrowser]
  have hd2 : sampleBrowser.decode "ZXhwNQ" =
      some { id := .int 2, username := .str "driver1", role := .str "driver", exp := .int 5 } := by
    simp [sampleBrowser]
  refine ⟨?_, ?_, ?_, ?_⟩
  · simp [validateToken, hs1, hd1, expiredBefore, jsNumber]
  · simp [isAuthenticated, hs1, hd1, expiresAfter, jsNumber]
  · simp only [validateToken, hs2, hd2, expiredBefore, jsNumber]
    norm_num
  · simp only [isAuthenticated, hs2, hd2, expiresAfter, jsNumber]
    norm_num

/-! ### The user update route -/

/-- An assignment other than role and active leaves id, username, role and active. -/
theorem UserRow.assign_frame {u u1 : UserRow} {v : UserVal} (h : u.assign v = .ok u1)
    (hr : ∀ t, v ≠ .role t) (ha : ∀ b, v ≠ .active b) :
    u1.id = u.id ∧ u1.username = u.username ∧ u1.role = u.role ∧ u1.active = u.active := by
  cases v with
  | name t =>
    cases t with
    | none => simp [UserRow.assign] at h
    | some x => simp [UserRow.assign] at h; subst h; exact ⟨rfl, rfl, rfl, rfl⟩
  | role t => exact absurd rfl (hr t)
  | active b => exact absurd rfl (ha b)
  | password t =>
    cases t with
    | none => simp [UserRow.assign] at h
    | some x => simp [UserRow.assign] at h; subst h; exact ⟨rfl, rfl, rfl, rfl⟩

/-- Assignments other than role and active leave id, username, role and active. -/
theorem UserRow.assignAll_frame :
    ∀ {vs : List UserVal} {u u1 : UserRow}, UserRow.assignAll u vs = .ok u1 →
      (∀ v ∈ vs, (∀ t, v ≠ .role t) ∧ (∀ b, v ≠ .active b)) →
      u1.id = u.id ∧ u1.username = u.username ∧ u1.role = u.role ∧ u1.active = u.active := by
  intro vs
  induction vs with
  | nil => intro u u1 h _; simp [UserRow.assignAll] at h; subst h; exact ⟨rfl, rfl, rfl, rfl⟩
  | cons v rest ih =>
    intro u u1 h hv
    simp only [UserRow.assignAll] at h
    cases h1 : u.assign v with
    | error e => simp [h1] at h
    | ok u2 =>
      simp only [h1] at h
      obtain ⟨a1, a2, a3, a4⟩ := ih h (fun w hw => hv w (List.mem_cons_of_mem _ hw))
      obtain ⟨b1, b2, b3, b4⟩ :=
        UserRow.assign_frame h1 (hv v (List.mem_cons_self _ _)).1 (hv v (List.mem_cons_self _ _)).2
      exact ⟨a1.trans b1, a2.trans b2, a3.trans b3, a4.trans b4⟩

/-- Converted parameters of clauses other than role and active are assignments other
than role and active. -/
theorem bindUserSets_frame :
    ∀ {l : List UserSet} {vs : List UserVal}, bindUserSets l = .ok vs →
      (∀ s ∈ l, (∀ x, s ≠ .role x) ∧ (∀ b, s ≠ .active b)) →
      ∀ v ∈ vs, (∀ t, v ≠ .role t) ∧ (∀ b, v ≠ .active b) := by
  intro l
  induction l with
  | nil =>
    intro vs h _ v hv
    simp [bindUserSets] at h
    subst h
    simp at hv
  | cons s rest ih =>
    intro vs h hl v hv
    simp only [bindUserSets] at h
    cases h1 : bindUserSet s with
    | error e => simp [h1] at h
    | ok v1 =>
      cases h2 : bindUserSets rest with
      | error e => simp [h1, h2] at h
      | ok vs1 =>
        simp [h1, h2] at h
        subst h
        rcases List.mem_cons.1 hv with rfl | hv
        · have hs := hl s (List.mem_cons_self _ _)
          cases s with
          | name x =>
            simp only [bindUserSet] at h1
            cases hb : bindVarchar 100 (pgParam x) <;> simp [hb, Except.map] at h1
            subst h1
            exact ⟨fun t => by simp, fun b => by simp⟩
          | role x => exact absurd rfl (hs.1 x)
          | active b => exact absurd rfl (hs.2 b)
          | password x =>
            simp only [bindUserSet] at h1
            cases hb : bindVarchar 255 (some x) <;> simp [hb, Except.map] at h1
            subst h1
            exact ⟨fun t => by simp, fun b => by simp⟩
        · exact ih h2 (fun t ht => hl t (List.mem_cons_of_mem _ ht)) v hv

/-- A successful row rewrite pairs each row of the old table with a row of the new one
that is the same row or its rewriting. -/
theorem updateUserRows_forall₂ {f : UserRow → Except PgError UserRow} {n : Int}
    (R : UserRow → UserRow → Prop) (hrefl : ∀ u, R u u)
    (hf : ∀ u u1, f u = .ok u1 → R u u1) :
    ∀ {l tbl ret : List UserRow}, updateUserRows f n l = .ok (tbl, ret) →
      List.Forall₂ R l tbl := by
  intro l
  induction l with
  | nil =>
    intro tbl ret h
    simp [updateUserRows] at h
    rw [h.1]
    exact List.Forall₂.nil
  | cons a rest ih =>
    intro tbl ret h
    simp only [updateUserRows] at h
    split at h
    · cases h1 : f a with
      | error e => simp [h1] at h
      | ok a1 =>
        cases h2 : updateUserRows f n rest with
        | error e => simp [h1, h2] at h
        | ok r =>
          obtain ⟨tbl1, ret1⟩ := r
          simp [h1, h2] at h
          rw [← h.1]
          exact List.Forall₂.cons (hf a a1 h1) (ih h2)
    · cases h2 : updateUserRows f n rest with
      | error e => simp [h2] at h
      | ok r =>
        obtain ⟨tbl1, ret1⟩ := r
        simp [h2] at h
        rw [← h.1]
        exact List.Forall₂.cons (hrefl a) (ih h2)

/-- A successful row rewrite leaves the rows whose id is not the bound id. -/
theorem updateUserRows_other {f : UserRow → Except PgError UserRow} {n : Int} :
    ∀ {l tbl ret : List UserRow}, updateUserRows f n l = .ok (tbl, ret) →
      List.Forall₂ (fun u u1 : UserRow => u.id ≠ n → u1 = u) l tbl := by
  intro l
  induction l with
  | nil =>
    intro tbl ret h
    simp [updateUserRows] at h
    rw [h.1]
    exact List.Forall₂.nil
  | cons a rest ih =>
    intro tbl ret h
    simp only [updateUserRows] at h
    split at h
    · rename_i hid
      cases h1 : f a with
      | error e => simp [h1] at h
      | ok a1 =>
        cases h2 : updateUserRows f n rest with
        | error e => simp [h1, h2] at h
        | ok r =>
          obtain ⟨tbl1, ret1⟩ := r
          simp [h1, h2] at h
          rw [← h.1]
          exact List.Forall₂.cons (fun hne => absurd hid hne) (ih h2)
    · cases h2 : updateUserRows f n rest with
      | error e => simp [h2] at h
      | ok r =>
        obtain ⟨tbl1, ret1⟩ := r
        simp [h2] at h
        rw [← h.1]
        exact List.Forall₂.cons (fun _ => rfl) (ih h2)

/-- A successful user update leaves every row whose id is not the id the engine read
from the route. -/
theorem execUserUpdate_other {pg : Pg} {db db1 : Db} {sets : List UserSet} {id : String}
    {ret : List UserRow} (h : execUserUpdate pg db sets id = .ok (ret, db1)) :
    ∃ n, pg.int4In id = some n ∧
      List.Forall₂ (fun u u1 : UserRow => u.id ≠ n → u1 = u) db.users db1.users := by
  unfold execUserUpdate at h
  cases sets with
  | nil => simp at h
  | cons s0 srest =>
    simp only at h
    cases hb : bindUserSets (s0 :: srest) with
    | error e => simp [hb] at h
    | ok vals =>
      simp only [hb, bindId] at h
      cases hn : pg.int4In id with
      | none => simp [hn] at h
      | some n =>
        simp only [hn] at h
        cases hu : updateUserRows (fun u => u.assignAll vals) n db.users with
        | error e => simp [hu] at h
        | ok r2 =>
          obtain ⟨tbl, ret2⟩ := r2
          simp [hu] at h
          obtain ⟨_, hdb⟩ := h
          subst hdb
          exact ⟨n, rfl, updateUserRows_other hu⟩

/-- A successful user update whose clauses are not role or active clauses leaves every
user row its id, username, role and active, and leaves the other tables. -/
theorem execUserUpdate_frame {pg : Pg} {db db1 : Db} {sets : List UserSet} {id : String}
    {ret : List UserRow} (h : execUserUpdate pg db sets id = .ok (ret, db1))
    (hs : ∀ s ∈ sets, (∀ x, s ≠ UserSet.role x) ∧ (∀ b, s ≠ UserSet.active b)) :
    List.Forall₂
        (fun u u1 : UserRow =>
          u1.id = u.id ∧ u1.username = u.username ∧ u1.role = u.role ∧ u1.active = u.active)
        db.users db1.users ∧
      db1.jobs = db.jobs ∧ db1.notes = db.notes ∧ db1.locations = db.locations := by
  unfold execUserUpdate at h
  cases sets with
  | nil => simp at h
  | cons s0 srest =>
    simp only at h
    cases hb : bindUserSets (s0 :: srest) with
    | error e => simp [hb] at h
    | ok vals =>
      simp only [hb, bindId] at h
      cases hn : pg.int4In id with
      | none => simp [hn] at h
      | some n =>
        simp only [hn] at h
        cases hu : updateUserRows (fun u => u.assignAll vals) n db.users with
        | error e => simp [hu] at h
        | ok r2 =>
          obtain ⟨tbl, ret2⟩ := r2
          simp [hu] at h
          obtain ⟨_, hdb⟩ := h
          subst hdb
          have hvals := bindUserSets_frame hb hs
          refine ⟨updateUserRows_forall₂ _ (fun u => ⟨rfl, rfl, rfl, rfl⟩) ?_ hu, rfl, rfl, rfl⟩
          intro u u1 hu1
          exact UserRow.assignAll_frame hu1 hvals

/-- For a caller that is not an admin the statement has no role or active clause. -/
theorem nonAdmin_clauses {bcrypt : String → String} {user : TokenUser} {body : UserBody}
    {pw : List UserSet} (hrole : user.role ≠ "admin") (hpw : passwordSet bcrypt body = some pw) :
    ∀ s ∈ userSetsBeforePassword user body ++ pw,
      (∀ x, s ≠ UserSet.role x) ∧ (∀ b, s ≠ UserSet.active b) := by
  intro s hs
  rcases List.mem_append.1 hs with h1 | h1
  · simp only [userSetsBeforePassword, hrole, if_false, List.append_nil] at h1
    split at h1
    · simp only [List.mem_singleton] at h1
      subst h1
      exact ⟨fun x => by simp, fun b => by simp⟩
    · simp at h1
  · unfold passwordSet at hpw
    split at hpw
    · split at hpw
      · simp only [Option.some.injEq] at hpw
        subst hpw
        simp only [List.mem_singleton] at h1
        subst h1
        exact ⟨fun x => by simp, fun b => by simp⟩
      · simp at hpw
    · simp only [Option.some.injEq] at hpw
      subst hpw
      simp at h1

/-- C25. For every caller that is not an admin: a user update whose route id does not
read (by `parseInt`) as the caller's own id is answered 403 and changes nothing; and
whatever the route id and the body, the update leaves every user row with the id,
username, role and active it had (only name and password can differ), leaves the other
tables and emits nothing; when the engine reads the route id as `parseInt` does, every
row other than the caller's own is left exactly as it was. -/
theorem C25_non_admin_user_update (pg : Pg) (bcrypt : String → String) (db : Db)
    (user : TokenUser) (id : String) (body : UserBody) (hrole : user.role ≠ "admin") :
    (jsParseInt id ≠ some user.id →
      putUser pg bcrypt db user id body = { db := db, res := accessDenied, emitted := [] }) ∧
    List.Forall₂
      (fun u u1 : UserRow =>
        u1.id = u.id ∧ u1.username = u.username ∧ u1.role = u.role ∧ u1.active = u.active)
      db.users (putUser pg bcrypt db user id body).db.users ∧
    (putUser pg bcrypt db user id body).db.jobs = db.jobs ∧
    (putUser pg bcrypt db user id body).db.notes = db.notes ∧
    (putUser pg bcrypt db user id body).db.locations = db.locations ∧
    (putUser pg bcrypt db user id body).emitted = [] ∧
    ((∀ n, pg.int4In id = some n → jsParseInt id = some n) →
      List.Forall₂ (fun u u1 : UserRow => u.id ≠ user.id → u1 = u)
        db.users (putUser pg bcrypt db user id body).db.users) := by
  have hsame2 : List.Forall₂ (fun u u1 : UserRow => u.id ≠ user.id → u1 = u)
      db.users db.users := by
    induction db.users with
    | nil => exact List.Forall₂.nil
    | cons a rest ih => exact List.Forall₂.cons (fun _ => rfl) ih
  have hsame : List.Forall₂
      (fun u u1 : UserRow =>
        u1.id = u.id ∧ u1.username = u.username ∧ u1.role = u.role ∧ u1.active = u.active)
      db.users db.users := by
    induction db.users with
    | nil => exact List.Forall₂.nil
    | cons a rest ih => exact List.Forall₂.cons ⟨rfl, rfl, rfl, rfl⟩ ih
  constructor
  · intro h
    simp [putUser, hrole, h]
  · unfold putUser
    split
    · exact ⟨hsame, rfl, rfl, rfl, rfl, fun _ => hsame2⟩
    · rename_i hpass
      have hself : jsParseInt id = some user.id := by
        by_contra hne
        exact hpass ⟨hrole, hne⟩
      cases hpw : passwordSet bcrypt body with
      | none => exact ⟨hsame, rfl, rfl, rfl, rfl, fun _ => hsame2⟩
      | some pw =>
        simp only
        cases hx : execUserUpdate pg db (userSetsBeforePassword user body ++ pw) id with
        | error e => exact ⟨hsame, rfl, rfl, rfl, rfl, fun _ => hsame2⟩
        | ok r =>
          obtain ⟨ret, db1⟩ := r
          have hdb1 := execUserUpdate_frame hx (nonAdmin_clauses hrole hpw)
          obtain ⟨n, hn, hoth⟩ := execUserUpdate_other hx
          have hown : (∀ m, pg.int4In id = some m → jsParseInt id = some m) →
              List.Forall₂ (fun u u1 : UserRow => u.id ≠ user.id → u1 = u)
                db.users db1.users := by
            intro hagree
            have hnu : n = user.id := by
              have := hagree n hn
              rw [hself] at this
              exact (Option.some.inj this).symm
            rw [← hnu]
            exact hoth
          cases ret with
          | nil => exact ⟨hdb1.1, hdb1.2.1, hdb1.2.2.1, hdb1.2.2.2, rfl, hown⟩
          | cons u rest => exact ⟨hdb1.1, hdb1.2.1, hdb1.2.2.1, hdb1.2.2.2, rfl, hown⟩

/-- Witness of C25: driver 2 addresses the row of driver 3 and is refused. -/
theorem C25_non_admin_user_update_witness :
    putUser samplePg (fun p => "hash:" ++ p) sampleDb driver2 "3"
        { name := .str "Mallory", role := .str "admin", active := .bool false } =
      { db := sampleDb, res := accessDenied, emitted := [] } :=
  (C25_non_admin_user_update samplePg (fun p => "hash:" ++ p) sampleDb driver2 "3"
    { name := .str "Mallory", role := .str "admin", active := .bool false } (by decide)).1
    (by decide)

/-! ### The job listing -/

theorem listClauses_append (k : Nat) (fs : List JobFilter) (f : JobFilter) :
    listClauses k (fs ++ [f]) =
      listClauses k fs ++ (" AND " ++ f.expr ++ " = $" ++ toString (k + fs.length + 1)) := by
  induction fs generalizing k with
  | nil => simp [listClauses]
  | cons g gs ih =>
    have e : k + 1 + gs.length + 1 = k + (gs.length + 1) + 1 := by omega
    show listClauses k (g :: (gs ++ [f])) = _
    rw [listClauses, listClauses, ih, List.length_cons, e]
    simp only [String.append_assoc]

/-- The text, the parameters and the counter of a listing query agree with its
conditions. -/
def ListQuery.aligned (q : ListQuery) : Prop :=
  q.query = listBase ++ listClauses 0 q.filters ∧
  q.params = q.filters.map JobFilter.param ∧
  q.paramCount = q.filters.length

theorem ListQuery.push_aligned {q : ListQuery} (h : q.aligned) (f : JobFilter) :
    (q.push f).aligned := by
  obtain ⟨h1, h2, h3⟩ := h
  refine ⟨?_, ?_, ?_⟩
  · simp only [ListQuery.push, listClauses_append, h1, h3, Nat.zero_add, String.append_assoc]
  · simp only [ListQuery.push, h2, List.map_append, List.map_cons, List.map_nil]
  · simp only [ListQuery.push, h3, List.length_append, List.length_cons, List.length_nil]

theorem ListQuery.step_aligned {q : ListQuery} (h : q.aligned) (c : Prop) [Decidable c]
    (f : JobFilter) : (if c then q.push f else q).aligned := by
  by_cases hc : c
  · rw [if_pos hc]; exact ListQuery.push_aligned h f
  · rw [if_neg hc]; exact h

theorem ListQuery.step_filters (q : ListQuery) (c : Prop) [Decidable c] (f : JobFilter) :
    (if c then q.push f else q).filters = q.filters ++ (if c then [f] else []) := by
  by_cases hc : c
  · rw [if_pos hc, if_pos hc]; rfl
  · rw [if_neg hc, if_neg hc, List.append_nil]

theorem buildJobsQuery_filters (user : TokenUser) (q : JobsQuery) :
    (buildJobsQuery user q).filters = jobFilters user q := by
  simp only [buildJobsQuery, jobFilters, ListQuery.step_filters, List.nil_append]

theorem buildJobsQuery_aligned (user : TokenUser) (q : JobsQuery) :
    (buildJobsQuery user q).query =
        listBase ++ listClauses 0 (jobFilters user q) ++ listOrder ∧
      (buildJobsQuery user q).params = (jobFilters user q).map JobFilter.param ∧
      (buildJobsQuery user q).paramCount = (jobFilters user q).length := by
  have h0 : ListQuery.aligned
      { query := listBase, params := [], paramCount := 0, filters := [] } :=
    ⟨by simp [listClauses], rfl, rfl⟩
  have h4 := ListQuery.step_aligned
    (ListQuery.step_aligned
      (ListQuery.step_aligned
        (ListQuery.step_aligned h0 (q.status.truthy = true) (.status q.status))
        (q.driver_id.truthy = true) (.driver q.driver_id))
      (q.date.truthy = true) (.date q.date))
    (user.role = "driver") (.own user.id)
  have hf := buildJobsQuery_filters user q
  simp only [buildJobsQuery] at hf
  obtain ⟨a, b, c⟩ := h4
  rw [hf] at a b c
  exact ⟨by simp only [buildJobsQuery]; rw [a], by simp only [buildJobsQuery]; exact b,
    by simp only [buildJobsQuery]; exact c⟩

theorem mem_insertListed (pg : Pg) (r x : JobListRow) (xs : List JobListRow) :
    x ∈ insertListed pg r xs ↔ x = r ∨ x ∈ xs := by
  induction xs with
  | nil => simp [insertListed]
  | cons y ys ih =>
    unfold insertListed
    split
    · simp
    · simp only [List.mem_cons, ih]; tauto

theorem mem_sortListed (pg : Pg) (x : JobListRow) (xs : List JobListRow) :
    x ∈ sortListed pg xs ↔ x ∈ xs := by
  induction xs with
  | nil => simp [sortListed]
  | cons y ys ih => simp only [sortListed, mem_insertListed, ih, List.mem_cons]

theorem mem_withDriver {db : Db} {j : Job} {r : JobListRow} (h : r ∈ withDriver db j) :
    r.job = j := by
  unfold withDriver at h
  split at h
  · simp only [List.mem_singleton] at h; rw [h]
  · simp only [List.mem_map] at h
    obtain ⟨_, _, rfl⟩ := h
    rfl

theorem bindFilters_mem {pg : Pg} {fs : List JobFilter} {cs : List JobCond}
    (h : bindFilters pg fs = .ok cs) {f : JobFilter} (hm : f ∈ fs) :
    ∃ c ∈ cs, bindFilter pg f = .ok c := by
  induction fs generalizing cs with
  | nil => cases hm
  | cons g gs ih =>
    simp only [bindFilters] at h
    cases hg : bindFilter pg g with
    | error e => rw [hg] at h; cases h
    | ok c =>
      rw [hg] at h
      cases hr : bindFilters pg gs with
      | error e => rw [hr] at h; cases h
      | ok cs1 =>
        rw [hr] at h
        cases h
        rcases List.mem_cons.1 hm with rfl | hm1
        · exact ⟨c, List.mem_cons_self _ _, hg⟩
        · obtain ⟨c1, hc1, hb⟩ := ih hr hm1
          exact ⟨c1, List.mem_cons_of_mem _ hc1, hb⟩

theorem selectJobs_mem {pg : Pg} {db : Db} {fs : List JobFilter} {rows : List JobListRow}
    (h : selectJobs pg db fs = .ok rows) {r : JobListRow} (hr : r ∈ rows) :
    r.job ∈ db.jobs ∧
      ∀ f ∈ fs, ∃ c, bindFilter pg f = .ok c ∧ c.holds r.job = true := by
  unfold selectJobs at h
  cases hb : bindFilters pg fs with
  | error e => rw [hb] at h; cases h
  | ok conds =>
    rw [hb] at h
    cases h
    rw [mem_sortListed] at hr
    obtain ⟨j, hj, hrj⟩ := List.mem_flatMap.1 hr
    have hjob := mem_withDriver hrj
    rw [hjob]
    obtain ⟨hj1, hj2⟩ := List.mem_filter.1 hj
    refine ⟨hj1, ?_⟩
    intro f hf
    obtain ⟨c, hc, hbc⟩ := bindFilters_mem hb hf
    exact ⟨c, hbc, List.all_eq_true.1 hj2 c hc⟩

theorem getJobs_200 {pg : Pg} {db : Db} {user : TokenUser} {q : JobsQuery}
    {rows : List JobListRow} (h : (getJobs pg db user q).res = ⟨200, .jobs rows⟩) :
    selectJobs pg db (jobFilters user q) = .ok rows := by
  unfold getJobs at h
  rw [buildJobsQuery_filters] at h
  cases hs : selectJobs pg db (jobFilters user q) with
  | error e => rw [hs] at h; simp [serverError] at h
  | ok rows1 =>
    rw [hs] at h
    simp only [Response.mk.injEq, ResBody.jobs.injEq, true_and] at h
    rw [h]

/-- C24: for a requester with the role driver and any status, driver_id and date
filters, every job of a 200 reply of the listing is a stored job whose driver_id is the
requester's id, and a driver_id filter that reads as another id gives an empty
listing; the handler leaves the store unchanged and emits nothing; the statement text
is the base text, then one condition per element of the condition list compared with
the placeholders `$1`, `$2`, ... in order, then the ORDER BY, and the parameter list
holds the values of these conditions in the same order, the requester's id among
them. -/
theorem C24_driver_lists_only_own_jobs (pg : Pg) (db : Db) (user : TokenUser) (q : JobsQuery)
    (hrole : user.role = "driver") :
    (∀ rows, (getJobs pg db user q).res = ⟨200, .jobs rows⟩ →
      (∀ r ∈ rows, r.job ∈ db.jobs ∧ r.job.driver_id = some user.id) ∧
      (∀ n, q.driver_id.truthy = true →
        bindWith pg.int4In (pgParam q.driver_id) = .ok (some n) → n ≠ user.id → rows = [])) ∧
    (getJobs pg db user q).db = db ∧
    (getJobs pg db user q).emitted = [] ∧
    (buildJobsQuery user q).query =
      listBase ++ listClauses 0 (jobFilters user q) ++ listOrder ∧
    (buildJobsQuery user q).params = (jobFilters user q).map JobFilter.param ∧
    (buildJobsQuery user q).paramCount = (jobFilters user q).length ∧
    (buildJobsQuery user q).params.getLast? = some (.int user.id) := by
  have hown : JobFilter.own user.id ∈ jobFilters user q := by
    simp only [jobFilters, hrole, if_true, List.mem_append, List.mem_singleton, or_true]
  have hal := buildJobsQuery_aligned user q
  have hmine : ∀ rows, selectJobs pg db (jobFilters user q) = .ok rows →
      ∀ r ∈ rows, r.job.driver_id = some user.id := by
    intro rows hs r hr
    obtain ⟨c, hc, hh⟩ := (selectJobs_mem hs hr).2 _ hown
    simp only [bindFilter, Except.ok.injEq] at hc
    subst hc
    simpa [JobCond.holds] using hh
  refine ⟨?_, ?_, ?_, hal.1, hal.2.1, hal.2.2, ?_⟩
  · intro rows h
    have hs := getJobs_200 h
    refine ⟨fun r hr => ⟨(selectJobs_mem hs hr).1, hmine rows hs r hr⟩, ?_⟩
    intro n ht hb hne
    apply List.eq_nil_iff_forall_not_mem.2
    intro r hr
    have hd : JobFilter.driver q.driver_id ∈ jobFilters user q := by
      simp only [jobFilters, ht, if_true, List.mem_append, List.mem_singleton, or_true,
        true_or]
    obtain ⟨c, hc, hh⟩ := (selectJobs_mem hs hr).2 _ hd
    simp only [bindFilter, hb, Except.map] at hc
    cases hc
    have h1 : r.job.driver_id = some n := by simpa [JobCond.holds] using hh
    have h2 := hmine rows hs r hr
    rw [h1] at h2
    exact hne (Option.some.inj h2)
  · unfold getJobs; split <;> rfl
  · unfold getJobs; split <;> rfl
  · rw [hal.2.1]
    simp only [jobFilters, hrole, if_true, List.map_append, List.map_cons, List.map_nil,
      JobFilter.param, List.getLast?_append, List.getLast?_singleton]
    rfl

theorem C24_driver_lists_only_own_jobs_witness :
    driver2.role = "driver" ∧
    (getJobs samplePg sampleDbListing driver2 { driver_id := .str "3" }).res =
      ⟨200, .jobs []⟩ ∧
    (getJobs samplePg sampleDbListing driver2 {}).res =
      ⟨200, .jobs [⟨sampleJob, some "Mike Driver", some "driver1"⟩]⟩ ∧
    (∀ r ∈ [(⟨sampleJob, some "Mike Driver", some "driver1"⟩ : JobListRow)],
      r.job ∈ sampleDbListing.jobs ∧ r.job.driver_id = some driver2.id) :=
  ⟨by decide, by decide, by decide,
    ((C24_driver_lists_only_own_jobs samplePg sampleDbListing driver2 {} (by decide)).1 _
      (by decide)).1⟩

end Dispatch
